import Mathlib

/-!
Verification development for the streaming indicator / signal-generation
pipeline.  The Python source is shallowly embedded: prices and volumes are
rationals, millisecond timestamps are integers, nullable values are
`Option`, and functions that can raise `ValueError` / `TypeError` return
`Except String`.  Definitions mirror the corresponding Python functions
and keep their names where Lean allows it.
-/

namespace Pipeline

/-- Generic stateful scan used by every recursive smoothing loop in the
source (`ema`, Wilder smoothing, `bcwsma`, cumulative VWAP): each input
element updates the state and emits one output. -/
def stateScan {σ α β : Type} (f : σ → α → σ × β) : σ → List α → List β
  | _, [] => []
  | s, x :: xs =>
    let p := f s x
    p.2 :: stateScan f p.1 xs

/-- Python `max` over a nonempty list (0 for the empty list, which the
source never passes). -/
def pyMax : List ℚ → ℚ
  | [] => 0
  | x :: xs => xs.foldl max x

/-- Python `min` over a nonempty list (0 for the empty list, which the
source never passes). -/
def pyMin : List ℚ → ℚ
  | [] => 0
  | x :: xs => xs.foldl min x

/-- Python slice `l[a:b]` on rational lists. -/
def pySlice (l : List ℚ) (a b : ℕ) : List ℚ := (l.drop a).take (b - a)

/-- `sum(l) / len-style` mean with the Python convention that the divisor
is the period. -/
def meanOver (l : List ℚ) (p : ℕ) : ℚ := l.sum / (p : ℚ)

end Pipeline

namespace StreamingBuffer

/-- `StreamingCandle` from `indicators/streaming_buffer.py` (the Python
field `open` is `open_` here because `open` is a Lean keyword). -/
structure StreamingCandle where
  timestamp : ℤ
  open_ : ℚ
  high : ℚ
  low : ℚ
  close : ℚ
  volume : ℚ
  is_closed : Bool
deriving Repr, DecidableEq

/-- `StreamingCandle.merge`: fold the latest push for the same timestamp
into the candle (the source raises on unequal timestamps but is only
invoked under the equality guard in `update`). -/
def StreamingCandle.merge (self other : StreamingCandle) : StreamingCandle :=
  { self with
    high := max self.high other.high
    low := min self.low other.low
    close := other.close
    volume := other.volume
    is_closed := other.is_closed }

/-- `StreamingKlineBuffer` state: bounded deque of closed candles, the
active candle, and the timestamp of the last sealed candle. -/
structure StreamingKlineBuffer where
  max_closed : ℕ
  closed_candles : List StreamingCandle
  active_candle : Option StreamingCandle
  last_closed_ts : Option ℤ
deriving Repr, DecidableEq

/-- A fresh buffer (`StreamingKlineBuffer.__init__`). -/
def StreamingKlineBuffer.empty (max_closed : ℕ) : StreamingKlineBuffer :=
  ⟨max_closed, [], none, none⟩

/-- `deque(maxlen=n).append`: drop from the front on overflow. -/
def pushBounded (n : ℕ) (l : List StreamingCandle) (c : StreamingCandle) :
    List StreamingCandle :=
  if n < (l ++ [c]).length then (l ++ [c]).drop ((l ++ [c]).length - n)
  else l ++ [c]

/-- `StreamingKlineBuffer._finalize_active`: seal the active candle and
append it to the closed deque. -/
def _finalize_active (b : StreamingKlineBuffer) : StreamingKlineBuffer :=
  match b.active_candle with
  | none => b
  | some a =>
    let a' := { a with is_closed := true }
    { b with
      closed_candles := pushBounded b.max_closed b.closed_candles a'
      last_closed_ts := some a'.timestamp
      active_candle := none }

/-- Python truthiness of `self.last_closed_ts`: `None` and `0` are both
falsy.  The replay guard in `update` tests exactly this. -/
def tsTruthy : Option ℤ → Bool
  | none => false
  | some t => t ≠ 0

/-- `StreamingKlineBuffer.update`, line for line: replay guard (with the
source's truthiness test on `last_closed_ts`), merge-or-replace, then
seal if the active candle is now closed. -/
def StreamingKlineBuffer.update (b : StreamingKlineBuffer)
    (candle : StreamingCandle) : StreamingKlineBuffer :=
  if candle.is_closed ∧ tsTruthy b.last_closed_ts ∧
      candle.timestamp ≤ b.last_closed_ts.getD 0 then
    b
  else
    let b1 :=
      match b.active_candle with
      | some a =>
        if candle.timestamp = a.timestamp then
          { b with active_candle := some (a.merge candle) }
        else
          let bf := _finalize_active b
          { bf with active_candle := some candle }
      | none =>
        let bf := _finalize_active b
        { bf with active_candle := some candle }
    match b1.active_candle with
    | some a => if a.is_closed then _finalize_active b1 else b1
    | none => b1

/-- Apply a stream of ticks in arrival order. -/
def applyTicks (b : StreamingKlineBuffer) (ticks : List StreamingCandle) :
    StreamingKlineBuffer :=
  ticks.foldl StreamingKlineBuffer.update b

/-- Invariant (a) of the spec's `CandleBuffer`: closed candles have
strictly increasing `open_time`. -/
def closedIncreasing (b : StreamingKlineBuffer) : Prop :=
  b.closed_candles.Chain' (fun c d => c.timestamp < d.timestamp)

/-- Invariant (b): the active candle's `open_time`, when present, exceeds
every closed candle's. -/
def activeAboveClosed (b : StreamingKlineBuffer) : Prop :=
  ∀ a, b.active_candle = some a →
    ∀ c ∈ b.closed_candles, c.timestamp < a.timestamp

/-- Both buffer ordering invariants. -/
def bufferInvariant (b : StreamingKlineBuffer) : Prop :=
  closedIncreasing b ∧ activeAboveClosed b

instance (b : StreamingKlineBuffer) : Decidable (closedIncreasing b) :=
  inferInstanceAs (Decidable (List.Chain' _ b.closed_candles))

instance (b : StreamingKlineBuffer) : Decidable (activeAboveClosed b) :=
  match hb : b.active_candle with
  | none => .isTrue (by intro a ha; rw [hb] at ha; cases ha)
  | some a0 =>
    decidable_of_iff (∀ c ∈ b.closed_candles, c.timestamp < a0.timestamp)
      (by
        constructor
        · intro h a ha
          rw [hb] at ha
          cases ha
          exact h
        · intro h
          exact h a0 hb)

instance (b : StreamingKlineBuffer) : Decidable (bufferInvariant b) :=
  inferInstanceAs (Decidable (closedIncreasing b ∧ activeAboveClosed b))

/-- Admissible tick streams: timestamps never decrease, and once a tick
closes a bar no later tick reuses that timestamp. -/
def admissibleTicks (ticks : List StreamingCandle) : Prop :=
  ticks.Chain' (fun a b =>
    a.timestamp < b.timestamp ∨
      (a.timestamp = b.timestamp ∧ a.is_closed = false))

instance (ticks : List StreamingCandle) : Decidable (admissibleTicks ticks) :=
  inferInstanceAs (Decidable (List.Chain' _ ticks))

/-- Scenario D shorthand: a tick with the given timestamp, close flag and
OHLCV values. -/
def mkTick (t : ℤ) (o h l c v : ℚ) (x : Bool) : StreamingCandle :=
  ⟨t, o, h, l, c, v, x⟩

end StreamingBuffer

namespace Indicators

open Pipeline

/-- Result record of `EMAIndicator.calculate` (`ema_cross.py`). -/
structure EMAResult where
  ema : Option ℚ
  ema_series : List ℚ
deriving Repr, DecidableEq

/-- Cumulative mean `sum(prices[:i+1])/(i+1)` used by `_ema` for the
positions before the seed. -/
def cumMeanAt (prices : List ℚ) (i : ℕ) : ℚ :=
  (prices.take (i + 1)).sum / ((i : ℚ) + 1)

/-- One `ema = alpha*x + (1-alpha)*ema` step as a `stateScan` transition. -/
def emaStep (alpha : ℚ) : ℚ → ℚ → ℚ × ℚ := fun prev x =>
  let v := alpha * x + (1 - alpha) * prev
  (v, v)

/-- `_ema(prices, period)` from `ema_cross.py`: empty below the period;
otherwise cumulative means up to index `period-2`, the seeded SMA at
`period-1`, then the EMA recurrence. -/
def _ema (prices : List ℚ) (period : ℕ) : List ℚ :=
  if prices.length = 0 ∨ prices.length < period then []
  else
    let alpha : ℚ := 2 / ((period : ℚ) + 1)
    let seed := meanOver (prices.take period) period
    ((List.range (period - 1)).map fun i => cumMeanAt prices i) ++
      seed :: stateScan (emaStep alpha) seed (prices.drop period)

/-- `EMAIndicator.calculate` (the `reverse=False` path used throughout the
pipeline). -/
def EMAIndicator.calculate (period : ℕ) (prices : List ℚ) : EMAResult :=
  if prices.length < period then ⟨none, []⟩
  else
    let v := _ema prices period
    ⟨v.getLast?, v⟩

/-- Result record of `RSIIndicator.calculate` (`rsi_indicator.py`). -/
structure RSIResult where
  rsi : List ℚ
  avg_gain : List ℚ
  avg_loss : List ℚ
deriving Repr, DecidableEq

/-- Successive close differences `prices[i] - prices[i-1]`. -/
def priceDiffs (prices : List ℚ) : List ℚ :=
  (prices.drop 1).zipWith (fun cur prev => cur - prev) prices

/-- `_calculate_price_changes` gains: the positive part of each diff. -/
def gainsOf (prices : List ℚ) : List ℚ :=
  (priceDiffs prices).map fun c => if 0 < c then c else 0

/-- `_calculate_price_changes` losses: `abs` of each non-positive diff. -/
def lossesOf (prices : List ℚ) : List ℚ :=
  (priceDiffs prices).map fun c => if 0 < c then 0 else |c|

/-- The smoothed-average sequence of `RSIIndicator.calculate` (EMA mode):
the SMA seed over the first `period` values followed by the
`alpha = 1/period` recurrence. -/
def rsiAvgSeq (period : ℕ) (values : List ℚ) : List ℚ :=
  let alpha : ℚ := 1 / (period : ℚ)
  let init := meanOver (values.take period) period
  init :: stateScan (emaStep alpha) init (values.drop period)

/-- `RSI = 100 - 100/(1+rs)` with the `avg_loss = 0 → 100` convention. -/
def rsiOf (g l : ℚ) : ℚ :=
  if l = 0 then 100 else 100 - 100 / (1 + g / l)

/-- `RSIIndicator.calculate` in its default EMA mode; raises `ValueError`
below `period + 1` samples. -/
def RSIIndicator.calculate (period : ℕ) (prices : List ℚ) :
    Except String RSIResult :=
  if prices.length < period + 1 then
    .error "价格数据长度不足"
  else
    let gains := gainsOf prices
    let losses := lossesOf prices
    if gains.length < period then
      .error "价格变化数据不足"
    else
      let avg_gains := rsiAvgSeq period gains
      let avg_losses := rsiAvgSeq period losses
      .ok ⟨avg_gains.zipWith rsiOf avg_losses, avg_gains, avg_losses⟩

/-- Result record of `MACDIndicator.calculate` (`macd_indicator.py`). -/
structure MACDResult where
  macd_line : List ℚ
  signal_line : List ℚ
  histogram : List ℚ
  ema_fast : List ℚ
  ema_slow : List ℚ
deriving Repr, DecidableEq

/-- `MACDIndicator._calculate_ema`: seeded SMA at index `period-1`, then
the EMA recurrence; empty below the period. -/
def MACDIndicator.calcEma (prices : List ℚ) (period : ℕ) (alpha : ℚ) :
    List ℚ :=
  if prices.length = 0 ∨ prices.length < period then []
  else
    let seed := meanOver (prices.take period) period
    seed :: stateScan (emaStep alpha) seed (prices.drop period)

/-- `MACDIndicator.calculate`: validates every price (`NaN`/`inf` cannot
arise over `ℚ`; `price <= 0` is rejected), requires `slow_period` samples,
and aligns the fast EMA, MACD line and signal line by dropping their
leading excess. -/
def MACDIndicator.calculate (fast slow signal_p : ℕ) (prices : List ℚ) :
    Except String MACDResult :=
  if prices.any fun p => p ≤ 0 then .error "无效的价格数据"
  else if prices.length < slow then .error "价格数据长度不足"
  else
    let ema_fast0 := MACDIndicator.calcEma prices fast (2 / ((fast : ℚ) + 1))
    let ema_slow := MACDIndicator.calcEma prices slow (2 / ((slow : ℚ) + 1))
    let ema_fast1 := ema_fast0.drop (ema_fast0.length - ema_slow.length)
    let macd0 := ema_fast1.zipWith (fun f s => f - s) ema_slow
    let signal_line :=
      MACDIndicator.calcEma macd0 signal_p (2 / ((signal_p : ℚ) + 1))
    let off2 := macd0.length - signal_line.length
    let macd_line := macd0.drop off2
    .ok
      { macd_line := macd_line
        signal_line := signal_line
        histogram := macd_line.zipWith (fun m s => m - s) signal_line
        ema_fast := ema_fast1.drop off2
        ema_slow := ema_slow.drop off2 }

/-- Result record of `BollingerBandsIndicator.calculate`
(`bollinger_bands.py`). -/
structure BollResult where
  upper_band : List ℚ
  middle_band : List ℚ
  lower_band : List ℚ
  bandwidth : List ℚ
  percent_b : List ℚ
  std_dev : List ℚ
deriving Repr, DecidableEq

/-- One Bollinger window at window start `j`: the source computes the SMA,
the population standard deviation via `np.sqrt` (passed in as `sqrtFn`
since square roots are not rational), the bands, `%B` and bandwidth. -/
def bollWindow (period : ℕ) (std_mult : ℚ) (sqrtFn : ℚ → ℚ)
    (prices : List ℚ) (j : ℕ) : ℚ × ℚ × ℚ × ℚ × ℚ × ℚ :=
  let w := (prices.drop j).take period
  let sma := meanOver w period
  let variance := (w.map fun p => (p - sma) ^ 2).sum / (period : ℚ)
  let std := sqrtFn variance
  let upper := sma + std_mult * std
  let lower := sma - std_mult * std
  let price := prices.getD (j + period - 1) 0
  let pb := if upper ≠ lower then (price - lower) / (upper - lower) else 1 / 2
  let bw := if sma ≠ 0 then (upper - lower) / sma else 0
  (upper, sma, lower, bw, pb, std)

/-- `BollingerBandsIndicator.calculate`: `_validate_prices` raises on an
empty input, on fewer than `period` samples, and on any negative price;
then one record per window ending at `period-1 … n-1`. -/
def BollingerBandsIndicator.calculate (period : ℕ) (std_mult : ℚ)
    (sqrtFn : ℚ → ℚ) (prices : List ℚ) : Except String BollResult :=
  if prices.length = 0 then .error "价格数据不能为空"
  else if prices.length < period then .error "价格数据长度不足"
  else if prices.any fun p => p < 0 then .error "价格不能为负数"
  else
    let ws := (List.range (prices.length - (period - 1))).map
      (bollWindow period std_mult sqrtFn prices)
    .ok
      { upper_band := ws.map fun w => w.1
        middle_band := ws.map fun w => w.2.1
        lower_band := ws.map fun w => w.2.2.1
        bandwidth := ws.map fun w => w.2.2.2.1
        percent_b := ws.map fun w => w.2.2.2.2.1
        std_dev := ws.map fun w => w.2.2.2.2.2 }

/-- Result record of `KDJIndicator.calculate` (`kdj_indicator.py`). -/
structure KDJResult where
  k : Option ℚ
  d : Option ℚ
  j : Option ℚ
  k_series : List ℚ
  d_series : List ℚ
  j_series : List ℚ
deriving Repr, DecidableEq

/-- One `bcwsma` step `(weight*s + (length-weight)*prev)/length`. -/
def bcwsmaStep (length weight : ℚ) : ℚ → ℚ → ℚ × ℚ := fun prev s =>
  let v := (weight * s + (length - weight) * prev) / length
  (v, v)

/-- `KDJIndicator._bcwsma` with its TradingView seed of 50. -/
def _bcwsma (source_values : List ℚ) (length weight : ℚ) : List ℚ :=
  stateScan (bcwsmaStep length weight) 50 source_values

/-- The RSV value at window start `j`:
`100*(close-lowest)/(highest-lowest)`, or 50 on a flat window. -/
def rsvAt (period : ℕ) (highs lows closes : List ℚ) (j : ℕ) : ℚ :=
  let ph := (highs.drop j).take period
  let pl := (lows.drop j).take period
  let c := closes.getD (j + period - 1) 0
  let highest := pyMax ph
  let lowest := pyMin pl
  if highest ≠ lowest then 100 * ((c - lowest) / (highest - lowest)) else 50

/-- `KDJIndicator.calculate`: raises on mismatched lengths, returns the
all-`None` record below `period` samples, otherwise RSV → K → D → J. -/
def KDJIndicator.calculate (period signal : ℕ)
    (highs lows closes : List ℚ) : Except String KDJResult :=
  if ¬(highs.length = lows.length ∧ highs.length = closes.length) then
    .error "最高价、最低价、收盘价数据长度必须一致"
  else if closes.length < period then
    .ok ⟨none, none, none, [], [], []⟩
  else
    let rsv := (List.range (closes.length - (period - 1))).map
      (rsvAt period highs lows closes)
    let k_values := _bcwsma rsv (signal : ℚ) 1
    let d_values := _bcwsma k_values (signal : ℚ) 1
    let j_values := k_values.zipWith (fun k d => 3 * k - 2 * d) d_values
    .ok ⟨k_values.getLast?, d_values.getLast?, j_values.getLast?,
      k_values, d_values, j_values⟩

/-- Result record of `ATRIndicator.calculate` (`atr_indicator.py`). -/
structure ATRResult where
  atr : Option ℚ
  tr : Option ℚ
  atr_series : List ℚ
  tr_series : List ℚ
deriving Repr, DecidableEq

/-- One Wilder smoothing step `(prev*(period-1) + x)/period`. -/
def wilderStep (period : ℕ) : ℚ → ℚ → ℚ × ℚ := fun prev x =>
  let v := (prev * ((period : ℚ) - 1) + x) / (period : ℚ)
  (v, v)

/-- The true-range sequence: `high-low` at index 0, then
`max(H-L, |H-PC|, |L-PC|)`. -/
def trSeq (highs lows closes : List ℚ) : List ℚ :=
  (List.range closes.length).map fun i =>
    if i = 0 then highs.getD 0 0 - lows.getD 0 0
    else
      max (highs.getD i 0 - lows.getD i 0)
        (max |highs.getD i 0 - closes.getD (i - 1) 0|
          |lows.getD i 0 - closes.getD (i - 1) 0|)

/-- `ATRIndicator.calculate`: raises on mismatched lengths, returns the
`None` record below `period+1` samples; otherwise the SMA of
`TR[1..period]` seeds the Wilder recurrence, and the TR series is the
suffix from index `period`. -/
def ATRIndicator.calculate (period : ℕ) (highs lows closes : List ℚ) :
    Except String ATRResult :=
  if ¬(highs.length = lows.length ∧ highs.length = closes.length) then
    .error "最高价、最低价、收盘价数据长度必须一致"
  else if closes.length < period + 1 then
    .ok ⟨none, none, [], []⟩
  else
    let tr_values := trSeq highs lows closes
    let initial := meanOver ((tr_values.drop 1).take period) period
    let atr_values :=
      initial :: stateScan (wilderStep period) initial
        (tr_values.drop (period + 1))
    let aligned_tr := tr_values.drop period
    .ok ⟨atr_values.getLast?, aligned_tr.getLast?, atr_values, aligned_tr⟩

end Indicators

namespace Indicators

open Pipeline

/-- Result record of `ADXIndicator.calculate` (`adx_indicator.py`); the
series are full-length and `None`-padded in the source. -/
structure ADXResult where
  adx : Option ℚ
  plus_di : Option ℚ
  minus_di : Option ℚ
  dx : Option ℚ
  adx_series : List (Option ℚ)
  plus_di_series : List (Option ℚ)
  minus_di_series : List (Option ℚ)
  dx_series : List (Option ℚ)
deriving Repr, DecidableEq

/-- `ADXIndicator._wilder_smooth`: all-`None` below the period, otherwise
`period-1` `None`s, the SMA seed, then the Wilder recurrence. -/
def _wilder_smooth (values : List ℚ) (period : ℕ) : List (Option ℚ) :=
  if values.length < period then values.map fun _ => none
  else
    let first := meanOver (values.take period) period
    (List.replicate (period - 1) (none : Option ℚ)) ++
      (first :: stateScan (wilderStep period) first (values.drop period)).map
        some

/-- The `(+DM, -DM)` pair of `_calculate_directional_movement`. -/
def dmPair (high low prev_high prev_low : ℚ) : ℚ × ℚ :=
  let up_move := high - prev_high
  let down_move := prev_low - low
  (if down_move < up_move ∧ 0 < up_move then up_move else 0,
   if up_move < down_move ∧ 0 < down_move then down_move else 0)

/-- ADX true range at bar `i ≥ 1` (the loop starts at index 1, so the
previous close always exists). -/
def adxTrAt (highs lows closes : List ℚ) (i : ℕ) : ℚ :=
  max (highs.getD i 0 - lows.getD i 0)
    (max |highs.getD i 0 - closes.getD (i - 1) 0|
      |lows.getD i 0 - closes.getD (i - 1) 0|)

/-- `+DI`/`-DI` entry from the smoothed TR and the smoothed DM: defined
only where the smoothed TR exists and is positive (the smoothed DM is
non-`None` exactly where the smoothed TR is). -/
def diEntry (st : Option ℚ) (sdm : Option ℚ) : Option ℚ :=
  match st with
  | some t => if 0 < t then some (100 * sdm.getD 0 / t) else none
  | none => none

/-- `DX` entry from the two DI entries: `100*|+DI - -DI|/(+DI + -DI)`
with a zero-sum fallback of 0. -/
def dxEntry (pd md : Option ℚ) : Option ℚ :=
  match pd, md with
  | some p, some m =>
    if 0 < p + m then some (100 * |p - m| / (p + m)) else some 0
  | _, _ => none

/-- The ADX smoothing of the DX sequence, mirroring the source's
write-by-index loop: positions before `start + period - 1` stay `None`,
and from there the SMA seed over the first `period` valid DX values is
followed by the Wilder recurrence (out-of-range writes fall off the end,
exactly like the source's bounds guard). -/
def adxOfDx (period : ℕ) (dx_values : List (Option ℚ)) : List (Option ℚ) :=
  match dx_values.findIdx? fun o => o.isSome with
  | none => List.replicate dx_values.length none
  | some start =>
    let valid := (dx_values.drop start).filterMap id
    if valid.length < period then List.replicate dx_values.length none
    else
      let first := meanOver (valid.take period) period
      let adxScan :=
        first :: stateScan (wilderStep period) first (valid.drop period)
      (List.range dx_values.length).map fun idx =>
        if idx < start + period - 1 then none
        else adxScan.get? (idx - (start + period - 1))

/-- Pad or truncate a series to length `n` (the source's final alignment
step). -/
def fitLen (n : ℕ) (l : List (Option ℚ)) : List (Option ℚ) :=
  if n < l.length then l.take n else l ++ List.replicate (n - l.length) none

/-- `ADXIndicator.calculate`: raises on mismatched lengths, returns the
empty record below 2 samples, otherwise TR/±DM → Wilder smoothing →
±DI → DX → ADX, every series prepended with one `None` and fitted to the
input length. -/
def ADXIndicator.calculate (period : ℕ) (highs lows closes : List ℚ) :
    Except String ADXResult :=
  if ¬(highs.length = lows.length ∧ highs.length = closes.length) then
    .error "最高价、最低价、收盘价数据长度必须一致"
  else if closes.length < 2 then
    .ok ⟨none, none, none, none, [], [], [], []⟩
  else
    let n := closes.length
    let idxs := (List.range (n - 1)).map fun k => k + 1
    let tr_values := idxs.map (adxTrAt highs lows closes)
    let plus_dm_values := idxs.map fun i =>
      (dmPair (highs.getD i 0) (lows.getD i 0) (highs.getD (i - 1) 0)
        (lows.getD (i - 1) 0)).1
    let minus_dm_values := idxs.map fun i =>
      (dmPair (highs.getD i 0) (lows.getD i 0) (highs.getD (i - 1) 0)
        (lows.getD (i - 1) 0)).2
    let smoothed_tr := _wilder_smooth tr_values period
    let smoothed_plus_dm := _wilder_smooth plus_dm_values period
    let smoothed_minus_dm := _wilder_smooth minus_dm_values period
    let plus_di_values := smoothed_tr.zipWith diEntry smoothed_plus_dm
    let minus_di_values := smoothed_tr.zipWith diEntry smoothed_minus_dm
    let dx_values := plus_di_values.zipWith dxEntry minus_di_values
    let adx_values := adxOfDx period dx_values
    let adx_series := fitLen n (none :: adx_values)
    let plus_di_series := fitLen n (none :: plus_di_values)
    let minus_di_series := fitLen n (none :: minus_di_values)
    let dx_series := fitLen n (none :: dx_values)
    .ok
      { adx := (adx_series.getLast?).join
        plus_di := (plus_di_series.getLast?).join
        minus_di := (minus_di_series.getLast?).join
        dx := (dx_series.getLast?).join
        adx_series := adx_series
        plus_di_series := plus_di_series
        minus_di_series := minus_di_series
        dx_series := dx_series }

/-- Result record of `CCIIndicator.calculate` (`cci_indicator.py`). -/
structure CCIResult where
  cci : List ℚ
  typical_price : List ℚ
  sma : List ℚ
  mean_deviation : List ℚ
deriving Repr, DecidableEq

/-- Typical price `(h+l+c)/3`. -/
def typicalPrices (highs lows closes : List ℚ) : List ℚ :=
  (highs.zip (lows.zip closes)).map fun t => (t.1 + t.2.1 + t.2.2) / 3

/-- The CCI value at window start `j`: the SMA and mean absolute
deviation share the window `tp[j:j+period]`, and `MD = 0` yields 0. -/
def cciAt (period : ℕ) (tp : List ℚ) (j : ℕ) : ℚ × ℚ × ℚ :=
  let w := (tp.drop j).take period
  let sma := meanOver w period
  let md := meanOver (w.map fun v => |v - sma|) period
  let cur := tp.getD (j + period - 1) 0
  (if md ≠ 0 then (cur - sma) / ((15 / 1000) * md) else 0, sma, md)

/-- `CCIIndicator.calculate`: raises on mismatched lengths and below
`period` samples. -/
def CCIIndicator.calculate (period : ℕ) (highs lows closes : List ℚ) :
    Except String CCIResult :=
  if ¬(highs.length = lows.length ∧ highs.length = closes.length) then
    .error "最高价、最低价、收盘价数据长度必须一致"
  else if closes.length < period then .error "数据长度不足"
  else
    let tp := typicalPrices highs lows closes
    let ws := (List.range (closes.length - (period - 1))).map (cciAt period tp)
    .ok
      { cci := ws.map fun w => w.1
        typical_price := tp.drop (period - 1)
        sma := ws.map fun w => w.2.1
        mean_deviation := ws.map fun w => w.2.2 }

/-- Result record of `VWAPIndicator.calculate` (`vwap_indicator.py`). -/
structure VWAPResult where
  vwap : Option ℚ
  vwap_series : List ℚ
deriving Repr, DecidableEq

/-- One VWAP accumulation step over `(typical price, volume)` pairs:
update the running sums and emit `Σpv/Σv` (or the bare typical price
while the cumulative volume is not positive). -/
def vwapStep : ℚ × ℚ → ℚ × ℚ → (ℚ × ℚ) × ℚ := fun s tv =>
  let cpv := s.1 + tv.1 * tv.2
  let cvol := s.2 + tv.2
  ((cpv, cvol), if 0 < cvol then cpv / cvol else tv.1)

/-- `VWAPIndicator.calculate`: raises on mismatched lengths, returns the
empty record on empty input, otherwise the cumulative series. -/
def VWAPIndicator.calculate (highs lows closes volumes : List ℚ) :
    Except String VWAPResult :=
  if ¬(highs.length = lows.length ∧ highs.length = closes.length ∧
      highs.length = volumes.length) then
    .error "数据长度必须一致"
  else if closes.length = 0 then .ok ⟨none, []⟩
  else
    let tps := typicalPrices highs lows closes
    let series := stateScan vwapStep (0, 0) (tps.zip volumes)
    .ok ⟨series.getLast?, series⟩

/-- Result record of `VolumeIndicator.calculate`
(`volume_indicator.py`). -/
structure VolumeResult where
  volume : Option ℚ
  volume_ma : Option ℚ
  volume_ratio : Option ℚ
  volume_change : Option ℚ
  volume_series : List ℚ
  volume_ma_series : List (Option ℚ)
  volume_ratio_series : List (Option ℚ)
deriving Repr, DecidableEq

/-- `VolumeIndicator._calculate_sma`: a full-length series that is
all-`None` below the period and otherwise `None` before index
`period-1`. -/
def VolumeIndicator._calculate_sma (values : List ℚ) (period : ℕ) :
    List (Option ℚ) :=
  if values.length < period then values.map fun _ => none
  else
    (List.range values.length).map fun i =>
      if i < period - 1 then none
      else some (meanOver ((values.drop (i + 1 - period)).take period) period)

/-- `VolumeIndicator.calculate`: total (never raises); the ratio series
divides each volume by its MA where the MA is positive, and
`volume_change` compares the last two volumes. -/
def VolumeIndicator.calculate (ma_period : ℕ) (volumes : List ℚ) :
    VolumeResult :=
  if volumes.length = 0 then ⟨none, none, none, none, [], [], []⟩
  else
    let ma := VolumeIndicator._calculate_sma volumes ma_period
    let ratio := volumes.zipWith
      (fun v m => match m with
        | some mv => if 0 < mv then some (v / mv) else none
        | none => none) ma
    let change :=
      if 2 ≤ volumes.length ∧ 0 < volumes.getD (volumes.length - 2) 0 then
        some ((volumes.getD (volumes.length - 1) 0 -
          volumes.getD (volumes.length - 2) 0) /
          volumes.getD (volumes.length - 2) 0)
      else none
    { volume := volumes.getLast?
      volume_ma := (ma.getLast?).join
      volume_ratio := (ratio.getLast?).join
      volume_change := change
      volume_series := volumes
      volume_ma_series := ma
      volume_ratio_series := ratio }

end Indicators

namespace Strategy

open Pipeline Indicators

/-- `SignalDirection` from `base_strategy.py`. -/
inductive SignalDirection where
  | BUY
  | SELL
  | HOLD
deriving Repr, DecidableEq

/-- `MarketState` from `strategy/market_state.py`. -/
inductive MarketState where
  | RANGING
  | TRENDING_UP
  | TRENDING_DOWN
  | BREAKOUT_UP
  | BREAKOUT_DOWN
  | UNKNOWN
deriving Repr, DecidableEq

/-- `SignalGrade` from `signal_generator.py`. -/
inductive SignalGrade where
  | A
  | B
  | C
  | NONE
deriving Repr, DecidableEq

/-- A dynamically typed Python value as it flows through the ranging
strategy: the indicator dictionaries hand back `None`, scalars, or whole
series (lists), and the comparison operators only accept numbers. -/
inductive PyVal where
  | none
  | num (q : ℚ)
  | list (l : List ℚ)
deriving Repr, DecidableEq

/-- Python `<` on dynamic values: numbers compare, everything else raises
`TypeError` (in particular `list < int`). -/
def pyLt : PyVal → PyVal → Except String Bool
  | .num a, .num b => .ok (decide (a < b))
  | _, _ => .error "TypeError: '<' not supported between instances"

/-- Python `>` on dynamic values. -/
def pyGt : PyVal → PyVal → Except String Bool
  | .num a, .num b => .ok (decide (b < a))
  | _, _ => .error "TypeError: '>' not supported between instances"

/-- Lift an optional scalar into a dynamic value. -/
def PyVal.ofOpt : Option ℚ → PyVal
  | Option.none => .none
  | Option.some q => .num q

/-- `VolumeCondition` from `volume_indicator.py`. -/
inductive VolumeCondition where
  | SPIKE
  | HIGH
  | NORMAL
  | LOW
  | VERY_LOW
deriving Repr, DecidableEq

/-- `VolumeAnalyzer._get_volume_condition` with the default thresholds
(2.0 / 1.5 / 0.7 / 0.5). -/
def _get_volume_condition (ratio : Option ℚ) : VolumeCondition :=
  match ratio with
  | Option.none => .NORMAL
  | Option.some r =>
    if 2 ≤ r then .SPIKE
    else if 3 / 2 ≤ r then .HIGH
    else if r ≤ 1 / 2 then .VERY_LOW
    else if r ≤ 7 / 10 then .LOW
    else .NORMAL

/-- `StrategySignal` from `base_strategy.py`.  `stop_loss`/`take_profit`
are dynamic values because the ranging strategy assigns whatever the
indicator dictionaries held (the middle-band entry is a whole series). -/
structure StrategySignal where
  direction : SignalDirection
  strength : ℚ
  strategy_name : String
  reasons : List String
  entry_price : Option ℚ
  stop_loss : PyVal
  take_profit : PyVal
  indicator_values : List (String × PyVal)
deriving Repr, DecidableEq

/-- `BaseStrategy._create_signal`: clamps the strength into `[0, 1]`. -/
def _create_signal (name : String) (direction : SignalDirection)
    (strength : ℚ) (reasons : List String) (entry_price : Option ℚ)
    (stop_loss take_profit : PyVal)
    (indicator_values : List (String × PyVal)) : StrategySignal :=
  { direction := direction
    strength := min (max strength 0) 1
    strategy_name := name
    reasons := reasons
    entry_price := entry_price
    stop_loss := stop_loss
    take_profit := take_profit
    indicator_values := indicator_values }

/-- `BaseStrategy._no_signal`: a HOLD with zero strength and one reason. -/
def strategyNoSignal (name reason : String)
    (indicator_values : List (String × PyVal)) : StrategySignal :=
  _create_signal name .HOLD 0 [reason] Option.none .none .none indicator_values

/-- Accumulator of `_check_buy_conditions` / `_check_sell_conditions`:
signal count, reasons, additive strength. -/
structure CheckAcc where
  signals : ℕ
  reasons : List String
  strength : ℚ
deriving Repr, DecidableEq

/-- `RangingStrategy._check_buy_conditions` with the default thresholds
(`bb_lower=0.15`, `rsi_oversold=35`, `kdj_oversold=25`, `j_low=10`).
`percent_b` and `rsi` arrive as dynamic values; comparing them raises
when they hold whole series.  Reason strings drop the numeric
interpolation of the source's f-strings. -/
def RangingStrategy._check_buy_conditions (percent_b rsi : PyVal)
    (k d j : Option ℚ) (k_series d_series : List ℚ) (volume_low : Bool) :
    Except String CheckAcc := do
  let mut acc : CheckAcc := ⟨0, [], 0⟩
  if percent_b ≠ PyVal.none then
    if ← pyLt percent_b (.num 0) then
      acc := ⟨acc.signals + 1, acc.reasons ++ ["价格跌破布林带下轨"],
        acc.strength + 35 / 100⟩
    else if ← pyLt percent_b (.num (3 / 20)) then
      acc := ⟨acc.signals + 1, acc.reasons ++ ["价格接近布林带下轨"],
        acc.strength + 25 / 100⟩
  if rsi ≠ PyVal.none then
    if ← pyLt rsi (.num 20) then
      acc := ⟨acc.signals + 1, acc.reasons ++ ["RSI极度超卖"],
        acc.strength + 30 / 100⟩
    else if ← pyLt rsi (.num 35) then
      acc := ⟨acc.signals + 1, acc.reasons ++ ["RSI超卖"],
        acc.strength + 20 / 100⟩
  match k, d with
  | Option.some kv, Option.some dv =>
    match j with
    | Option.some jv =>
      if jv < 10 then
        acc := ⟨acc.signals + 1, acc.reasons ++ ["KDJ J值极低"],
          acc.strength + 25 / 100⟩
      else if kv < 25 then
        acc := ⟨acc.signals + 1, acc.reasons ++ ["KDJ K值超卖"],
          acc.strength + 15 / 100⟩
    | Option.none =>
      if kv < 25 then
        acc := ⟨acc.signals + 1, acc.reasons ++ ["KDJ K值超卖"],
          acc.strength + 15 / 100⟩
    if 2 ≤ k_series.length ∧ 2 ≤ d_series.length then
      let prev_k := k_series.getD (k_series.length - 2) 0
      let prev_d := d_series.getD (d_series.length - 2) 0
      if prev_k < prev_d ∧ dv < kv then
        acc := ⟨acc.signals + 1, acc.reasons ++ ["KDJ金叉形成"],
          acc.strength + 20 / 100⟩
  | _, _ => pure ()
  if volume_low then
    acc := ⟨acc.signals, acc.reasons ++ ["成交量萎缩（抛压减弱）"],
      acc.strength + 10 / 100⟩
  return ⟨acc.signals, acc.reasons, min acc.strength 1⟩

/-- `RangingStrategy._check_sell_conditions` (mirror image, thresholds
`bb_upper=0.85`, `rsi_overbought=65`, `kdj_overbought=75`,
`j_high=90`). -/
def RangingStrategy._check_sell_conditions (percent_b rsi : PyVal)
    (k d j : Option ℚ) (k_series d_series : List ℚ) (volume_low : Bool) :
    Except String CheckAcc := do
  let mut acc : CheckAcc := ⟨0, [], 0⟩
  if percent_b ≠ PyVal.none then
    if ← pyGt percent_b (.num 1) then
      acc := ⟨acc.signals + 1, acc.reasons ++ ["价格突破布林带上轨"],
        acc.strength + 35 / 100⟩
    else if ← pyGt percent_b (.num (17 / 20)) then
      acc := ⟨acc.signals + 1, acc.reasons ++ ["价格接近布林带上轨"],
        acc.strength + 25 / 100⟩
  if rsi ≠ PyVal.none then
    if ← pyGt rsi (.num 80) then
      acc := ⟨acc.signals + 1, acc.reasons ++ ["RSI极度超买"],
        acc.strength + 30 / 100⟩
    else if ← pyGt rsi (.num 65) then
      acc := ⟨acc.signals + 1, acc.reasons ++ ["RSI超买"],
        acc.strength + 20 / 100⟩
  match k, d with
  | Option.some kv, Option.some dv =>
    match j with
    | Option.some jv =>
      if 90 < jv then
        acc := ⟨acc.signals + 1, acc.reasons ++ ["KDJ J值极高"],
          acc.strength + 25 / 100⟩
      else if 75 < kv then
        acc := ⟨acc.signals + 1, acc.reasons ++ ["KDJ K值超买"],
          acc.strength + 15 / 100⟩
    | Option.none =>
      if 75 < kv then
        acc := ⟨acc.signals + 1, acc.reasons ++ ["KDJ K值超买"],
          acc.strength + 15 / 100⟩
    if 2 ≤ k_series.length ∧ 2 ≤ d_series.length then
      let prev_k := k_series.getD (k_series.length - 2) 0
      let prev_d := d_series.getD (d_series.length - 2) 0
      if prev_d < prev_k ∧ kv < dv then
        acc := ⟨acc.signals + 1, acc.reasons ++ ["KDJ死叉形成"],
          acc.strength + 20 / 100⟩
  | _, _ => pure ()
  if volume_low then
    acc := ⟨acc.signals, acc.reasons ++ ["成交量萎缩（买盘减弱）"],
      acc.strength + 10 / 100⟩
  return ⟨acc.signals, acc.reasons, min acc.strength 1⟩

/-- Python truthiness of a dynamic value (`atr`, `bb.get('middle')`):
`None`, `0` and the empty list are falsy. -/
def pyTruthy : PyVal → Bool
  | .none => false
  | .num q => q ≠ 0
  | .list l => l ≠ []

/-- `RangingStrategy.analyze` on the path the signal generator exercises
(`indicators=None`, so every indicator is recomputed here).  The RSI
entry and the Bollinger `%B` entry of the result dictionaries are whole
series, and they are bound unchanged — exactly as in the source. -/
def RangingStrategy.analyze (sqrtFn : ℚ → ℚ) (highs lows closes : List ℚ)
    (volumes : Option (List ℚ)) : Except String StrategySignal := do
  if closes.length < 30 then
    return strategyNoSignal "ranging" "数据不足" []
  let current_price := closes.getD (closes.length - 1) 0
  let rsi_result ← RSIIndicator.calculate 14 closes
  let rsi : PyVal := .list rsi_result.rsi
  let kdj_result ← KDJIndicator.calculate 9 3 highs lows closes
  let bb_result ← BollingerBandsIndicator.calculate 20 2 sqrtFn closes
  let percent_b : PyVal := .list bb_result.percent_b
  let bb_middle : PyVal := .list bb_result.middle_band
  let atr_result ← ATRIndicator.calculate 14 highs lows closes
  let atr := atr_result.atr
  let volume_low :=
    match volumes with
    | Option.some vs =>
      if 0 < vs.length then
        let vr := (VolumeIndicator.calculate 20 vs).volume_ratio
        let cond := _get_volume_condition vr
        cond = VolumeCondition.LOW ∨ cond = VolumeCondition.VERY_LOW
      else false
    | Option.none => false
  let buy ← RangingStrategy._check_buy_conditions percent_b rsi
    kdj_result.k kdj_result.d kdj_result.j kdj_result.k_series
    kdj_result.d_series volume_low
  let sell ← RangingStrategy._check_sell_conditions percent_b rsi
    kdj_result.k kdj_result.d kdj_result.j kdj_result.k_series
    kdj_result.d_series volume_low
  let indicator_values : List (String × PyVal) :=
    [("rsi", rsi), ("kdj_k", PyVal.ofOpt kdj_result.k),
     ("kdj_d", PyVal.ofOpt kdj_result.d),
     ("kdj_j", PyVal.ofOpt kdj_result.j), ("bb_percent_b", percent_b),
     ("bb_middle", bb_middle), ("atr", PyVal.ofOpt atr)]
  if 2 ≤ buy.signals ∧ sell.strength < buy.strength then
    let stop_loss : PyVal :=
      if pyTruthy (PyVal.ofOpt atr) then .num (current_price - atr.getD 0 * 2)
      else .none
    let take_profit : PyVal := if pyTruthy bb_middle then bb_middle else .none
    return _create_signal "ranging" .BUY buy.strength buy.reasons
      (Option.some current_price) stop_loss take_profit indicator_values
  else if 2 ≤ sell.signals ∧ buy.strength < sell.strength then
    let stop_loss : PyVal :=
      if pyTruthy (PyVal.ofOpt atr) then .num (current_price + atr.getD 0 * 2)
      else .none
    let take_profit : PyVal := if pyTruthy bb_middle then bb_middle else .none
    return _create_signal "ranging" .SELL sell.strength sell.reasons
      (Option.some current_price) stop_loss take_profit indicator_values
  return strategyNoSignal "ranging" "未满足震荡策略条件" indicator_values

end Strategy

namespace Generator

open Strategy

/-- Rounding to the nearest integer with Python's round-half-to-even
tie-break (the behaviour of `round` on the exact values arising here). -/
def roundHalfEven (q : ℚ) : ℤ :=
  if q - ⌊q⌋ < 1 / 2 then ⌊q⌋
  else if 1 / 2 < q - ⌊q⌋ then ⌊q⌋ + 1
  else if Even ⌊q⌋ then ⌊q⌋ else ⌊q⌋ + 1

/-- Python `round(q, nd)`. -/
def pyRound (q : ℚ) (nd : ℕ) : ℚ :=
  (roundHalfEven (q * 10 ^ nd) : ℚ) / 10 ^ nd

/-- `Prediction` from `signal_generator.py`. -/
structure Prediction where
  horizon_minutes : ℕ
  direction : String
  confidence : ℚ
  target_price : Option ℚ
deriving Repr, DecidableEq

/-- `get_prediction_horizons()` from `strategy_config.py`. -/
def prediction_horizons : List ℕ := [10, 30, 60]

/-- `SignalGenerator._generate_predictions`: one prediction per
configured horizon; the confidence is `strength·(1 - h/120·0.3)` rounded
to three decimals, and the ATR-based target price is rounded to two —
with the source's truthiness tests `if atr:` and
`if target_price ... else None` (zero is falsy). -/
def _generate_predictions (direction : SignalDirection)
    (strength current_price : ℚ) (atr : Option ℚ) : List Prediction :=
  if direction = .HOLD then []
  else
    let pred_direction := if direction = .BUY then "up" else "down"
    prediction_horizons.map fun (horizon : ℕ) =>
      let time_decay : ℚ := 1 - ((horizon : ℚ) / 120) * (3 / 10)
      let confidence := strength * time_decay
      let target_price : Option ℚ :=
        match atr with
        | Option.some a =>
          if a ≠ 0 then
            Option.some
              (if direction = .BUY then
                current_price + a * ((horizon : ℚ) / 30)
              else current_price - a * ((horizon : ℚ) / 30))
          else Option.none
        | Option.none => Option.none
      { horizon_minutes := horizon
        direction := pred_direction
        confidence := pyRound confidence 3
        target_price :=
          match target_price with
          | Option.some t =>
            if t ≠ 0 then Option.some (pyRound t 2) else Option.none
          | Option.none => Option.none }

/-- `TradingSignal` from `signal_generator.py` (the wall-clock timestamp
and the metadata map are outside the embedding). -/
structure TradingSignal where
  signal_id : String
  symbol : String
  direction : SignalDirection
  strength : ℚ
  adjusted_strength : ℚ
  grade : SignalGrade
  market_state : MarketState
  strategy_used : String
  is_confirmed : Bool
  confirmation_count : ℕ
  timeframe_confirmations : List (String × Bool)
  entry_price : ℚ
  stop_loss : Option ℚ
  take_profit : Option ℚ
  predictions : List Prediction
  reasons : List String
  warnings : List String
  indicator_values : List (String × PyVal)
deriving Repr, DecidableEq

/-- `SignalGenerator._no_signal`: the fixed HOLD record. -/
def SignalGenerator._no_signal (signal_id symbol reason : String)
    (market_state : MarketState) (strategy_used : String)
    (indicator_values : List (String × PyVal)) : TradingSignal :=
  { signal_id := signal_id
    symbol := symbol
    direction := .HOLD
    strength := 0
    adjusted_strength := 0
    grade := .NONE
    market_state := market_state
    strategy_used := strategy_used
    is_confirmed := false
    confirmation_count := 0
    timeframe_confirmations := []
    entry_price := 0
    stop_loss := Option.none
    take_profit := Option.none
    predictions := []
    reasons := [reason]
    warnings := []
    indicator_values := indicator_values }

/-- The inputs of `SignalGenerator.generate` that the guard inspects. -/
structure GenerateInputs where
  highs : List ℚ
  lows : List ℚ
  closes : List ℚ
  volumes : Option (List ℚ)

/-- `SignalGenerator.generate`, lines 200-205: the length guard runs
before the dashboard-indicator pack, the market-state classifier and any
strategy, so everything after it is abstracted as the continuation
`rest`. -/
def SignalGenerator.generate
    (rest : GenerateInputs → TradingSignal)
    (signal_id symbol : String) (inp : GenerateInputs) : TradingSignal :=
  if inp.closes.length < 60 then
    SignalGenerator._no_signal signal_id symbol "数据不足" .UNKNOWN "none" []
  else rest inp

/-- `get_signal_thresholds()` defaults and
`SignalGenerator._calculate_grade`: A ≥ 0.75, B ≥ 0.50, C ≥ 0.30. -/
def _calculate_grade (strength : ℚ) : SignalGrade :=
  if 3 / 4 ≤ strength then .A
  else if 1 / 2 ≤ strength then .B
  else if 3 / 10 ≤ strength then .C
  else .NONE

end Generator

namespace Verification

open Strategy

/-- `PendingVerification` from `live_dashboard.py`; only the signal's
direction is consulted by the probes, times are in seconds. -/
structure PendingVerification where
  signal_direction : SignalDirection
  entry_price : ℚ
  entry_time : ℤ
  verify_10min_time : ℤ
  verify_30min_time : ℤ
  verified_10min : Bool
  verified_30min : Bool
  result_10min : Option String
  result_30min : Option String
  price_at_10min : Option ℚ
  price_at_30min : Option ℚ
  profit_10min : Option ℚ
  profit_30min : Option ℚ
deriving Repr, DecidableEq

/-- `VerificationStats` from `live_dashboard.py`. -/
structure VerificationStats where
  total_verified_10min : ℕ
  correct_10min : ℕ
  wrong_10min : ℕ
  total_verified_30min : ℕ
  correct_30min : ℕ
  wrong_30min : ℕ
deriving Repr, DecidableEq

/-- `accuracy_10min` with the `0/0 = 0` convention. -/
def VerificationStats.accuracy_10min (s : VerificationStats) : ℚ :=
  if s.total_verified_10min = 0 then 0
  else (s.correct_10min : ℚ) / (s.total_verified_10min : ℚ)

/-- `accuracy_30min` with the `0/0 = 0` convention. -/
def VerificationStats.accuracy_30min (s : VerificationStats) : ℚ :=
  if s.total_verified_30min = 0 then 0
  else (s.correct_30min : ℚ) / (s.total_verified_30min : ℚ)

/-- The 10-minute probe of `_verify_signals`: fires once the check time
has passed and the horizon is unresolved; CORRECT means the close moved
strictly in the predicted direction, so exact equality records
`"wrong"`. -/
def probe10 (now : ℤ) (price : ℚ) (pv : PendingVerification) :
    PendingVerification × Option Bool :=
  if ¬pv.verified_10min ∧ pv.verify_10min_time ≤ now then
    let correct :=
      match pv.signal_direction with
      | .BUY => pv.entry_price < price
      | _ => price < pv.entry_price
    let profit :=
      match pv.signal_direction with
      | .BUY => (price - pv.entry_price) / pv.entry_price * 100
      | _ => (pv.entry_price - price) / pv.entry_price * 100
    ({ pv with
        verified_10min := true
        price_at_10min := Option.some price
        profit_10min := Option.some profit
        result_10min := Option.some (if correct then "correct" else "wrong") },
      Option.some correct)
  else (pv, Option.none)

/-- The 30-minute probe of `_verify_signals`. -/
def probe30 (now : ℤ) (price : ℚ) (pv : PendingVerification) :
    PendingVerification × Option Bool :=
  if ¬pv.verified_30min ∧ pv.verify_30min_time ≤ now then
    let correct :=
      match pv.signal_direction with
      | .BUY => pv.entry_price < price
      | _ => price < pv.entry_price
    let profit :=
      match pv.signal_direction with
      | .BUY => (price - pv.entry_price) / pv.entry_price * 100
      | _ => (pv.entry_price - price) / pv.entry_price * 100
    ({ pv with
        verified_30min := true
        price_at_30min := Option.some price
        profit_30min := Option.some profit
        result_30min := Option.some (if correct then "correct" else "wrong") },
      Option.some correct)
  else (pv, Option.none)

/-- Both probes of one `_verify_signals` pass over one record. -/
def verifyOne (now : ℤ) (price : ℚ) (pv : PendingVerification) :
    PendingVerification × Option Bool × Option Bool :=
  let p1 := probe10 now price pv
  let p2 := probe30 now price p1.1
  (p2.1, p1.2, p2.2)

/-- Add one probe outcome to the stats (`checked += 1`, then `correct`
or `wrong`). -/
def bump10 (s : VerificationStats) : Option Bool → VerificationStats
  | Option.none => s
  | Option.some true =>
    { s with
      total_verified_10min := s.total_verified_10min + 1
      correct_10min := s.correct_10min + 1 }
  | Option.some false =>
    { s with
      total_verified_10min := s.total_verified_10min + 1
      wrong_10min := s.wrong_10min + 1 }

/-- Add one 30-minute probe outcome to the stats. -/
def bump30 (s : VerificationStats) : Option Bool → VerificationStats
  | Option.none => s
  | Option.some true =>
    { s with
      total_verified_30min := s.total_verified_30min + 1
      correct_30min := s.correct_30min + 1 }
  | Option.some false =>
    { s with
      total_verified_30min := s.total_verified_30min + 1
      wrong_30min := s.wrong_30min + 1 }

/-- The tracker's exclusive state: pending and completed records plus
accumulated stats. -/
structure TrackerState where
  pending : List PendingVerification
  completed : List PendingVerification
  stats : VerificationStats
deriving Repr, DecidableEq

/-- The empty tracker. -/
def TrackerState.initial : TrackerState :=
  ⟨[], [], ⟨0, 0, 0, 0, 0, 0⟩⟩

/-- A concrete pending record (used to instantiate theorems). -/
def samplePending : PendingVerification :=
  { signal_direction := .BUY
    entry_price := 100
    entry_time := 0
    verify_10min_time := 600
    verify_30min_time := 1800
    verified_10min := false
    verified_30min := false
    result_10min := Option.none
    result_30min := Option.none
    price_at_10min := Option.none
    price_at_30min := Option.none
    profit_10min := Option.none
    profit_30min := Option.none }

/-- `LiveDashboardSystem._verify_signals`: skip when the current price is
not positive, probe every pending record, fold the outcomes into the
stats, and move fully resolved records into `completed` (capped at
100). -/
def _verify_signals (now : ℤ) (price : ℚ) (st : TrackerState) :
    TrackerState :=
  if price ≤ 0 then st
  else
    let rs := st.pending.map (verifyOne now price)
    let stats := rs.foldl (fun s r => bump30 (bump10 s r.2.1) r.2.2) st.stats
    let updated := rs.map fun r => r.1
    let done := updated.filter fun pv => pv.verified_10min ∧ pv.verified_30min
    let pending := updated.filter fun pv =>
      ¬(pv.verified_10min ∧ pv.verified_30min)
    let completed0 := st.completed ++ done
    let completed :=
      if 100 < completed0.length then
        completed0.drop (completed0.length - 100)
      else completed0
    ⟨pending, completed, stats⟩

/-- `LiveDashboardSystem._add_pending_verification`: a fresh record with
check times 10 and 30 minutes out; when more than 50 records are pending
the first fully resolved one is removed. -/
def _add_pending_verification (now : ℤ) (direction : SignalDirection)
    (entry : ℚ) (st : TrackerState) : TrackerState :=
  let pv : PendingVerification :=
    { signal_direction := direction
      entry_price := entry
      entry_time := now
      verify_10min_time := now + 600
      verify_30min_time := now + 1800
      verified_10min := false
      verified_30min := false
      result_10min := Option.none
      result_30min := Option.none
      price_at_10min := Option.none
      price_at_30min := Option.none
      profit_10min := Option.none
      profit_30min := Option.none }
  let pending := st.pending ++ [pv]
  let pending :=
    if 50 < pending.length then
      match pending.find? fun q => q.verified_30min with
      | Option.some c => pending.erase c
      | Option.none => pending
    else pending
  { st with pending := pending }

/-- Tracker events: a non-HOLD signal is recorded, or a verification tick
fires. -/
inductive TrackerEvent where
  | add (now : ℤ) (direction : SignalDirection) (entry : ℚ)
  | tick (now : ℤ) (price : ℚ)
deriving Repr, DecidableEq

/-- One tracker transition. -/
def trackerStep (st : TrackerState) : TrackerEvent → TrackerState
  | .add now direction entry => _add_pending_verification now direction entry st
  | .tick now price => _verify_signals now price st

/-- Run the tracker from its empty state. -/
def runTracker (events : List TrackerEvent) : TrackerState :=
  events.foldl trackerStep TrackerState.initial

end Verification

namespace StreamingBuffer

/-- Fold a run of same-timestamp ticks into one candle (the repeated
`merge` that `update` performs). -/
def mergeAll (c : StreamingCandle) (ticks : List StreamingCandle) :
    StreamingCandle :=
  ticks.foldl StreamingCandle.merge c

/-- The candle currently recording the newest open_time: the active
candle if present, else the newest closed one. -/
def finalCandleOf (b : StreamingKlineBuffer) : Option StreamingCandle :=
  match b.active_candle with
  | some a => some a
  | none => b.closed_candles.getLast?

end StreamingBuffer

namespace Pipeline

theorem stateScan_length {σ α β : Type} (f : σ → α → σ × β) (s : σ)
    (xs : List α) : (stateScan f s xs).length = xs.length := by
  induction xs generalizing s with
  | nil => rfl
  | cons x xs ih => simp [stateScan, ih]

theorem stateScan_take {σ α β : Type} (f : σ → α → σ × β) (s : σ)
    (xs : List α) (k : ℕ) :
    stateScan f s (xs.take k) = (stateScan f s xs).take k := by
  induction xs generalizing s k with
  | nil => simp [stateScan]
  | cons x xs ih =>
    cases k with
    | zero => simp [stateScan]
    | succ k => simp [stateScan, ih]

theorem getLast?_take_succ {α : Type} (l : List α) (i : ℕ)
    (h : i < l.length) : (l.take (i + 1)).getLast? = l[i]? := by
  rw [List.getLast?_eq_getElem?, List.length_take]
  have hmin : min (i + 1) l.length = i + 1 := by omega
  rw [hmin]
  simp only [Nat.add_sub_cancel, List.getElem?_take]
  simp

theorem stateScan_prefix_last {σ α β : Type} (f : σ → α → σ × β) (s : σ)
    (xs : List α) (i : ℕ) (h : i < xs.length) :
    (stateScan f s (xs.take (i + 1))).getLast? = (stateScan f s xs)[i]? := by
  rw [stateScan_take, getLast?_take_succ]
  rw [stateScan_length]
  exact h

theorem getLast?_map_range {β : Type} (f : ℕ → β) (n : ℕ) (h : 0 < n) :
    ((List.range n).map f).getLast? = some (f (n - 1)) := by
  rw [List.getLast?_eq_getElem?]
  simp only [List.length_map, List.length_range, List.getElem?_map]
  rw [List.getElem?_range (by omega)]
  rfl

theorem map_range_getElem? {β : Type} (f : ℕ → β) (n i : ℕ) (h : i < n) :
    ((List.range n).map f)[i]? = some (f i) := by
  simp only [List.getElem?_map]
  rw [List.getElem?_range h]
  rfl

end Pipeline

namespace StreamingBuffer

/-- C3: the claim says re-applying the third Scenario D tick
`(t=0, x=true)` after the four ticks `(0,false), (0,false), (0,true),
(60,false)` changes nothing.  The code violates this: because
`last_closed_ts = 0` is falsy in the replay guard's truthiness test, the
re-applied tick is not dropped — it seals the `t=60` active candle and
appends a duplicate `t=0` closed candle, so the closed timestamps become
`[0, 60, 0]` and the buffer differs from its previous state.  (The guard
was clearly intended to fire whenever `last_closed_ts` is set, which is
how the spec reads; for any timestamp other than 0 it does.) -/
theorem C3_scenarioD_replay_mutates_buffer :
    ((applyTicks (StreamingKlineBuffer.empty 500)
        [mkTick 0 1 2 0 1 5 false, mkTick 0 1 3 0 2 6 false,
         mkTick 0 1 3 0 2 7 true, mkTick 60 2 2 2 2 1 false]).update
        (mkTick 0 1 3 0 2 7 true)).closed_candles.map
        (fun c => c.timestamp) = [0, 60, 0] ∧
    (applyTicks (StreamingKlineBuffer.empty 500)
        [mkTick 0 1 2 0 1 5 false, mkTick 0 1 3 0 2 6 false,
         mkTick 0 1 3 0 2 7 true, mkTick 60 2 2 2 2 1 false]).update
        (mkTick 0 1 3 0 2 7 true) ≠
      applyTicks (StreamingKlineBuffer.empty 500)
        [mkTick 0 1 2 0 1 5 false, mkTick 0 1 3 0 2 6 false,
         mkTick 0 1 3 0 2 7 true, mkTick 60 2 2 2 2 1 false] := by
  constructor
  · decide
  · decide

end StreamingBuffer

namespace Generator

/-- C10: with fewer than 60 closes, `SignalGenerator.generate` returns —
for every possible continuation of the pipeline, i.e. without consulting
the market-state classifier or any strategy — the fixed HOLD signal with
strength 0, adjusted strength 0, grade NONE, entry price 0, unconfirmed,
no predictions, and the single reason `"数据不足"`. -/
theorem C10_short_input_returns_hold
    (rest : GenerateInputs → TradingSignal) (signal_id symbol : String)
    (inp : GenerateInputs) (h : inp.closes.length < 60) :
    SignalGenerator.generate rest signal_id symbol inp =
      { signal_id := signal_id
        symbol := symbol
        direction := .HOLD
        strength := 0
        adjusted_strength := 0
        grade := .NONE
        market_state := .UNKNOWN
        strategy_used := "none"
        is_confirmed := false
        confirmation_count := 0
        timeframe_confirmations := []
        entry_price := 0
        stop_loss := Option.none
        take_profit := Option.none
        predictions := []
        reasons := ["数据不足"]
        warnings := []
        indicator_values := [] } := by
  unfold SignalGenerator.generate
  rw [if_pos h]
  rfl

theorem C10_short_input_returns_hold_witness :
    SignalGenerator.generate
      (fun _ => SignalGenerator._no_signal "other" "other" "other"
        .RANGING "trending" []) "id1" "BTCUSDT"
      ⟨[1, 2], [1, 2], [1, 2], Option.none⟩ =
      { signal_id := "id1"
        symbol := "BTCUSDT"
        direction := .HOLD
        strength := 0
        adjusted_strength := 0
        grade := .NONE
        market_state := .UNKNOWN
        strategy_used := "none"
        is_confirmed := false
        confirmation_count := 0
        timeframe_confirmations := []
        entry_price := 0
        stop_loss := Option.none
        take_profit := Option.none
        predictions := []
        reasons := ["数据不足"]
        warnings := []
        indicator_values := [] } :=
  C10_short_input_returns_hold _ "id1" "BTCUSDT" _ (by decide)

end Generator

namespace Generator

theorem roundHalfEven_ge_floor (q : ℚ) : ⌊q⌋ ≤ roundHalfEven q := by
  unfold roundHalfEven
  split_ifs <;> omega

theorem roundHalfEven_le_floor_add_one (q : ℚ) :
    roundHalfEven q ≤ ⌊q⌋ + 1 := by
  unfold roundHalfEven
  split_ifs <;> omega

theorem roundHalfEven_mono {x y : ℚ} (h : x ≤ y) :
    roundHalfEven x ≤ roundHalfEven y := by
  have hf : ⌊x⌋ ≤ ⌊y⌋ := Int.floor_le_floor h
  rcases eq_or_lt_of_le hf with heq | hlt
  · unfold roundHalfEven
    rw [heq]
    have hr : x - (⌊y⌋ : ℚ) ≤ y - (⌊y⌋ : ℚ) := by linarith
    split_ifs <;> first | omega | linarith
  · have h1 := roundHalfEven_le_floor_add_one x
    have h2 := roundHalfEven_ge_floor y
    omega

theorem pyRound_mono (nd : ℕ) {x y : ℚ} (h : x ≤ y) :
    pyRound x nd ≤ pyRound y nd := by
  unfold pyRound
  have h1 : x * 10 ^ nd ≤ y * 10 ^ nd :=
    mul_le_mul_of_nonneg_right h (by positivity)
  have h2 : ((roundHalfEven (x * 10 ^ nd) : ℚ)) ≤
      ((roundHalfEven (y * 10 ^ nd) : ℚ)) :=
    Int.cast_le.mpr (roundHalfEven_mono h1)
  gcongr

end Generator

namespace Generator

/-- C9: the claim states the emitted confidence equals
`strength·(1 - h/120·0.3)` exactly.  It does not: the source rounds the
confidence to three decimals before emitting it.  At strength `0.1234`
the 10-minute prediction carries confidence `0.12`, not
`0.1234·0.975 = 0.120315`. -/
theorem C9_confidence_is_rounded_counterexample :
    ((_generate_predictions .BUY (1234 / 10000) 100
        (Option.some 1)).head?.map fun p => p.confidence) =
      Option.some (3 / 25) ∧
    (3 / 25 : ℚ) ≠ 1234 / 10000 * (1 - (10 : ℚ) / 120 * (3 / 10)) := by
  constructor
  · have h1 : Int.fract ((24063 : ℚ) / 200) = 63 / 200 := by
      unfold Int.fract
      norm_num
    have h2 : ¬((1 : ℚ) / 2 ≤ 63 / 200) := by norm_num
    simp only [_generate_predictions, prediction_horizons, pyRound,
      roundHalfEven]
    norm_num [h1]
    rw [if_neg (by decide :
      ¬(Strategy.SignalDirection.BUY = Strategy.SignalDirection.HOLD))]
    exact ⟨_, rfl, rfl⟩
  · norm_num

/-- C9 (amended): for every non-HOLD signal the predictions cover the
configured horizons 10/30/60 with confidence
`round(strength·(1 - h/120·0.3), 3)`; the pre-rounding confidences decay
strictly with the horizon when strength is positive and the emitted ones
decay weakly; and with a nonzero ATR the target price is
`round(close ± ATR·h/30, 2)` (BUY `+`, SELL `-`) unless that sum is zero
(Python truthiness), while a missing or zero ATR yields no target. -/
theorem C9_predictions (d : Strategy.SignalDirection) (s cp av : ℚ)
    (hd : d ≠ .HOLD) (hs : 0 < s) (hav : av ≠ 0) :
    ((_generate_predictions d s cp (Option.some av)).map fun p =>
      p.horizon_minutes) = [10, 30, 60] ∧
    ((_generate_predictions d s cp (Option.some av)).map fun p =>
      p.confidence) =
      [pyRound (s * (1 - (10 : ℚ) / 120 * (3 / 10))) 3,
       pyRound (s * (1 - (30 : ℚ) / 120 * (3 / 10))) 3,
       pyRound (s * (1 - (60 : ℚ) / 120 * (3 / 10))) 3] ∧
    s * (1 - (60 : ℚ) / 120 * (3 / 10)) <
      s * (1 - (10 : ℚ) / 120 * (3 / 10)) ∧
    pyRound (s * (1 - (60 : ℚ) / 120 * (3 / 10))) 3 ≤
      pyRound (s * (1 - (10 : ℚ) / 120 * (3 / 10))) 3 ∧
    ((_generate_predictions d s cp (Option.some av)).map fun p =>
      p.target_price) =
      [10, 30, 60].map (fun (h : ℕ) =>
        let v := if d = .BUY then cp + av * ((h : ℚ) / 30)
          else cp - av * ((h : ℚ) / 30)
        if v ≠ 0 then Option.some (pyRound v 2) else Option.none) ∧
    ((_generate_predictions d s cp Option.none).map fun p =>
      p.target_price) = [Option.none, Option.none, Option.none] ∧
    ((_generate_predictions d s cp (Option.some 0)).map fun p =>
      p.target_price) = [Option.none, Option.none, Option.none] := by
  have hdecay : s * (1 - (60 : ℚ) / 120 * (3 / 10)) <
      s * (1 - (10 : ℚ) / 120 * (3 / 10)) := by
    have : (1 - (60 : ℚ) / 120 * (3 / 10)) <
        (1 - (10 : ℚ) / 120 * (3 / 10)) := by norm_num
    exact mul_lt_mul_of_pos_left this hs
  refine ⟨?_, ?_, hdecay, pyRound_mono 3 (le_of_lt hdecay), ?_, ?_, ?_⟩ <;>
    cases d <;> simp_all [_generate_predictions, prediction_horizons, hav]

theorem C9_predictions_witness :
    ((_generate_predictions .BUY (1 / 2) 100 (Option.some 1)).map fun p =>
      p.horizon_minutes) = [10, 30, 60] ∧
    ((_generate_predictions .BUY (1 / 2) 100 (Option.some 1)).map fun p =>
      p.confidence) =
      [pyRound ((1 / 2 : ℚ) * (1 - (10 : ℚ) / 120 * (3 / 10))) 3,
       pyRound ((1 / 2 : ℚ) * (1 - (30 : ℚ) / 120 * (3 / 10))) 3,
       pyRound ((1 / 2 : ℚ) * (1 - (60 : ℚ) / 120 * (3 / 10))) 3] ∧
    (1 / 2 : ℚ) * (1 - (60 : ℚ) / 120 * (3 / 10)) <
      (1 / 2 : ℚ) * (1 - (10 : ℚ) / 120 * (3 / 10)) ∧
    pyRound ((1 / 2 : ℚ) * (1 - (60 : ℚ) / 120 * (3 / 10))) 3 ≤
      pyRound ((1 / 2 : ℚ) * (1 - (10 : ℚ) / 120 * (3 / 10))) 3 ∧
    ((_generate_predictions .BUY (1 / 2) 100 (Option.some 1)).map fun p =>
      p.target_price) =
      [10, 30, 60].map (fun (h : ℕ) =>
        let v := if Strategy.SignalDirection.BUY = Strategy.SignalDirection.BUY
          then (100 : ℚ) + 1 * ((h : ℚ) / 30)
          else (100 : ℚ) - 1 * ((h : ℚ) / 30)
        if v ≠ 0 then Option.some (pyRound v 2) else Option.none) ∧
    ((_generate_predictions .BUY (1 / 2) 100 Option.none).map fun p =>
      p.target_price) = [Option.none, Option.none, Option.none] ∧
    ((_generate_predictions .BUY (1 / 2) 100 (Option.some 0)).map fun p =>
      p.target_price) = [Option.none, Option.none, Option.none] :=
  C9_predictions .BUY (1 / 2) 100 1 (by decide) (by norm_num) (by norm_num)

end Generator

namespace StreamingBuffer

/-- The inductive invariant of the buffer: closed timestamps are pairwise
increasing, every closed timestamp is at most `last_closed_ts`, and the
active candle sits strictly above `last_closed_ts`. -/
structure BufInv (s : StreamingKlineBuffer) : Prop where
  pw : s.closed_candles.Pairwise fun c d => c.timestamp < d.timestamp
  closed_le : ∀ c ∈ s.closed_candles,
    ∃ L, s.last_closed_ts = some L ∧ c.timestamp ≤ L
  lct_lt_active : ∀ a L, s.active_candle = some a →
    s.last_closed_ts = some L → L < a.timestamp

theorem pushBounded_pairwise {n : ℕ} {l : List StreamingCandle}
    {x : StreamingCandle}
    (hp : l.Pairwise fun c d => c.timestamp < d.timestamp)
    (hx : ∀ c ∈ l, c.timestamp < x.timestamp) :
    (pushBounded n l x).Pairwise fun c d => c.timestamp < d.timestamp := by
  have happ : (l ++ [x]).Pairwise fun c d => c.timestamp < d.timestamp := by
    rw [List.pairwise_append]
    exact ⟨hp, List.pairwise_singleton _ _, fun a ha b hb => by
      simp at hb
      subst hb
      exact hx a ha⟩
  unfold pushBounded
  split
  · exact happ.sublist (List.drop_sublist _ _)
  · exact happ

theorem pushBounded_mem {n : ℕ} {l : List StreamingCandle}
    {x c : StreamingCandle} (hc : c ∈ pushBounded n l x) :
    c ∈ l ∨ c = x := by
  unfold pushBounded at hc
  split at hc
  · have := (List.drop_subset _ _) hc
    simpa using this
  · simpa using hc

theorem update_eq_merge_open (s : StreamingKlineBuffer)
    (a t : StreamingCandle)
    (hg : ¬(t.is_closed ∧ tsTruthy s.last_closed_ts ∧
      t.timestamp ≤ s.last_closed_ts.getD 0))
    (ha : s.active_candle = some a) (hts : t.timestamp = a.timestamp)
    (hx : t.is_closed = false) :
    s.update t = { s with active_candle := some (a.merge t) } := by
  unfold StreamingKlineBuffer.update
  rw [if_neg hg, ha]
  dsimp only
  rw [if_pos hts]
  dsimp only [StreamingCandle.merge]
  simp [hx]

theorem update_eq_merge_close (s : StreamingKlineBuffer)
    (a t : StreamingCandle)
    (hg : ¬(t.is_closed ∧ tsTruthy s.last_closed_ts ∧
      t.timestamp ≤ s.last_closed_ts.getD 0))
    (ha : s.active_candle = some a) (hts : t.timestamp = a.timestamp)
    (hx : t.is_closed = true) :
    s.update t =
      _finalize_active { s with active_candle := some (a.merge t) } := by
  unfold StreamingKlineBuffer.update
  rw [if_neg hg, ha]
  dsimp only
  rw [if_pos hts]
  dsimp only [StreamingCandle.merge]
  simp [hx]

theorem update_eq_new_open (s : StreamingKlineBuffer) (t : StreamingCandle)
    (hg : ¬(t.is_closed ∧ tsTruthy s.last_closed_ts ∧
      t.timestamp ≤ s.last_closed_ts.getD 0))
    (ha : (∀ a, s.active_candle = some a → t.timestamp ≠ a.timestamp))
    (hx : t.is_closed = false) :
    s.update t = { _finalize_active s with active_candle := some t } := by
  unfold StreamingKlineBuffer.update
  rw [if_neg hg]
  cases hac : s.active_candle with
  | none => simp [hx]
  | some a =>
    dsimp only
    rw [if_neg (ha a hac)]
    simp [hx]

theorem update_eq_new_close (s : StreamingKlineBuffer) (t : StreamingCandle)
    (hg : ¬(t.is_closed ∧ tsTruthy s.last_closed_ts ∧
      t.timestamp ≤ s.last_closed_ts.getD 0))
    (ha : (∀ a, s.active_candle = some a → t.timestamp ≠ a.timestamp))
    (hx : t.is_closed = true) :
    s.update t =
      _finalize_active { _finalize_active s with active_candle := some t } := by
  unfold StreamingKlineBuffer.update
  rw [if_neg hg]
  cases hac : s.active_candle with
  | none => simp [hx]
  | some a =>
    dsimp only
    rw [if_neg (ha a hac)]
    simp [hx]

end StreamingBuffer

namespace StreamingBuffer

theorem update_step (s : StreamingKlineBuffer) (t : StreamingCandle)
    (hInv : BufInv s)
    (h1 : ∀ L, s.last_closed_ts = some L → L < t.timestamp)
    (h2 : ∀ a, s.active_candle = some a → a.timestamp ≤ t.timestamp) :
    BufInv (s.update t) ∧
      (∀ a, (s.update t).active_candle = some a →
        a.timestamp = t.timestamp) ∧
      (∀ L, (s.update t).last_closed_ts = some L →
        L < t.timestamp ∨ (L = t.timestamp ∧ t.is_closed = true)) := by
  have hg : ¬(t.is_closed ∧ tsTruthy s.last_closed_ts ∧
      t.timestamp ≤ s.last_closed_ts.getD 0) := by
    rintro ⟨-, htr, hle⟩
    cases hl : s.last_closed_ts with
    | none => rw [hl] at htr; simp [tsTruthy] at htr
    | some L =>
      have := h1 L hl
      rw [hl] at hle
      simp at hle
      omega
  have hclosed_lt : ∀ a, s.active_candle = some a →
      ∀ c ∈ s.closed_candles, c.timestamp < a.timestamp := by
    intro a ha c hc
    obtain ⟨L, hL, hle⟩ := hInv.closed_le c hc
    have := hInv.lct_lt_active a L ha hL
    omega
  have hclosed_lt_t : ∀ c ∈ s.closed_candles, c.timestamp < t.timestamp := by
    intro c hc
    obtain ⟨L, hL, hle⟩ := hInv.closed_le c hc
    have := h1 L hL
    omega
  cases hac : s.active_candle with
  | some a =>
    have hat : a.timestamp ≤ t.timestamp := h2 a hac
    by_cases hts : t.timestamp = a.timestamp
    · cases hx : t.is_closed with
      | false =>
        rw [update_eq_merge_open s a t hg hac hts hx]
        refine ⟨⟨hInv.pw, hInv.closed_le, ?_⟩, ?_, ?_⟩
        · intro a' L ha' hL
          simp at ha'
          subst ha'
          simpa [StreamingCandle.merge] using hInv.lct_lt_active a L hac hL
        · intro a' ha'
          simp at ha'
          subst ha'
          simp [StreamingCandle.merge, hts]
        · intro L hL
          exact Or.inl (h1 L hL)
      | true =>
        rw [update_eq_merge_close s a t hg hac hts hx]
        unfold _finalize_active
        dsimp only
        refine ⟨⟨?_, ?_, ?_⟩, ?_, ?_⟩
        · exact pushBounded_pairwise hInv.pw
            (by simpa [StreamingCandle.merge] using hclosed_lt a hac)
        · intro c hc
          refine ⟨a.timestamp, rfl, ?_⟩
          rcases pushBounded_mem hc with h | h
          · exact le_of_lt (hclosed_lt a hac c h)
          · subst h
            simp [StreamingCandle.merge]
        · intro a' L ha' hL
          simp at ha'
        · intro a' ha'
          simp at ha'
        · intro L hL
          simp at hL
          subst hL
          exact Or.inr ⟨hts.symm, rfl⟩
    · have hne : ∀ a', s.active_candle = some a' →
          t.timestamp ≠ a'.timestamp := by
        intro a' ha'
        rw [hac] at ha'
        simp at ha'
        subst ha'
        exact hts
      have halt : a.timestamp < t.timestamp := by
        rcases lt_or_eq_of_le hat with h | h
        · exact h
        · exact absurd h.symm hts
      cases hx : t.is_closed with
      | false =>
        rw [update_eq_new_open s t hg hne hx]
        unfold _finalize_active
        rw [hac]
        dsimp only
        refine ⟨⟨?_, ?_, ?_⟩, ?_, ?_⟩
        · exact pushBounded_pairwise hInv.pw (hclosed_lt a hac)
        · intro c hc
          refine ⟨a.timestamp, rfl, ?_⟩
          rcases pushBounded_mem hc with h | h
          · exact le_of_lt (hclosed_lt a hac c h)
          · subst h; exact le_refl _
        · intro a' L ha' hL
          simp at ha' hL
          subst ha'
          subst hL
          exact halt
        · intro a' ha'
          simp at ha'
          subst ha'
          rfl
        · intro L hL
          simp at hL
          subst hL
          exact Or.inl halt
      | true =>
        rw [update_eq_new_close s t hg hne hx]
        unfold _finalize_active
        rw [hac]
        dsimp only
        refine ⟨⟨?_, ?_, ?_⟩, ?_, ?_⟩
        · refine pushBounded_pairwise
            (pushBounded_pairwise hInv.pw (hclosed_lt a hac)) ?_
          intro c hc
          rcases pushBounded_mem hc with h | h
          · exact lt_trans (hclosed_lt a hac c h) halt
          · subst h; exact halt
        · intro c hc
          refine ⟨t.timestamp, rfl, ?_⟩
          rcases pushBounded_mem hc with h | h
          · rcases pushBounded_mem h with h' | h'
            · exact le_of_lt (lt_trans (hclosed_lt a hac c h') halt)
            · subst h'; exact le_of_lt halt
          · subst h; exact le_refl _
        · intro a' L ha' hL
          simp at ha'
        · intro a' ha'
          simp at ha'
        · intro L hL
          simp at hL
          subst hL
          exact Or.inr ⟨rfl, rfl⟩
  | none =>
    have hne : ∀ a', s.active_candle = some a' →
        t.timestamp ≠ a'.timestamp := by
      intro a' ha'
      rw [hac] at ha'
      cases ha'
    cases hx : t.is_closed with
    | false =>
      rw [update_eq_new_open s t hg hne hx]
      unfold _finalize_active
      rw [hac]
      dsimp only
      refine ⟨⟨hInv.pw, hInv.closed_le, ?_⟩, ?_, ?_⟩
      · intro a' L ha' hL
        simp at ha'
        subst ha'
        exact h1 L hL
      · intro a' ha'
        simp at ha'
        subst ha'
        rfl
      · intro L hL
        exact Or.inl (h1 L hL)
    | true =>
      rw [update_eq_new_close s t hg hne hx]
      unfold _finalize_active
      rw [hac]
      dsimp only
      refine ⟨⟨?_, ?_, ?_⟩, ?_, ?_⟩
      · exact pushBounded_pairwise hInv.pw hclosed_lt_t
      · intro c hc
        refine ⟨t.timestamp, rfl, ?_⟩
        rcases pushBounded_mem hc with h | h
        · exact le_of_lt (hclosed_lt_t c h)
        · subst h; exact le_refl _
      · intro a' L ha' hL
        simp at ha'
      · intro a' ha'
        simp at ha'
      · intro L hL
        simp at hL
        subst hL
        exact Or.inr ⟨rfl, rfl⟩

end StreamingBuffer

namespace StreamingBuffer

theorem applyTicks_inv (ticks : List StreamingCandle) :
    ∀ s : StreamingKlineBuffer, BufInv s →
    (∀ t, ticks.head? = some t →
      (∀ L, s.last_closed_ts = some L → L < t.timestamp) ∧
      (∀ a, s.active_candle = some a → a.timestamp ≤ t.timestamp)) →
    admissibleTicks ticks → BufInv (applyTicks s ticks) := by
  induction ticks with
  | nil => intro s h _ _; exact h
  | cons t ts ih =>
    intro s hInv hhead hadm
    have hh := hhead t rfl
    obtain ⟨hInv', hact', hlct'⟩ := update_step s t hInv hh.1 hh.2
    have hstep : applyTicks s (t :: ts) = applyTicks (s.update t) ts := rfl
    rw [hstep]
    apply ih (s.update t) hInv'
    · intro u hu
      have hrel : t.timestamp < u.timestamp ∨
          (t.timestamp = u.timestamp ∧ t.is_closed = false) := by
        cases ts with
        | nil => simp at hu
        | cons v vs =>
          simp at hu
          subst hu
          exact (List.chain'_cons.mp hadm).1
      constructor
      · intro L hL
        rcases hlct' L hL with h | ⟨rfl, hcl⟩
        · rcases hrel with h2 | ⟨h2, _⟩ <;> omega
        · rcases hrel with h2 | ⟨h2, hop⟩
          · omega
          · rw [hcl] at hop
            cases hop
      · intro a haa
        have := hact' a haa
        rcases hrel with h2 | ⟨h2, _⟩ <;> omega
    · exact hadm.tail

/-- C7: the claim asserts the ordering invariants after any tick
sequence.  They fail for out-of-order streams: after the closed tick
`t=60` followed by an open tick `t=0`, the active candle's `open_time`
(0) is below the closed candle's (60). -/
theorem C7_any_sequence_counterexample :
    ¬ bufferInvariant (applyTicks (StreamingKlineBuffer.empty 500)
      [mkTick 60 1 1 1 1 1 true, mkTick 0 1 1 1 1 1 false]) := by
  intro h
  have := h.2 (mkTick 0 1 1 1 1 1 false) (by decide)
    (mkTick 60 1 1 1 1 1 true) (by decide)
  simp [mkTick] at this

/-- C7 (amended): starting from an empty buffer, after any admissible
tick stream — timestamps never decrease and no tick follows a closed
tick of the same timestamp, which is how the exchange feed behaves —
the closed candles have strictly increasing `open_time` and the active
candle, when present, sits strictly above every closed candle. -/
theorem C7_buffer_invariants (m : ℕ) (ticks : List StreamingCandle)
    (h : admissibleTicks ticks) :
    bufferInvariant (applyTicks (StreamingKlineBuffer.empty m) ticks) := by
  have hInv : BufInv (StreamingKlineBuffer.empty m) := by
    refine ⟨List.Pairwise.nil, ?_, ?_⟩
    · intro c hc
      simp [StreamingKlineBuffer.empty] at hc
    · intro a L _ hL
      simp [StreamingKlineBuffer.empty] at hL
  have hmain := applyTicks_inv ticks (StreamingKlineBuffer.empty m) hInv
    (by
      intro t _
      constructor
      · intro L hL
        simp [StreamingKlineBuffer.empty] at hL
      · intro a ha
        simp [StreamingKlineBuffer.empty] at ha) h
  haveI : IsTrans StreamingCandle fun c d => c.timestamp < d.timestamp :=
    ⟨fun _ _ _ h1 h2 => lt_trans h1 h2⟩
  refine ⟨?_, ?_⟩
  · rw [closedIncreasing, List.chain'_iff_pairwise]
    exact hmain.pw
  · intro a ha c hc
    obtain ⟨L, hL, hle⟩ := hmain.closed_le c hc
    have := hmain.lct_lt_active a L ha hL
    omega

theorem C7_buffer_invariants_witness :
    bufferInvariant (applyTicks (StreamingKlineBuffer.empty 500)
      [mkTick 0 1 2 0 1 5 false, mkTick 0 1 3 0 2 6 true,
       mkTick 60 2 2 2 2 1 false, mkTick 120 3 3 3 3 1 true]) :=
  C7_buffer_invariants 500 _ (by
    unfold admissibleTicks
    simp [mkTick, List.chain'_cons])

end StreamingBuffer

namespace StreamingBuffer

theorem mergeAll_high (c : StreamingCandle) (ts : List StreamingCandle) :
    (mergeAll c ts).high = Pipeline.pyMax ((c :: ts).map fun u => u.high) := by
  induction ts generalizing c with
  | nil => simp [mergeAll, Pipeline.pyMax]
  | cons u us ih =>
    have h1 : mergeAll c (u :: us) = mergeAll (c.merge u) us := rfl
    rw [h1, ih]
    simp [Pipeline.pyMax, StreamingCandle.merge]

theorem mergeAll_low (c : StreamingCandle) (ts : List StreamingCandle) :
    (mergeAll c ts).low = Pipeline.pyMin ((c :: ts).map fun u => u.low) := by
  induction ts generalizing c with
  | nil => simp [mergeAll, Pipeline.pyMin]
  | cons u us ih =>
    have h1 : mergeAll c (u :: us) = mergeAll (c.merge u) us := rfl
    rw [h1, ih]
    simp [Pipeline.pyMin, StreamingCandle.merge]

theorem mergeAll_close (c : StreamingCandle) (ts : List StreamingCandle) :
    (mergeAll c ts).close = (ts.getLastD c).close := by
  induction ts generalizing c with
  | nil => simp [mergeAll]
  | cons u us ih =>
    have h1 : mergeAll c (u :: us) = mergeAll (c.merge u) us := rfl
    rw [h1, ih]
    cases us with
    | nil => simp [StreamingCandle.merge]
    | cons v vs =>
      cases hgl : (v :: vs).getLast? with
      | none => simp at hgl
      | some w => simp [List.getLastD, hgl]

theorem mergeAll_volume (c : StreamingCandle) (ts : List StreamingCandle) :
    (mergeAll c ts).volume = (ts.getLastD c).volume := by
  induction ts generalizing c with
  | nil => simp [mergeAll]
  | cons u us ih =>
    have h1 : mergeAll c (u :: us) = mergeAll (c.merge u) us := rfl
    rw [h1, ih]
    cases us with
    | nil => simp [StreamingCandle.merge]
    | cons v vs =>
      cases hgl : (v :: vs).getLast? with
      | none => simp at hgl
      | some w => simp [List.getLastD, hgl]

theorem mergeAll_is_closed (c : StreamingCandle) (ts : List StreamingCandle) :
    (mergeAll c ts).is_closed = (ts.getLastD c).is_closed := by
  induction ts generalizing c with
  | nil => simp [mergeAll]
  | cons u us ih =>
    have h1 : mergeAll c (u :: us) = mergeAll (c.merge u) us := rfl
    rw [h1, ih]
    cases us with
    | nil => simp [StreamingCandle.merge]
    | cons v vs =>
      cases hgl : (v :: vs).getLast? with
      | none => simp at hgl
      | some w => simp [List.getLastD, hgl]

theorem mergeAll_timestamp (c : StreamingCandle)
    (ts : List StreamingCandle) :
    (mergeAll c ts).timestamp = c.timestamp := by
  induction ts generalizing c with
  | nil => rfl
  | cons u us ih =>
    have h1 : mergeAll c (u :: us) = mergeAll (c.merge u) us := rfl
    rw [h1, ih]
    rfl

theorem applyTicks_same_run (m : ℕ) (T : ℤ) :
    ∀ (rest : List StreamingCandle) (c : StreamingCandle), rest ≠ [] →
    c.timestamp = T → c.is_closed = false →
    (∀ u ∈ rest, u.timestamp = T) →
    (∀ u ∈ rest.dropLast, u.is_closed = false) →
    applyTicks ⟨m, [], some c, none⟩ rest =
      if (mergeAll c rest).is_closed then
        ⟨m, pushBounded m [] { mergeAll c rest with is_closed := true },
          none, some T⟩
      else ⟨m, [], some (mergeAll c rest), none⟩ := by
  intro rest
  induction rest with
  | nil => intro c hne; exact absurd rfl hne
  | cons u us ih =>
    intro c _ hcT hco hts hmid
    have huT : u.timestamp = T := hts u (by simp)
    have hstep : applyTicks (⟨m, [], some c, none⟩ : StreamingKlineBuffer)
        (u :: us) =
        applyTicks ((⟨m, [], some c, none⟩ :
          StreamingKlineBuffer).update u) us := rfl
    have hg : ¬(u.is_closed ∧
        tsTruthy (⟨m, [], some c, none⟩ :
          StreamingKlineBuffer).last_closed_ts ∧
        u.timestamp ≤ ((⟨m, [], some c, none⟩ :
          StreamingKlineBuffer).last_closed_ts).getD 0) := by
      rintro ⟨-, htr, -⟩
      simp [tsTruthy] at htr
    have hma : mergeAll (c.merge u) us = mergeAll c (u :: us) := rfl
    cases hx : u.is_closed with
    | true =>
      have hus : us = [] := by
        by_contra hne2
        have hmem : u ∈ (u :: us).dropLast := by
          cases us with
          | nil => exact absurd rfl hne2
          | cons v vs => simp
        rw [hmid u hmem] at hx
        cases hx
      subst hus
      rw [hstep]
      rw [update_eq_merge_close _ c u hg rfl (by rw [huT, hcT]) hx]
      unfold _finalize_active
      dsimp only
      rw [if_pos (by
        rw [← hma]
        simp [mergeAll, StreamingCandle.merge, hx])]
      have hts2 : (c.merge u).timestamp = T := by
        simp [StreamingCandle.merge, hcT]
      rw [show applyTicks
        (⟨m, pushBounded m [] { c.merge u with is_closed := true }, none,
          some (c.merge u).timestamp⟩ : StreamingKlineBuffer) [] =
        ⟨m, pushBounded m [] { c.merge u with is_closed := true }, none,
          some (c.merge u).timestamp⟩ from rfl]
      rw [hts2]
      rfl
    | false =>
      rw [hstep]
      rw [update_eq_merge_open _ c u hg rfl (by rw [huT, hcT]) hx]
      have hmerge_ts : (c.merge u).timestamp = T := by
        simp [StreamingCandle.merge, hcT]
      have hmerge_open : (c.merge u).is_closed = false := by
        simp [StreamingCandle.merge, hx]
      cases hus : us with
      | nil =>
        have hmc : mergeAll c [u] = c.merge u := rfl
        rw [if_neg (by rw [hmc]; simp [hmerge_open])]
        rw [hmc]
        rfl
      | cons v vs =>
        rw [← hus]
        have h2 := ih (c.merge u) (by rw [hus]; simp) hmerge_ts hmerge_open
          (fun w hw => hts w (by simp [hw]))
          (fun w hw => hmid w (by
            rw [hus] at hw ⊢
            simp at hw ⊢
            exact Or.inr hw))
        rw [h2, hma]

end StreamingBuffer

namespace StreamingBuffer

theorem update_empty_open (m : ℕ) (t : StreamingCandle)
    (hx : t.is_closed = false) :
    (StreamingKlineBuffer.empty m).update t = ⟨m, [], some t, none⟩ := by
  rw [update_eq_new_open (StreamingKlineBuffer.empty m) t
    (by rintro ⟨-, htr, -⟩; simp [StreamingKlineBuffer.empty, tsTruthy] at htr)
    (by intro a ha; simp [StreamingKlineBuffer.empty] at ha) hx]
  rfl

theorem update_empty_close (m : ℕ) (t : StreamingCandle)
    (hx : t.is_closed = true) :
    (StreamingKlineBuffer.empty m).update t =
      ⟨m, pushBounded m [] { t with is_closed := true }, none,
        some t.timestamp⟩ := by
  rw [update_eq_new_close (StreamingKlineBuffer.empty m) t
    (by rintro ⟨-, htr, -⟩; simp [StreamingKlineBuffer.empty, tsTruthy] at htr)
    (by intro a ha; simp [StreamingKlineBuffer.empty] at ha) hx]
  unfold _finalize_active
  rfl

theorem pushBounded_singleton (m : ℕ) (hm : 0 < m) (c : StreamingCandle) :
    pushBounded m [] c = [c] := by
  unfold pushBounded
  rw [if_neg (by simp; omega)]
  rfl

/-- C8: the claim quantifies over any series of ticks sharing one
open_time.  It fails when a closed tick is followed by a further tick
with the same open_time: the closed tick seals the candle, and the
follow-up starts a fresh active candle instead of merging.  After
`(t=5, high=10, close=1, closed)` then `(t=5, high=1, close=2, open)`,
the active candle's high is 1 (not max 10) and the sealed candle's close
is 1 (not the last tick's 2). -/
theorem C8_mid_closed_counterexample :
    (applyTicks (StreamingKlineBuffer.empty 500)
      [mkTick 5 1 10 0 1 1 true, mkTick 5 1 1 1 2 2 false]).active_candle =
      some (mkTick 5 1 1 1 2 2 false) ∧
    (applyTicks (StreamingKlineBuffer.empty 500)
      [mkTick 5 1 10 0 1 1 true, mkTick 5 1 1 1 2 2 false]).closed_candles =
      [mkTick 5 1 10 0 1 1 true] ∧
    Pipeline.pyMax [10, 1] = 10 ∧ ¬((1 : ℚ) = 10) ∧ ¬((1 : ℚ) = 2) :=
  ⟨by decide, by decide, by decide, by decide, by decide⟩

/-- C8 (amended): for a run of ticks sharing one open_time in which no
tick before the last is closed — the exchange feed's shape, where
`x=true` is the final update of a bar — the candle recording that
open_time ends with `high = max(ticks.high)`, `low = min(ticks.low)`,
`close = last.close`, and `volume = last.volume`. -/
theorem C8_merge_correctness (m : ℕ) (hm : 0 < m) (t : StreamingCandle)
    (rest : List StreamingCandle) (T : ℤ)
    (hts : ∀ u ∈ t :: rest, u.timestamp = T)
    (hmid : ∀ u ∈ (t :: rest).dropLast, u.is_closed = false) :
    ∃ c, finalCandleOf (applyTicks (StreamingKlineBuffer.empty m)
        (t :: rest)) = some c ∧
      c.high = Pipeline.pyMax ((t :: rest).map fun u => u.high) ∧
      c.low = Pipeline.pyMin ((t :: rest).map fun u => u.low) ∧
      c.close = (rest.getLastD t).close ∧
      c.volume = (rest.getLastD t).volume := by
  have hstep : applyTicks (StreamingKlineBuffer.empty m) (t :: rest) =
      applyTicks ((StreamingKlineBuffer.empty m).update t) rest := rfl
  cases hx : t.is_closed with
  | true =>
    have hrest : rest = [] := by
      by_contra hne
      have hmem : t ∈ (t :: rest).dropLast := by
        cases rest with
        | nil => exact absurd rfl hne
        | cons v vs => simp
      rw [hmid t hmem] at hx
      cases hx
    subst hrest
    rw [hstep, update_empty_close m t hx]
    refine ⟨{ t with is_closed := true }, ?_, by simp [Pipeline.pyMax],
      by simp [Pipeline.pyMin], by simp, by simp⟩
    show finalCandleOf ⟨m, pushBounded m [] { t with is_closed := true },
      none, some t.timestamp⟩ = _
    unfold finalCandleOf
    rw [pushBounded_singleton m hm]
    rfl
  | false =>
    rw [hstep, update_empty_open m t hx]
    cases hrest : rest with
    | nil =>
      refine ⟨t, rfl, by simp [Pipeline.pyMax], by simp [Pipeline.pyMin],
        by simp, by simp⟩
    | cons v vs =>
      rw [← hrest]
      have hrun := applyTicks_same_run m T rest t (by rw [hrest]; simp)
        (hts t (by simp)) hx (fun u hu => hts u (by simp [hu]))
        (fun u hu => hmid u (by
          cases rest with
          | nil => simp at hu
          | cons w ws => simp at hu ⊢; exact Or.inr hu))
      rw [hrun]
      cases hcl : (mergeAll t rest).is_closed with
      | true =>
        rw [if_pos rfl]
        refine ⟨{ mergeAll t rest with is_closed := true }, ?_, ?_, ?_, ?_, ?_⟩
        · unfold finalCandleOf
          rw [pushBounded_singleton m hm]
          rfl
        · show (mergeAll t rest).high = _
          exact mergeAll_high t rest
        · show (mergeAll t rest).low = _
          exact mergeAll_low t rest
        · show (mergeAll t rest).close = _
          exact mergeAll_close t rest
        · show (mergeAll t rest).volume = _
          exact mergeAll_volume t rest
      | false =>
        rw [if_neg (by simp)]
        exact ⟨mergeAll t rest, rfl, mergeAll_high t rest,
          mergeAll_low t rest, mergeAll_close t rest,
          mergeAll_volume t rest⟩

theorem C8_merge_correctness_witness :
    ∃ c, finalCandleOf (applyTicks (StreamingKlineBuffer.empty 500)
        [mkTick 7 1 5 0 2 3 false, mkTick 7 1 4 1 3 4 true]) = some c ∧
      c.high = Pipeline.pyMax ([mkTick 7 1 5 0 2 3 false,
        mkTick 7 1 4 1 3 4 true].map fun u => u.high) ∧
      c.low = Pipeline.pyMin ([mkTick 7 1 5 0 2 3 false,
        mkTick 7 1 4 1 3 4 true].map fun u => u.low) ∧
      c.close = ([mkTick 7 1 4 1 3 4 true].getLastD
        (mkTick 7 1 5 0 2 3 false)).close ∧
      c.volume = ([mkTick 7 1 4 1 3 4 true].getLastD
        (mkTick 7 1 5 0 2 3 false)).volume :=
  C8_merge_correctness 500 (by decide) (mkTick 7 1 5 0 2 3 false)
    [mkTick 7 1 4 1 3 4 true] 7 (by decide) (by decide)

end StreamingBuffer

namespace Verification

/-- Both conservation equations `checked = correct + wrong`. -/
def StatsInv (s : VerificationStats) : Prop :=
  s.total_verified_10min = s.correct_10min + s.wrong_10min ∧
  s.total_verified_30min = s.correct_30min + s.wrong_30min

theorem bump_pair_preserve (s : VerificationStats) (a b : Option Bool)
    (h : StatsInv s) : StatsInv (bump30 (bump10 s a) b) := by
  unfold StatsInv at h ⊢
  obtain ⟨h1, h2⟩ := h
  rcases a with _ | a
  · rcases b with _ | b
    · simp only [bump10, bump30]
      omega
    · cases b <;> simp only [bump10, bump30] <;> omega
  · rcases b with _ | b
    · cases a <;> simp only [bump10, bump30] <;> omega
    · cases a <;> cases b <;> simp only [bump10, bump30] <;> omega

theorem foldl_bump_preserve
    (rs : List (PendingVerification × Option Bool × Option Bool)) :
    ∀ s : VerificationStats, StatsInv s →
    StatsInv (rs.foldl (fun s r => bump30 (bump10 s r.2.1) r.2.2) s) := by
  induction rs with
  | nil => intro s h; exact h
  | cons r rs ih =>
    intro s h
    exact ih _ (bump_pair_preserve s r.2.1 r.2.2 h)

theorem verify_signals_stats_inv (now : ℤ) (price : ℚ) (st : TrackerState)
    (h : StatsInv st.stats) : StatsInv (_verify_signals now price st).stats := by
  unfold _verify_signals
  split
  · exact h
  · exact foldl_bump_preserve _ st.stats h

theorem add_pending_stats (now : ℤ) (d : Strategy.SignalDirection) (e : ℚ)
    (st : TrackerState) :
    (_add_pending_verification now d e st).stats = st.stats := rfl

theorem trackerRun_stats_inv (events : List TrackerEvent) :
    ∀ st : TrackerState, StatsInv st.stats →
    StatsInv (events.foldl trackerStep st).stats := by
  induction events with
  | nil => intro st h; exact h
  | cons e es ih =>
    intro st h
    apply ih
    cases e with
    | add now d entry =>
      show StatsInv (_add_pending_verification now d entry st).stats
      rw [add_pending_stats]
      exact h
    | tick now price => exact verify_signals_stats_inv now price st h

/-- C6: the claim says every non-HOLD signal is tracked through 10-, 30-
AND 60-minute windows.  The tracker has no 60-minute window at all: after
Scenario G's trace (BUY at entry 100 at t=0, probed at t=600 with close
101 → 10-min CORRECT, at t=1800 with close 99 → 30-min WRONG) the record
is fully resolved with exactly two probes, and a tick at the 60-minute
mark (t=3600) records nothing — the probe totals stay `1` and `1`
(two probes in total, never three). -/
theorem C6_no_60min_window_counterexample :
    (runTracker [.add 0 .BUY 100, .tick 600 101, .tick 1800 99]).stats =
      ⟨1, 1, 0, 1, 0, 1⟩ ∧
    (runTracker [.add 0 .BUY 100, .tick 600 101, .tick 1800 99,
      .tick 3600 105]).stats = ⟨1, 1, 0, 1, 0, 1⟩ ∧
    (runTracker [.add 0 .BUY 100, .tick 600 101, .tick 1800 99,
      .tick 3600 105]).pending.length = 0 ∧
    (runTracker [.add 0 .BUY 100, .tick 600 101, .tick 1800 99,
      .tick 3600 105]).completed.length = 1 :=
  ⟨by decide, by decide, by decide, by decide⟩

/-- C6 (amended): every recorded non-HOLD signal is tracked through its
10- and 30-minute windows (there is no 60-minute window): each horizon is
probed at most once — once resolved, later passes leave it untouched —
and only at or after its check time; the outcome is CORRECT iff the
current close moved strictly in the predicted direction, so exact
equality records WRONG; after any event sequence `checked = correct +
wrong` holds at both horizons; and accuracy is `correct/checked` with
`0/0 = 0`. -/
theorem C6_verification_tracking (events : List TrackerEvent) (now : ℤ)
    (price : ℚ) (pv : PendingVerification) :
    ((runTracker events).stats.total_verified_10min =
      (runTracker events).stats.correct_10min +
      (runTracker events).stats.wrong_10min) ∧
    ((runTracker events).stats.total_verified_30min =
      (runTracker events).stats.correct_30min +
      (runTracker events).stats.wrong_30min) ∧
    (pv.verified_10min = true → probe10 now price pv = (pv, Option.none)) ∧
    (pv.verified_30min = true → probe30 now price pv = (pv, Option.none)) ∧
    (now < pv.verify_10min_time → probe10 now price pv = (pv, Option.none)) ∧
    (now < pv.verify_30min_time → probe30 now price pv = (pv, Option.none)) ∧
    (pv.verified_10min = false → pv.verify_10min_time ≤ now →
      (probe10 now price pv).1.verified_10min = true ∧
      (probe10 now price pv).1.result_10min = Option.some
        (if (pv.signal_direction = .BUY ∧ pv.entry_price < price) ∨
            (pv.signal_direction ≠ .BUY ∧ price < pv.entry_price)
         then "correct" else "wrong")) ∧
    (pv.verified_30min = false → pv.verify_30min_time ≤ now →
      (probe30 now price pv).1.verified_30min = true ∧
      (probe30 now price pv).1.result_30min = Option.some
        (if (pv.signal_direction = .BUY ∧ pv.entry_price < price) ∨
            (pv.signal_direction ≠ .BUY ∧ price < pv.entry_price)
         then "correct" else "wrong")) ∧
    (price = pv.entry_price → pv.verified_10min = false →
      pv.verify_10min_time ≤ now →
      (probe10 now price pv).1.result_10min = Option.some "wrong") ∧
    ((runTracker events).stats.total_verified_10min = 0 →
      (runTracker events).stats.accuracy_10min = 0) ∧
    ((runTracker events).stats.total_verified_30min = 0 →
      (runTracker events).stats.accuracy_30min = 0) := by
  have hinv := trackerRun_stats_inv events TrackerState.initial ⟨rfl, rfl⟩
  refine ⟨hinv.1, hinv.2, ?_, ?_, ?_, ?_, ?_, ?_, ?_, ?_, ?_⟩
  · intro h
    unfold probe10
    rw [if_neg (by simp [h])]
  · intro h
    unfold probe30
    rw [if_neg (by simp [h])]
  · intro h
    unfold probe10
    rw [if_neg (by
      rintro ⟨-, hle⟩
      omega)]
  · intro h
    unfold probe30
    rw [if_neg (by
      rintro ⟨-, hle⟩
      omega)]
  · intro h1 h2
    unfold probe10
    rw [if_pos ⟨by simp [h1], h2⟩]
    refine ⟨rfl, ?_⟩
    cases hd : pv.signal_direction with
    | BUY =>
      by_cases hlt : pv.entry_price < price
      · simp [hlt]
      · simp [hlt]
    | SELL =>
      by_cases hlt : price < pv.entry_price
      · simp [hlt]
      · simp [hlt]
    | HOLD =>
      by_cases hlt : price < pv.entry_price
      · simp [hlt]
      · simp [hlt]
  · intro h1 h2
    unfold probe30
    rw [if_pos ⟨by simp [h1], h2⟩]
    refine ⟨rfl, ?_⟩
    cases hd : pv.signal_direction with
    | BUY =>
      by_cases hlt : pv.entry_price < price
      · simp [hlt]
      · simp [hlt]
    | SELL =>
      by_cases hlt : price < pv.entry_price
      · simp [hlt]
      · simp [hlt]
    | HOLD =>
      by_cases hlt : price < pv.entry_price
      · simp [hlt]
      · simp [hlt]
  · intro heq h1 h2
    unfold probe10
    rw [if_pos ⟨by simp [h1], h2⟩]
    cases hd : pv.signal_direction with
    | BUY => simp [heq]
    | SELL => simp [heq]
    | HOLD => simp [heq]
  · intro h
    unfold VerificationStats.accuracy_10min
    rw [if_pos h]
  · intro h
    unfold VerificationStats.accuracy_30min
    rw [if_pos h]

theorem C6_verification_tracking_witness :
    ((runTracker [TrackerEvent.add 0 .BUY 100,
      TrackerEvent.tick 600 101]).stats.total_verified_10min =
      (runTracker [TrackerEvent.add 0 .BUY 100,
        TrackerEvent.tick 600 101]).stats.correct_10min +
      (runTracker [TrackerEvent.add 0 .BUY 100,
        TrackerEvent.tick 600 101]).stats.wrong_10min) ∧
    ((runTracker [TrackerEvent.add 0 .BUY 100,
      TrackerEvent.tick 600 101]).stats.total_verified_30min =
      (runTracker [TrackerEvent.add 0 .BUY 100,
        TrackerEvent.tick 600 101]).stats.correct_30min +
      (runTracker [TrackerEvent.add 0 .BUY 100,
        TrackerEvent.tick 600 101]).stats.wrong_30min) ∧
    (samplePending.verified_10min = true →
      probe10 600 101 samplePending = (samplePending, Option.none)) ∧
    (samplePending.verified_30min = true →
      probe30 600 101 samplePending = (samplePending, Option.none)) ∧
    ((600 : ℤ) < samplePending.verify_10min_time →
      probe10 600 101 samplePending = (samplePending, Option.none)) ∧
    ((600 : ℤ) < samplePending.verify_30min_time →
      probe30 600 101 samplePending = (samplePending, Option.none)) ∧
    (samplePending.verified_10min = false →
      samplePending.verify_10min_time ≤ 600 →
      (probe10 600 101 samplePending).1.verified_10min = true ∧
      (probe10 600 101 samplePending).1.result_10min = Option.some
        (if (samplePending.signal_direction = .BUY ∧
              samplePending.entry_price < 101) ∨
            (samplePending.signal_direction ≠ .BUY ∧
              (101 : ℚ) < samplePending.entry_price)
         then "correct" else "wrong")) ∧
    (samplePending.verified_30min = false →
      samplePending.verify_30min_time ≤ 600 →
      (probe30 600 101 samplePending).1.verified_30min = true ∧
      (probe30 600 101 samplePending).1.result_30min = Option.some
        (if (samplePending.signal_direction = .BUY ∧
              samplePending.entry_price < 101) ∨
            (samplePending.signal_direction ≠ .BUY ∧
              (101 : ℚ) < samplePending.entry_price)
         then "correct" else "wrong")) ∧
    ((101 : ℚ) = samplePending.entry_price →
      samplePending.verified_10min = false →
      samplePending.verify_10min_time ≤ 600 →
      (probe10 600 101 samplePending).1.result_10min =
        Option.some "wrong") ∧
    ((runTracker [TrackerEvent.add 0 .BUY 100,
      TrackerEvent.tick 600 101]).stats.total_verified_10min = 0 →
      (runTracker [TrackerEvent.add 0 .BUY 100,
        TrackerEvent.tick 600 101]).stats.accuracy_10min = 0) ∧
    ((runTracker [TrackerEvent.add 0 .BUY 100,
      TrackerEvent.tick 600 101]).stats.total_verified_30min = 0 →
      (runTracker [TrackerEvent.add 0 .BUY 100,
        TrackerEvent.tick 600 101]).stats.accuracy_30min = 0) :=
  C6_verification_tracking [TrackerEvent.add 0 .BUY 100,
    TrackerEvent.tick 600 101] 600 101 samplePending

end Verification

namespace Strategy

theorem check_buy_list_percent_b_errors (l : List ℚ) (rsi : PyVal)
    (k d j : Option ℚ) (ks ds : List ℚ) (vl : Bool) :
    RangingStrategy._check_buy_conditions (.list l) rsi k d j ks ds vl =
      .error "TypeError: '<' not supported between instances" := rfl

end Strategy

namespace Strategy

/-- C1: the claim says `RangingStrategy.analyze` returns (a HOLD on
failure) rather than raising on every input of at least 30 bars.  The
code raises on every such input when it computes its own indicators (the
path `SignalGenerator.generate` exercises): `analyze` binds the whole
RSI series and the whole Bollinger `%B` series where scalars are
expected, and `_check_buy_conditions` immediately evaluates
`percent_b < 0` — a Python 3 `TypeError` (`list < int`).  So for every
input with at least 30 closes the strategy raises instead of returning a
signal, and `SignalGenerator.generate` propagates the exception whenever
the ranging strategy is selected. -/
theorem C1_ranging_analyze_raises (sqrtFn : ℚ → ℚ) (H L C : List ℚ)
    (vols : Option (List ℚ)) (h30 : 30 ≤ C.length) :
    ∃ msg, RangingStrategy.analyze sqrtFn H L C vols = .error msg := by
  unfold RangingStrategy.analyze
  rw [if_neg (by omega)]
  cases hrsi : Indicators.RSIIndicator.calculate 14 C with
  | error e => exact ⟨e, rfl⟩
  | ok r =>
    cases hkdj : Indicators.KDJIndicator.calculate 9 3 H L C with
    | error e => exact ⟨e, rfl⟩
    | ok kr =>
      cases hbb : Indicators.BollingerBandsIndicator.calculate 20 2 sqrtFn C with
      | error e => exact ⟨e, rfl⟩
      | ok br =>
        cases hatr : Indicators.ATRIndicator.calculate 14 H L C with
        | error e => exact ⟨e, rfl⟩
        | ok ar =>
          exact ⟨"TypeError: '<' not supported between instances", rfl⟩

theorem C1_ranging_analyze_raises_witness :
    ∃ msg, RangingStrategy.analyze id (List.replicate 35 2)
      (List.replicate 35 1) (List.replicate 35 (3 / 2)) Option.none =
      .error msg :=
  C1_ranging_analyze_raises id (List.replicate 35 2) (List.replicate 35 1)
    (List.replicate 35 (3 / 2)) Option.none (by simp)

end Strategy

namespace Indicators

open Pipeline

theorem priceDiffs_length (C : List ℚ) :
    (priceDiffs C).length = C.length - 1 := by
  unfold priceDiffs
  simp

theorem gainsOf_length (C : List ℚ) : (gainsOf C).length = C.length - 1 := by
  unfold gainsOf
  simp [priceDiffs_length]

theorem lossesOf_length (C : List ℚ) :
    (lossesOf C).length = C.length - 1 := by
  unfold lossesOf
  simp [priceDiffs_length]

theorem rsiAvgSeq_length (p : ℕ) (xs : List ℚ) :
    (rsiAvgSeq p xs).length = 1 + (xs.length - p) := by
  unfold rsiAvgSeq
  simp [stateScan_length]
  omega

theorem RSIIndicator.rsi_calculate_eq (p : ℕ) (C : List ℚ)
    (h : p + 1 ≤ C.length) :
    RSIIndicator.calculate p C = .ok
      ⟨(rsiAvgSeq p (gainsOf C)).zipWith rsiOf (rsiAvgSeq p (lossesOf C)),
        rsiAvgSeq p (gainsOf C), rsiAvgSeq p (lossesOf C)⟩ := by
  unfold RSIIndicator.calculate
  rw [if_neg (by omega), if_neg (by rw [gainsOf_length]; omega)]

theorem BollingerBandsIndicator.boll_calculate_eq (p : ℕ) (k : ℚ)
    (σ : ℚ → ℚ) (C : List ℚ) (hp : p ≤ C.length) (hne : C.length ≠ 0)
    (hpos : ∀ x ∈ C, ¬x < 0) :
    BollingerBandsIndicator.calculate p k σ C = .ok
      { upper_band := ((List.range (C.length - (p - 1))).map
          (bollWindow p k σ C)).map fun w => w.1
        middle_band := ((List.range (C.length - (p - 1))).map
          (bollWindow p k σ C)).map fun w => w.2.1
        lower_band := ((List.range (C.length - (p - 1))).map
          (bollWindow p k σ C)).map fun w => w.2.2.1
        bandwidth := ((List.range (C.length - (p - 1))).map
          (bollWindow p k σ C)).map fun w => w.2.2.2.1
        percent_b := ((List.range (C.length - (p - 1))).map
          (bollWindow p k σ C)).map fun w => w.2.2.2.2.1
        std_dev := ((List.range (C.length - (p - 1))).map
          (bollWindow p k σ C)).map fun w => w.2.2.2.2.2 } := by
  unfold BollingerBandsIndicator.calculate
  rw [if_neg hne, if_neg (by omega), if_neg (by
    rw [List.any_eq_true]
    push_neg
    intro x hx
    simpa using hpos x hx)]

theorem MACDIndicator.macd_calculate_eq (f s g : ℕ) (C : List ℚ)
    (hs : s ≤ C.length) (hpos : ∀ x ∈ C, ¬x ≤ 0) :
    MACDIndicator.calculate f s g C = .ok
      (let ema_fast0 := MACDIndicator.calcEma C f (2 / ((f : ℚ) + 1))
       let ema_slow := MACDIndicator.calcEma C s (2 / ((s : ℚ) + 1))
       let ema_fast1 := ema_fast0.drop (ema_fast0.length - ema_slow.length)
       let macd0 := ema_fast1.zipWith (fun a b => a - b) ema_slow
       let signal_line :=
         MACDIndicator.calcEma macd0 g (2 / ((g : ℚ) + 1))
       let off2 := macd0.length - signal_line.length
       { macd_line := macd0.drop off2
         signal_line := signal_line
         histogram := (macd0.drop off2).zipWith (fun m sg => m - sg)
           signal_line
         ema_fast := ema_fast1.drop off2
         ema_slow := ema_slow.drop off2 }) := by
  unfold MACDIndicator.calculate
  rw [if_neg (by
    rw [List.any_eq_true]
    push_neg
    intro x hx
    simpa using hpos x hx), if_neg (by omega)]

theorem KDJIndicator.kdj_calculate_eq (p sig : ℕ) (H L C : List ℚ)
    (h1 : H.length = L.length) (h2 : H.length = C.length)
    (hp : p ≤ C.length) :
    KDJIndicator.calculate p sig H L C = .ok
      (let rsv := (List.range (C.length - (p - 1))).map (rsvAt p H L C)
       let k_values := _bcwsma rsv (sig : ℚ) 1
       let d_values := _bcwsma k_values (sig : ℚ) 1
       let j_values := k_values.zipWith (fun kv dv => 3 * kv - 2 * dv)
         d_values
       ⟨k_values.getLast?, d_values.getLast?, j_values.getLast?,
         k_values, d_values, j_values⟩) := by
  unfold KDJIndicator.calculate
  rw [if_neg (by push_neg; exact ⟨h1, h2⟩), if_neg (by omega)]

theorem KDJIndicator.kdj_calculate_short (p sig : ℕ) (H L C : List ℚ)
    (h1 : H.length = L.length) (h2 : H.length = C.length)
    (hp : C.length < p) :
    KDJIndicator.calculate p sig H L C =
      .ok ⟨none, none, none, [], [], []⟩ := by
  unfold KDJIndicator.calculate
  rw [if_neg (by push_neg; exact ⟨h1, h2⟩), if_pos hp]

theorem ATRIndicator.atr_calculate_eq (p : ℕ) (H L C : List ℚ)
    (h1 : H.length = L.length) (h2 : H.length = C.length)
    (hp : p + 1 ≤ C.length) :
    ATRIndicator.calculate p H L C = .ok
      (let tr_values := trSeq H L C
       let initial := meanOver ((tr_values.drop 1).take p) p
       let atr_values := initial :: stateScan (wilderStep p) initial
         (tr_values.drop (p + 1))
       ⟨atr_values.getLast?, (tr_values.drop p).getLast?, atr_values,
         tr_values.drop p⟩) := by
  unfold ATRIndicator.calculate
  rw [if_neg (by push_neg; exact ⟨h1, h2⟩), if_neg (by omega)]

theorem ATRIndicator.atr_calculate_short (p : ℕ) (H L C : List ℚ)
    (h1 : H.length = L.length) (h2 : H.length = C.length)
    (hp : C.length < p + 1) :
    ATRIndicator.calculate p H L C = .ok ⟨none, none, [], []⟩ := by
  unfold ATRIndicator.calculate
  rw [if_neg (by push_neg; exact ⟨h1, h2⟩), if_pos hp]

theorem CCIIndicator.cci_calculate_eq (p : ℕ) (H L C : List ℚ)
    (h1 : H.length = L.length) (h2 : H.length = C.length)
    (hp : p ≤ C.length) :
    CCIIndicator.calculate p H L C = .ok
      (let tp := typicalPrices H L C
       let ws := (List.range (C.length - (p - 1))).map (cciAt p tp)
       { cci := ws.map fun w => w.1
         typical_price := tp.drop (p - 1)
         sma := ws.map fun w => w.2.1
         mean_deviation := ws.map fun w => w.2.2 }) := by
  unfold CCIIndicator.calculate
  rw [if_neg (by push_neg; exact ⟨h1, h2⟩), if_neg (by omega)]

theorem VWAPIndicator.vwap_calculate_eq (H L C V : List ℚ)
    (h1 : H.length = L.length) (h2 : H.length = C.length)
    (h3 : H.length = V.length) (hne : C.length ≠ 0) :
    VWAPIndicator.calculate H L C V = .ok
      ⟨(stateScan vwapStep (0, 0) ((typicalPrices H L C).zip V)).getLast?,
        stateScan vwapStep (0, 0) ((typicalPrices H L C).zip V)⟩ := by
  unfold VWAPIndicator.calculate
  rw [if_neg (by push_neg; exact ⟨h1, h2, h3⟩), if_neg hne]

theorem ADXIndicator.calculate_ok (p : ℕ) (H L C : List ℚ)
    (h1 : H.length = L.length) (h2 : H.length = C.length) :
    ∃ r, ADXIndicator.calculate p H L C = .ok r := by
  unfold ADXIndicator.calculate
  rw [if_neg (by push_neg; exact ⟨h1, h2⟩)]
  split
  · exact ⟨_, rfl⟩
  · exact ⟨_, rfl⟩

end Indicators

namespace Indicators

open Pipeline

theorem _ema_length (p : ℕ) (C : List ℚ) (hp : 0 < p) (h : p ≤ C.length) :
    (_ema C p).length = C.length := by
  unfold _ema
  rw [if_neg (by push_neg; constructor <;> omega)]
  simp [stateScan_length]
  omega

/-- C5: the claim says no kernel ever raises.  `RSIIndicator.calculate`
raises `ValueError` on fewer than `period+1` samples,
`MACDIndicator.calculate` on any non-positive price, and
`BollingerBandsIndicator._validate_prices` on an empty input — here
evaluated at the concrete short inputs. -/
theorem C5_kernels_raise_counterexample :
    RSIIndicator.calculate 14 [1] = .error "价格数据长度不足" ∧
    MACDIndicator.calculate 12 26 9 [0] = .error "无效的价格数据" ∧
    BollingerBandsIndicator.calculate 20 2 id [] =
      .error "价格数据不能为空" :=
  ⟨rfl, rfl, rfl⟩

/-- C5 (amended): on length-consistent inputs the EMA, KDJ, ATR, ADX,
VWAP and volume kernels never fail — insufficient history yields `None`
values and empty series — while RSI, Bollinger, MACD and CCI raise
`ValueError` exactly when their validation fails: RSI below `period+1`
samples; Bollinger on empty input, below `period` samples, or a negative
price; MACD on a non-positive price or below `slow_period` samples; CCI
below `period` samples. -/
theorem C5_kernel_failure (p f s g sig : ℕ) (k : ℚ) (σ : ℚ → ℚ)
    (H L C V : List ℚ) (hp : 0 < p) (h1 : H.length = L.length)
    (h2 : H.length = C.length) (h3 : H.length = V.length) :
    ((p + 1 ≤ C.length → ∃ r, RSIIndicator.calculate p C = .ok r) ∧
     (C.length < p + 1 →
       RSIIndicator.calculate p C = .error "价格数据长度不足")) ∧
    (((C.length ≠ 0 ∧ p ≤ C.length ∧ ∀ x ∈ C, ¬x < 0) →
       ∃ r, BollingerBandsIndicator.calculate p k σ C = .ok r) ∧
     (C.length = 0 → BollingerBandsIndicator.calculate p k σ C =
       .error "价格数据不能为空") ∧
     (C.length ≠ 0 → C.length < p →
       BollingerBandsIndicator.calculate p k σ C =
         .error "价格数据长度不足") ∧
     (C.length ≠ 0 → p ≤ C.length → (∃ x ∈ C, x < 0) →
       BollingerBandsIndicator.calculate p k σ C =
         .error "价格不能为负数")) ∧
    (((∀ x ∈ C, ¬x ≤ 0) → s ≤ C.length →
       ∃ r, MACDIndicator.calculate f s g C = .ok r) ∧
     ((∃ x ∈ C, x ≤ 0) →
       MACDIndicator.calculate f s g C = .error "无效的价格数据") ∧
     ((∀ x ∈ C, ¬x ≤ 0) → C.length < s →
       MACDIndicator.calculate f s g C = .error "价格数据长度不足")) ∧
    ((p ≤ C.length → ∃ r, CCIIndicator.calculate p H L C = .ok r) ∧
     (C.length < p →
       CCIIndicator.calculate p H L C = .error "数据长度不足")) ∧
    ((∃ r, KDJIndicator.calculate p sig H L C = .ok r) ∧
     (C.length < p → KDJIndicator.calculate p sig H L C =
       .ok ⟨none, none, none, [], [], []⟩)) ∧
    ((∃ r, ATRIndicator.calculate p H L C = .ok r) ∧
     (C.length < p + 1 →
       ATRIndicator.calculate p H L C = .ok ⟨none, none, [], []⟩)) ∧
    ((∃ r, ADXIndicator.calculate p H L C = .ok r) ∧
     (C.length < 2 → ADXIndicator.calculate p H L C =
       .ok ⟨none, none, none, none, [], [], [], []⟩)) ∧
    ((∃ r, VWAPIndicator.calculate H L C V = .ok r) ∧
     (C.length = 0 → VWAPIndicator.calculate H L C V = .ok ⟨none, []⟩)) ∧
    ((C.length < p → EMAIndicator.calculate p C = ⟨none, []⟩) ∧
     (p ≤ C.length → ∃ q, (EMAIndicator.calculate p C).ema = some q)) ∧
    (V.length = 0 → VolumeIndicator.calculate p V =
      ⟨none, none, none, none, [], [], []⟩) := by
  refine ⟨⟨?_, ?_⟩, ⟨?_, ?_, ?_, ?_⟩, ⟨?_, ?_, ?_⟩, ⟨?_, ?_⟩, ⟨?_, ?_⟩,
    ⟨?_, ?_⟩, ⟨?_, ?_⟩, ⟨?_, ?_⟩, ⟨?_, ?_⟩, ?_⟩
  · intro h
    exact ⟨_, RSIIndicator.rsi_calculate_eq p C h⟩
  · intro h
    unfold RSIIndicator.calculate
    rw [if_pos (by omega)]
  · rintro ⟨ha, hb, hc⟩
    exact ⟨_, BollingerBandsIndicator.boll_calculate_eq p k σ C hb ha hc⟩
  · intro h
    unfold BollingerBandsIndicator.calculate
    rw [if_pos h]
  · intro ha hb
    unfold BollingerBandsIndicator.calculate
    rw [if_neg ha, if_pos hb]
  · rintro ha hb ⟨x, hx, hxneg⟩
    unfold BollingerBandsIndicator.calculate
    rw [if_neg ha, if_neg (by omega), if_pos (by
      rw [List.any_eq_true]
      exact ⟨x, hx, by simpa using hxneg⟩)]
  · intro hpos hlen
    exact ⟨_, MACDIndicator.macd_calculate_eq f s g C hlen hpos⟩
  · rintro ⟨x, hx, hxle⟩
    unfold MACDIndicator.calculate
    rw [if_pos (by
      rw [List.any_eq_true]
      exact ⟨x, hx, by simpa using hxle⟩)]
  · intro hpos hlen
    unfold MACDIndicator.calculate
    rw [if_neg (by
      rw [List.any_eq_true]
      push_neg
      intro x hx
      simpa using hpos x hx), if_pos hlen]
  · intro h
    exact ⟨_, CCIIndicator.cci_calculate_eq p H L C h1 h2 h⟩
  · intro h
    unfold CCIIndicator.calculate
    rw [if_neg (by push_neg; exact ⟨h1, h2⟩), if_pos h]
  · rcases lt_or_le C.length p with h | h
    · exact ⟨_, KDJIndicator.kdj_calculate_short p sig H L C h1 h2 h⟩
    · exact ⟨_, KDJIndicator.kdj_calculate_eq p sig H L C h1 h2 h⟩
  · intro h
    exact KDJIndicator.kdj_calculate_short p sig H L C h1 h2 h
  · rcases lt_or_le C.length (p + 1) with h | h
    · exact ⟨_, ATRIndicator.atr_calculate_short p H L C h1 h2 h⟩
    · exact ⟨_, ATRIndicator.atr_calculate_eq p H L C h1 h2 h⟩
  · intro h
    exact ATRIndicator.atr_calculate_short p H L C h1 h2 h
  · exact ADXIndicator.calculate_ok p H L C h1 h2
  · intro h
    unfold ADXIndicator.calculate
    rw [if_neg (by push_neg; exact ⟨h1, h2⟩), if_pos h]
  · rcases Nat.eq_zero_or_pos C.length with h | h
    · refine ⟨⟨none, []⟩, ?_⟩
      unfold VWAPIndicator.calculate
      rw [if_neg (by push_neg; exact ⟨h1, h2, h3⟩), if_pos h]
    · exact ⟨_, VWAPIndicator.vwap_calculate_eq H L C V h1 h2 h3 (by omega)⟩
  · intro h
    unfold VWAPIndicator.calculate
    rw [if_neg (by push_neg; exact ⟨h1, h2, h3⟩), if_pos h]
  · intro h
    unfold EMAIndicator.calculate
    rw [if_pos h]
  · intro h
    unfold EMAIndicator.calculate
    rw [if_neg (by omega)]
    have hlen := _ema_length p C hp h
    have hne : _ema C p ≠ [] := by
      intro hcon
      rw [hcon] at hlen
      simp at hlen
      omega
    rcases List.getLast?_isSome.mpr hne |> Option.isSome_iff_exists.mp
      with ⟨q, hq⟩
    exact ⟨q, hq⟩
  · intro h
    unfold VolumeIndicator.calculate
    rw [if_pos h]

theorem C5_kernel_failure_witness :
    (((14 : ℕ) + 1 ≤ ([1, 2, 3] : List ℚ).length →
      ∃ r, RSIIndicator.calculate 14 [1, 2, 3] = .ok r) ∧
     (([1, 2, 3] : List ℚ).length < 14 + 1 →
       RSIIndicator.calculate 14 [1, 2, 3] =
         .error "价格数据长度不足")) ∧
    (((([1, 2, 3] : List ℚ).length ≠ 0 ∧ 14 ≤ ([1, 2, 3] : List ℚ).length ∧
        ∀ x ∈ ([1, 2, 3] : List ℚ), ¬x < 0) →
       ∃ r, BollingerBandsIndicator.calculate 14 2 id [1, 2, 3] = .ok r) ∧
     (([1, 2, 3] : List ℚ).length = 0 →
       BollingerBandsIndicator.calculate 14 2 id [1, 2, 3] =
         .error "价格数据不能为空") ∧
     (([1, 2, 3] : List ℚ).length ≠ 0 → ([1, 2, 3] : List ℚ).length < 14 →
       BollingerBandsIndicator.calculate 14 2 id [1, 2, 3] =
         .error "价格数据长度不足") ∧
     (([1, 2, 3] : List ℚ).length ≠ 0 → 14 ≤ ([1, 2, 3] : List ℚ).length →
       (∃ x ∈ ([1, 2, 3] : List ℚ), x < 0) →
       BollingerBandsIndicator.calculate 14 2 id [1, 2, 3] =
         .error "价格不能为负数")) ∧
    (((∀ x ∈ ([1, 2, 3] : List ℚ), ¬x ≤ 0) →
       26 ≤ ([1, 2, 3] : List ℚ).length →
       ∃ r, MACDIndicator.calculate 12 26 9 [1, 2, 3] = .ok r) ∧
     ((∃ x ∈ ([1, 2, 3] : List ℚ), x ≤ 0) →
       MACDIndicator.calculate 12 26 9 [1, 2, 3] =
         .error "无效的价格数据") ∧
     ((∀ x ∈ ([1, 2, 3] : List ℚ), ¬x ≤ 0) →
       ([1, 2, 3] : List ℚ).length < 26 →
       MACDIndicator.calculate 12 26 9 [1, 2, 3] =
         .error "价格数据长度不足")) ∧
    ((14 ≤ ([1, 2, 3] : List ℚ).length →
       ∃ r, CCIIndicator.calculate 14 [2, 3, 4] [1, 2, 3] [1, 2, 3] =
         .ok r) ∧
     (([1, 2, 3] : List ℚ).length < 14 →
       CCIIndicator.calculate 14 [2, 3, 4] [1, 2, 3] [1, 2, 3] =
         .error "数据长度不足")) ∧
    ((∃ r, KDJIndicator.calculate 14 3 [2, 3, 4] [1, 2, 3] [1, 2, 3] =
       .ok r) ∧
     (([1, 2, 3] : List ℚ).length < 14 →
       KDJIndicator.calculate 14 3 [2, 3, 4] [1, 2, 3] [1, 2, 3] =
         .ok ⟨none, none, none, [], [], []⟩)) ∧
    ((∃ r, ATRIndicator.calculate 14 [2, 3, 4] [1, 2, 3] [1, 2, 3] =
       .ok r) ∧
     (([1, 2, 3] : List ℚ).length < 14 + 1 →
       ATRIndicator.calculate 14 [2, 3, 4] [1, 2, 3] [1, 2, 3] =
         .ok ⟨none, none, [], []⟩)) ∧
    ((∃ r, ADXIndicator.calculate 14 [2, 3, 4] [1, 2, 3] [1, 2, 3] =
       .ok r) ∧
     (([1, 2, 3] : List ℚ).length < 2 →
       ADXIndicator.calculate 14 [2, 3, 4] [1, 2, 3] [1, 2, 3] =
         .ok ⟨none, none, none, none, [], [], [], []⟩)) ∧
    ((∃ r, VWAPIndicator.calculate [2, 3, 4] [1, 2, 3] [1, 2, 3] [5, 5, 5] =
       .ok r) ∧
     (([1, 2, 3] : List ℚ).length = 0 →
       VWAPIndicator.calculate [2, 3, 4] [1, 2, 3] [1, 2, 3] [5, 5, 5] =
         .ok ⟨none, []⟩)) ∧
    ((([1, 2, 3] : List ℚ).length < 14 →
       EMAIndicator.calculate 14 [1, 2, 3] = ⟨none, []⟩) ∧
     (14 ≤ ([1, 2, 3] : List ℚ).length →
       ∃ q, (EMAIndicator.calculate 14 [1, 2, 3]).ema = some q)) ∧
    (([5, 5, 5] : List ℚ).length = 0 →
      VolumeIndicator.calculate 14 [5, 5, 5] =
        ⟨none, none, none, none, [], [], []⟩) :=
  C5_kernel_failure 14 12 26 9 3 2 id [2, 3, 4] [1, 2, 3] [1, 2, 3]
    [5, 5, 5] (by omega) (by simp) (by simp) (by simp)

end Indicators

namespace Indicators

open Pipeline

theorem calcEma_length (P : List ℚ) (p : ℕ) (alpha : ℚ) (hp : 0 < p)
    (h : p ≤ P.length) :
    (MACDIndicator.calcEma P p alpha).length = P.length - p + 1 := by
  unfold MACDIndicator.calcEma
  rw [if_neg (by push_neg; constructor <;> omega)]
  simp [stateScan_length]

theorem _wilder_smooth_length (v : List ℚ) (p : ℕ) (hp : 0 < p) :
    (_wilder_smooth v p).length = v.length := by
  unfold _wilder_smooth
  split
  · simp
  · rename_i h
    push_neg at h
    simp [stateScan_length]
    omega

theorem fitLen_length (n : ℕ) (l : List (Option ℚ)) :
    (fitLen n l).length = n := by
  unfold fitLen
  split
  · rename_i h
    simp
    omega
  · rename_i h
    push_neg at h
    simp
    omega

theorem fitLen_getD (n : ℕ) (l : List (Option ℚ)) (i : ℕ) (hi : i < n) :
    (fitLen n l).getD i none = l.getD i none := by
  unfold fitLen
  split
  · simp [List.getD_eq_getElem?_getD, List.getElem?_take, hi]
  · rename_i h
    push_neg at h
    rcases lt_or_le i l.length with hcase | hcase
    · simp [List.getD_eq_getElem?_getD, List.getElem?_append, hcase]
    · rw [List.getD_eq_getElem?_getD, List.getD_eq_getElem?_getD,
        List.getElem?_append, if_neg (by omega),
        List.getElem?_replicate_of_lt
          (show i - l.length < n - l.length by omega),
        List.getElem?_eq_none (by simpa using hcase)]
      rfl

theorem _wilder_smooth_prefix (v : List ℚ) (p j : ℕ) (hj : j < p - 1)
    (hjl : j < v.length) : (_wilder_smooth v p)[j]? = some none := by
  unfold _wilder_smooth
  split
  · rw [List.getElem?_map, List.getElem?_eq_getElem hjl]
    rfl
  · simp only [List.getElem?_append, List.length_replicate]
    rw [if_pos hj, List.getElem?_replicate_of_lt hj]

theorem diEntry_none (sdm : Option ℚ) : diEntry none sdm = none := rfl

theorem dxEntry_none (md : Option ℚ) : dxEntry none md = none := rfl

theorem adxOfDx_prefix (p : ℕ) (dx : List (Option ℚ))
    (hpre : ∀ j, j < p - 1 → j < dx.length → dx[j]? = some none)
    (idx : ℕ) (hidx : idx < 2 * (p - 1)) :
    (adxOfDx p dx).getD idx none = none := by
  unfold adxOfDx
  cases hfind : dx.findIdx? fun o => o.isSome with
  | none =>
    rcases lt_or_le idx dx.length with h | h
    · rw [List.getD_eq_getElem?_getD, List.getElem?_replicate_of_lt h]
      rfl
    · rw [List.getD_eq_getElem?_getD,
        List.getElem?_eq_none (by simpa using h)]
      rfl
  | some start =>
    have hstart : p - 1 ≤ start := by
      rcases List.findIdx?_eq_some_iff_findIdx_eq.mp hfind with ⟨hlt, hidxeq⟩
      rcases (List.findIdx_eq hlt).mp hidxeq with ⟨hsome, _⟩
      by_contra hcon
      push_neg at hcon
      have h1 := hpre start hcon hlt
      rw [List.getElem?_eq_getElem hlt] at h1
      rw [Option.some_inj.mp h1] at hsome
      simp at hsome
    dsimp only
    split
    · rcases lt_or_le idx dx.length with h | h
      · rw [List.getD_eq_getElem?_getD, List.getElem?_replicate_of_lt h]
        rfl
      · rw [List.getD_eq_getElem?_getD,
          List.getElem?_eq_none (by simpa using h)]
        rfl
    · rcases lt_or_le idx dx.length with h | h
      · rw [List.getD_eq_getElem?_getD, List.getElem?_map,
          List.getElem?_range h]
        dsimp only [Option.map]
        rw [if_pos (by omega)]
        rfl
      · rw [List.getD_eq_getElem?_getD,
          List.getElem?_eq_none (by simp; omega)]
        rfl

end Indicators


namespace Indicators

open Pipeline

theorem ema_series_shape (p : ℕ) (C : List ℚ) (hp : 0 < p)
    (h : p ≤ C.length) :
    (EMAIndicator.calculate p C).ema_series.length = C.length ∧
      (∀ i, i < p - 1 →
        (EMAIndicator.calculate p C).ema_series.getD i 0 = cumMeanAt C i) ∧
      (EMAIndicator.calculate p C).ema_series.getD (p - 1) 0 =
        meanOver (C.take p) p := by
  have hser : (EMAIndicator.calculate p C).ema_series = _ema C p := by
    unfold EMAIndicator.calculate
    rw [if_neg (by omega)]
  rw [hser]
  refine ⟨_ema_length p C hp h, ?_, ?_⟩
  · intro i hi
    unfold _ema
    rw [if_neg (by push_neg; constructor <;> omega)]
    dsimp only
    rw [List.getD_eq_getElem?_getD, List.getElem?_append,
      if_pos (by simp; omega), List.getElem?_map,
      List.getElem?_range (by omega)]
    rfl
  · unfold _ema
    rw [if_neg (by push_neg; constructor <;> omega)]
    dsimp only
    rw [List.getD_eq_getElem?_getD, List.getElem?_append,
      if_neg (by simp)]
    simp

theorem rsi_series_len (p : ℕ) (C : List ℚ) (hp : 0 < p)
    (h : p + 1 ≤ C.length) :
    ((RSIIndicator.calculate p C).map fun r => r.rsi.length) =
      .ok (C.length - p) := by
  unfold RSIIndicator.calculate
  rw [if_neg (by omega), if_neg (by rw [gainsOf_length]; omega)]
  dsimp only [Except.map]
  congr 1
  rw [List.length_zipWith, rsiAvgSeq_length, rsiAvgSeq_length,
    gainsOf_length, lossesOf_length]
  omega

end Indicators

namespace Indicators

open Pipeline

theorem macd_series_len (f s g : ℕ) (C : List ℚ) (hf : 0 < f) (hfs : f ≤ s)
    (hg : 0 < g) (hs : s ≤ C.length) (hgm : g ≤ C.length - s + 1)
    (hpos : ∀ x ∈ C, 0 < x) :
    ((MACDIndicator.calculate f s g C).map fun r => r.macd_line.length) =
      .ok (C.length - s + 1 - g + 1) := by
  unfold MACDIndicator.calculate
  rw [if_neg (by
      simp only [List.any_eq_true, decide_eq_true_eq]
      push_neg
      exact hpos),
    if_neg (by omega)]
  dsimp only [Except.map]
  congr 1
  have h1 : (MACDIndicator.calcEma C f (2 / ((f : ℚ) + 1))).length =
      C.length - f + 1 := calcEma_length C f _ hf (le_trans hfs hs)
  have h2 : (MACDIndicator.calcEma C s (2 / ((s : ℚ) + 1))).length =
      C.length - s + 1 := calcEma_length C s _ (lt_of_lt_of_le hf hfs) hs
  have h4 : g ≤ (((MACDIndicator.calcEma C f (2 / ((f : ℚ) + 1))).drop
      ((MACDIndicator.calcEma C f (2 / ((f : ℚ) + 1))).length -
        (MACDIndicator.calcEma C s (2 / ((s : ℚ) + 1))).length)).zipWith
      (fun a b => a - b)
      (MACDIndicator.calcEma C s (2 / ((s : ℚ) + 1)))).length := by
    rw [List.length_zipWith, List.length_drop, h1, h2]
    omega
  rw [List.length_drop, calcEma_length _ _ _ hg h4, List.length_zipWith,
    List.length_drop, h1, h2]
  omega

theorem boll_series_len (p : ℕ) (m : ℚ) (sq : ℚ → ℚ) (C : List ℚ)
    (hp : 0 < p) (h : p ≤ C.length) (hnn : ∀ x ∈ C, 0 ≤ x) :
    ((BollingerBandsIndicator.calculate p m sq C).map fun r =>
        r.percent_b.length) = .ok (C.length - (p - 1)) := by
  unfold BollingerBandsIndicator.calculate
  rw [if_neg (by omega), if_neg (by omega), if_neg (by
    simp only [List.any_eq_true, decide_eq_true_eq]
    push_neg
    exact hnn)]
  dsimp only [Except.map]
  congr 1
  simp

theorem kdj_series_len (p sg : ℕ) (H L C : List ℚ) (hp : 0 < p)
    (h : p ≤ C.length) (hHL : H.length = L.length)
    (hHC : H.length = C.length) :
    ((KDJIndicator.calculate p sg H L C).map fun r => r.k_series.length) =
      .ok (C.length - (p - 1)) := by
  unfold KDJIndicator.calculate
  rw [if_neg (by push_neg; exact ⟨hHL, hHC⟩), if_neg (by omega)]
  dsimp only [Except.map]
  congr 1
  simp [_bcwsma, stateScan_length]

theorem atr_series_len (p : ℕ) (H L C : List ℚ) (hp : 0 < p)
    (h : p + 1 ≤ C.length) (hHL : H.length = L.length)
    (hHC : H.length = C.length) :
    ((ATRIndicator.calculate p H L C).map fun r => r.atr_series.length) =
      .ok (C.length - p) := by
  unfold ATRIndicator.calculate
  rw [if_neg (by push_neg; exact ⟨hHL, hHC⟩), if_neg (by omega)]
  dsimp only [Except.map]
  congr 1
  simp [stateScan_length, trSeq]
  omega

theorem cci_series_len (p : ℕ) (H L C : List ℚ) (hp : 0 < p)
    (h : p ≤ C.length) (hHL : H.length = L.length)
    (hHC : H.length = C.length) :
    ((CCIIndicator.calculate p H L C).map fun r => r.cci.length) =
      .ok (C.length - (p - 1)) := by
  unfold CCIIndicator.calculate
  rw [if_neg (by push_neg; exact ⟨hHL, hHC⟩), if_neg (by omega)]
  dsimp only [Except.map]
  congr 1
  simp

theorem vwap_series_len (H L C V : List ℚ) (hHL : H.length = L.length)
    (hHC : H.length = C.length) (hHV : H.length = V.length) :
    ((VWAPIndicator.calculate H L C V).map fun r => r.vwap_series.length) =
      .ok C.length := by
  unfold VWAPIndicator.calculate
  rw [if_neg (by push_neg; exact ⟨hHL, hHC, hHV⟩)]
  by_cases h0 : C.length = 0
  · rw [if_pos h0]
    dsimp only [Except.map]
    rw [h0]
    rfl
  · rw [if_neg h0]
    dsimp only [Except.map]
    congr 1
    simp [stateScan_length, typicalPrices]
    omega

theorem volume_ma_shape (p : ℕ) (V : List ℚ) (hp : 0 < p) :
    (VolumeIndicator.calculate p V).volume_ma_series.length = V.length ∧
      ∀ i, i < p - 1 →
        (VolumeIndicator.calculate p V).volume_ma_series.getD i none =
          none := by
  unfold VolumeIndicator.calculate
  by_cases h0 : V.length = 0
  · rw [if_pos h0]
    exact ⟨h0.symm, fun i hi => rfl⟩
  · rw [if_neg h0]
    dsimp only
    constructor
    · unfold VolumeIndicator._calculate_sma
      split
      · simp
      · simp
    · intro i hi
      unfold VolumeIndicator._calculate_sma
      split
      · rcases lt_or_le i V.length with hc | hc
        · rw [List.getD_eq_getElem?_getD, List.getElem?_map,
            List.getElem?_eq_getElem hc]
          rfl
        · rw [List.getD_eq_getElem?_getD,
            List.getElem?_eq_none (by simpa using hc)]
          rfl
      · rcases lt_or_le i V.length with hc | hc
        · rw [List.getD_eq_getElem?_getD, List.getElem?_map,
            List.getElem?_range hc]
          dsimp only [Option.map]
          rw [if_pos hi]
          rfl
        · rw [List.getD_eq_getElem?_getD,
            List.getElem?_eq_none (by simpa using hc)]
          rfl

theorem adx_series_len (p : ℕ) (H L C : List ℚ) (hp : 0 < p)
    (h2 : 2 ≤ C.length) (hHL : H.length = L.length)
    (hHC : H.length = C.length) :
    ((ADXIndicator.calculate p H L C).map fun r =>
        (r.adx_series.length, r.plus_di_series.length,
          r.minus_di_series.length, r.dx_series.length)) =
      .ok (C.length, C.length, C.length, C.length) := by
  unfold ADXIndicator.calculate
  rw [if_neg (by push_neg; exact ⟨hHL, hHC⟩), if_neg (by omega)]
  dsimp only [Except.map]
  congr 1
  simp [fitLen_length]

theorem di_zip_prefix (p j : ℕ) (tr dm : List ℚ) (hj : j < p - 1)
    (hp : 0 < p)
    (hlen : j < (List.zipWith diEntry (_wilder_smooth tr p)
      (_wilder_smooth dm p)).length) :
    (List.zipWith diEntry (_wilder_smooth tr p)
      (_wilder_smooth dm p))[j]? = some none := by
  have hlen' := hlen
  rw [List.length_zipWith, _wilder_smooth_length tr p hp,
    _wilder_smooth_length dm p hp] at hlen'
  have hjt : j < tr.length := lt_of_lt_of_le hlen' (min_le_left _ _)
  have hjd : j < (_wilder_smooth dm p).length := by
    rw [_wilder_smooth_length dm p hp]
    exact lt_of_lt_of_le hlen' (min_le_right _ _)
  rw [List.getElem?_zipWith, _wilder_smooth_prefix tr p j hj hjt,
    List.getElem?_eq_getElem hjd]
  rfl

theorem dx_zip_prefix (p j : ℕ) (tr pdm mdm : List ℚ) (hj : j < p - 1)
    (hp : 0 < p)
    (hlen : j < (List.zipWith dxEntry
      (List.zipWith diEntry (_wilder_smooth tr p) (_wilder_smooth pdm p))
      (List.zipWith diEntry (_wilder_smooth tr p)
        (_wilder_smooth mdm p))).length) :
    (List.zipWith dxEntry
      (List.zipWith diEntry (_wilder_smooth tr p) (_wilder_smooth pdm p))
      (List.zipWith diEntry (_wilder_smooth tr p)
        (_wilder_smooth mdm p)))[j]? = some none := by
  have hlen' := hlen
  rw [List.length_zipWith] at hlen'
  have h1 : j < (List.zipWith diEntry (_wilder_smooth tr p)
      (_wilder_smooth pdm p)).length :=
    lt_of_lt_of_le hlen' (min_le_left _ _)
  have h2 : j < (List.zipWith diEntry (_wilder_smooth tr p)
      (_wilder_smooth mdm p)).length :=
    lt_of_lt_of_le hlen' (min_le_right _ _)
  rw [List.getElem?_zipWith, di_zip_prefix p j tr pdm hj hp h1,
    List.getElem?_eq_getElem h2]
  rfl

end Indicators

namespace Indicators

open Pipeline

theorem adx_none_prefix (p : ℕ) (H L C : List ℚ) (hp : 0 < p)
    (h2 : 2 ≤ C.length) (hHL : H.length = L.length)
    (hHC : H.length = C.length) (r : ADXResult)
    (hr : ADXIndicator.calculate p H L C = .ok r) :
    (∀ i, i < p → r.plus_di_series.getD i none = none) ∧
      (∀ i, i < p → r.minus_di_series.getD i none = none) ∧
      (∀ i, i < 2 * p - 1 → r.adx_series.getD i none = none) := by
  unfold ADXIndicator.calculate at hr
  rw [if_neg (by push_neg; exact ⟨hHL, hHC⟩), if_neg (by omega)] at hr
  dsimp only at hr
  injection hr with hr
  subst hr
  refine ⟨?_, ?_, ?_⟩
  · intro i hi
    dsimp only
    rcases lt_or_le i C.length with hc | hc
    · rw [fitLen_getD _ _ _ hc]
      cases i with
      | zero => rfl
      | succ j =>
        show (List.zipWith diEntry _ _).getD j none = none
        rcases lt_or_le j (List.zipWith diEntry
            (_wilder_smooth (((List.range (C.length - 1)).map
              fun k => k + 1).map (adxTrAt H L C)) p)
            (_wilder_smooth (((List.range (C.length - 1)).map
              fun k => k + 1).map fun i =>
                (dmPair (H.getD i 0) (L.getD i 0) (H.getD (i - 1) 0)
                  (L.getD (i - 1) 0)).1) p)).length with hcl | hcl
        · rw [List.getD_eq_getElem?_getD,
            di_zip_prefix p j _ _ (by omega) hp hcl]
          rfl
        · rw [List.getD_eq_getElem?_getD,
            List.getElem?_eq_none (by simpa using hcl)]
          rfl
    · rw [List.getD_eq_getElem?_getD,
        List.getElem?_eq_none (by rw [fitLen_length]; omega)]
      rfl
  · intro i hi
    dsimp only
    rcases lt_or_le i C.length with hc | hc
    · rw [fitLen_getD _ _ _ hc]
      cases i with
      | zero => rfl
      | succ j =>
        show (List.zipWith diEntry _ _).getD j none = none
        rcases lt_or_le j (List.zipWith diEntry
            (_wilder_smooth (((List.range (C.length - 1)).map
              fun k => k + 1).map (adxTrAt H L C)) p)
            (_wilder_smooth (((List.range (C.length - 1)).map
              fun k => k + 1).map fun i =>
                (dmPair (H.getD i 0) (L.getD i 0) (H.getD (i - 1) 0)
                  (L.getD (i - 1) 0)).2) p)).length with hcl | hcl
        · rw [List.getD_eq_getElem?_getD,
            di_zip_prefix p j _ _ (by omega) hp hcl]
          rfl
        · rw [List.getD_eq_getElem?_getD,
            List.getElem?_eq_none (by simpa using hcl)]
          rfl
    · rw [List.getD_eq_getElem?_getD,
        List.getElem?_eq_none (by rw [fitLen_length]; omega)]
      rfl
  · intro i hi
    dsimp only
    rcases lt_or_le i C.length with hc | hc
    · rw [fitLen_getD _ _ _ hc]
      cases i with
      | zero => rfl
      | succ j =>
        show (adxOfDx p _).getD j none = none
        exact adxOfDx_prefix p _
          (fun j' hj' hl' => dx_zip_prefix p j' _ _ _ hj' hp hl') j
          (by omega)
    · rw [List.getD_eq_getElem?_getD,
        List.getElem?_eq_none (by rw [fitLen_length]; omega)]
      rfl

end Indicators

namespace Indicators

open Pipeline

theorem adx_prefix_map (p : ℕ) (H L C : List ℚ) (hp : 0 < p)
    (h2 : 2 ≤ C.length) (hHL : H.length = L.length)
    (hHC : H.length = C.length) :
    (∀ i, i < p → ((ADXIndicator.calculate p H L C).map fun r =>
      (r.plus_di_series.getD i none, r.minus_di_series.getD i none)) =
        .ok (none, none)) ∧
      ∀ i, i < 2 * p - 1 → ((ADXIndicator.calculate p H L C).map fun r =>
        r.adx_series.getD i none) = .ok none := by
  cases hcalc : ADXIndicator.calculate p H L C with
  | error e =>
    unfold ADXIndicator.calculate at hcalc
    rw [if_neg (by push_neg; exact ⟨hHL, hHC⟩), if_neg (by omega)] at hcalc
    dsimp only at hcalc
    exact Except.noConfusion hcalc
  | ok r =>
    obtain ⟨h1, h2', h3⟩ := adx_none_prefix p H L C hp h2 hHL hHC r hcalc
    refine ⟨fun i hi => ?_, fun i hi => ?_⟩
    · dsimp only [Except.map]
      rw [h1 i hi, h2' i hi]
    · dsimp only [Except.map]
      rw [h3 i hi]

end Indicators

namespace Indicators

open Pipeline

/-- C4: counterexample. On a 2-bar input with `period = 1` the ATR series
has length 1, not the input length 2, so it is not index-aligned with the
input; and on a 2-bar input with `period = 2` the EMA series holds the
cumulative mean `1` at index 0 — a real number, not a `None` — so the
series is not `n-1` `None`s followed by the seed. -/
theorem C4_series_alignment_counterexample :
    ((ATRIndicator.calculate 1 [2, 3] [1, 2] [2, 3]).map fun r =>
        r.atr_series.length) = .ok 1 ∧
      ([2, 3] : List ℚ).length = 2 ∧
      (EMAIndicator.calculate 2 [1, 3]).ema_series = [1, 2] := by
  refine ⟨rfl, rfl, ?_⟩
  show _ema [1, 3] 2 = [1, 2]
  unfold _ema
  rw [if_neg (by simp)]
  simp [cumMeanAt, meanOver, stateScan,
    show List.range 1 = [0] from rfl]
  norm_num

/-- C4: the spec's "every series has the input length with a warm-up
`None`-prefix" holds only for the ADX and volume-MA kernels (full length,
`None` prefixes). The actual shapes: EMA is full-length but fills its
warm-up with cumulative means (no `None`s) and holds the seeded SMA at
index `period-1`; RSI returns `n-p` values, ATR `n-p`, Bollinger, KDJ
and CCI `n-p+1`, MACD `n-s+1-g+1`, all compacted with no padding; VWAP
is full-length with no warm-up at all. -/
theorem C4_series_alignment (p f s g : ℕ) (sq : ℚ → ℚ) (m : ℚ)
    (H L C V : List ℚ) (hp : 0 < p) (hf : 0 < f) (hfs : f ≤ s)
    (hg : 0 < g) (hHL : H.length = L.length) (hHC : H.length = C.length)
    (hHV : H.length = V.length) :
    (p ≤ C.length →
      (EMAIndicator.calculate p C).ema_series.length = C.length ∧
        (∀ i, i < p - 1 →
          (EMAIndicator.calculate p C).ema_series.getD i 0 =
            cumMeanAt C i) ∧
        (EMAIndicator.calculate p C).ema_series.getD (p - 1) 0 =
          meanOver (C.take p) p) ∧
      (p + 1 ≤ C.length →
        ((RSIIndicator.calculate p C).map fun r => r.rsi.length) =
          .ok (C.length - p)) ∧
      (s ≤ C.length → g ≤ C.length - s + 1 → (∀ x ∈ C, 0 < x) →
        ((MACDIndicator.calculate f s g C).map fun r =>
          r.macd_line.length) = .ok (C.length - s + 1 - g + 1)) ∧
      (p ≤ C.length → (∀ x ∈ C, 0 ≤ x) →
        ((BollingerBandsIndicator.calculate p m sq C).map fun r =>
          r.percent_b.length) = .ok (C.length - (p - 1))) ∧
      (p ≤ C.length →
        ((KDJIndicator.calculate p g H L C).map fun r =>
          r.k_series.length) = .ok (C.length - (p - 1))) ∧
      (p + 1 ≤ C.length →
        ((ATRIndicator.calculate p H L C).map fun r =>
          r.atr_series.length) = .ok (C.length - p)) ∧
      (2 ≤ C.length →
        ((ADXIndicator.calculate p H L C).map fun r =>
          (r.adx_series.length, r.plus_di_series.length,
            r.minus_di_series.length, r.dx_series.length)) =
          .ok (C.length, C.length, C.length, C.length)) ∧
      (2 ≤ C.length → ∀ i, i < p →
        ((ADXIndicator.calculate p H L C).map fun r =>
          (r.plus_di_series.getD i none, r.minus_di_series.getD i none)) =
          .ok (none, none)) ∧
      (2 ≤ C.length → ∀ i, i < 2 * p - 1 →
        ((ADXIndicator.calculate p H L C).map fun r =>
          r.adx_series.getD i none) = .ok none) ∧
      (p ≤ C.length →
        ((CCIIndicator.calculate p H L C).map fun r => r.cci.length) =
          .ok (C.length - (p - 1))) ∧
      ((VWAPIndicator.calculate H L C V).map fun r =>
        r.vwap_series.length) = .ok C.length ∧
      (VolumeIndicator.calculate p V).volume_ma_series.length = V.length ∧
      ∀ i, i < p - 1 →
        (VolumeIndicator.calculate p V).volume_ma_series.getD i none =
          none :=
  ⟨fun h => ema_series_shape p C hp h,
   fun h => rsi_series_len p C hp h,
   fun hs hgm hpos => macd_series_len f s g C hf hfs hg hs hgm hpos,
   fun h hnn => boll_series_len p m sq C hp h hnn,
   fun h => kdj_series_len p g H L C hp h hHL hHC,
   fun h => atr_series_len p H L C hp h hHL hHC,
   fun h2 => adx_series_len p H L C hp h2 hHL hHC,
   fun h2 => (adx_prefix_map p H L C hp h2 hHL hHC).1,
   fun h2 => (adx_prefix_map p H L C hp h2 hHL hHC).2,
   fun h => cci_series_len p H L C hp h hHL hHC,
   vwap_series_len H L C V hHL hHC hHV,
   (volume_ma_shape p V hp).1,
   (volume_ma_shape p V hp).2⟩

end Indicators

namespace Indicators

open Pipeline

/-- Witness for C4 at `period 2`, MACD `(2,3,2)`, on the 5-bar input
`H = [2..6]`, `L = C = [1..5]`, `V = [1,1,1,1,1]`. -/
theorem C4_series_alignment_witness :
    (EMAIndicator.calculate 2 [1, 2, 3, 4, 5]).ema_series.length = 5 ∧
      (EMAIndicator.calculate 2 [1, 2, 3, 4, 5]).ema_series.getD 0 0 =
        cumMeanAt [1, 2, 3, 4, 5] 0 ∧
      (EMAIndicator.calculate 2 [1, 2, 3, 4, 5]).ema_series.getD 1 0 =
        meanOver (([1, 2, 3, 4, 5] : List ℚ).take 2) 2 ∧
      ((RSIIndicator.calculate 2 [1, 2, 3, 4, 5]).map fun r =>
        r.rsi.length) = .ok 3 ∧
      ((MACDIndicator.calculate 2 3 2 [1, 2, 3, 4, 5]).map fun r =>
        r.macd_line.length) = .ok 2 ∧
      ((BollingerBandsIndicator.calculate 2 2 id [1, 2, 3, 4, 5]).map
        fun r => r.percent_b.length) = .ok 4 ∧
      ((KDJIndicator.calculate 2 2 [2, 3, 4, 5, 6] [1, 2, 3, 4, 5]
        [1, 2, 3, 4, 5]).map fun r => r.k_series.length) = .ok 4 ∧
      ((ATRIndicator.calculate 2 [2, 3, 4, 5, 6] [1, 2, 3, 4, 5]
        [1, 2, 3, 4, 5]).map fun r => r.atr_series.length) = .ok 3 ∧
      ((ADXIndicator.calculate 2 [2, 3, 4, 5, 6] [1, 2, 3, 4, 5]
        [1, 2, 3, 4, 5]).map fun r =>
          (r.adx_series.length, r.plus_di_series.length,
            r.minus_di_series.length, r.dx_series.length)) =
        .ok (5, 5, 5, 5) ∧
      ((ADXIndicator.calculate 2 [2, 3, 4, 5, 6] [1, 2, 3, 4, 5]
        [1, 2, 3, 4, 5]).map fun r =>
          (r.plus_di_series.getD 0 none, r.minus_di_series.getD 0 none)) =
        .ok (none, none) ∧
      ((ADXIndicator.calculate 2 [2, 3, 4, 5, 6] [1, 2, 3, 4, 5]
        [1, 2, 3, 4, 5]).map fun r =>
          (r.plus_di_series.getD 1 none, r.minus_di_series.getD 1 none)) =
        .ok (none, none) ∧
      ((ADXIndicator.calculate 2 [2, 3, 4, 5, 6] [1, 2, 3, 4, 5]
        [1, 2, 3, 4, 5]).map fun r => r.adx_series.getD 0 none) =
        .ok none ∧
      ((ADXIndicator.calculate 2 [2, 3, 4, 5, 6] [1, 2, 3, 4, 5]
        [1, 2, 3, 4, 5]).map fun r => r.adx_series.getD 1 none) =
        .ok none ∧
      ((ADXIndicator.calculate 2 [2, 3, 4, 5, 6] [1, 2, 3, 4, 5]
        [1, 2, 3, 4, 5]).map fun r => r.adx_series.getD 2 none) =
        .ok none ∧
      ((CCIIndicator.calculate 2 [2, 3, 4, 5, 6] [1, 2, 3, 4, 5]
        [1, 2, 3, 4, 5]).map fun r => r.cci.length) = .ok 4 ∧
      ((VWAPIndicator.calculate [2, 3, 4, 5, 6] [1, 2, 3, 4, 5]
        [1, 2, 3, 4, 5] [1, 1, 1, 1, 1]).map fun r =>
          r.vwap_series.length) = .ok 5 ∧
      (VolumeIndicator.calculate 2 [1, 1, 1, 1, 1]).volume_ma_series.length
        = 5 ∧
      (VolumeIndicator.calculate 2
        [1, 1, 1, 1, 1]).volume_ma_series.getD 0 none = none := by
  have h := C4_series_alignment 2 2 3 2 id 2 [2, 3, 4, 5, 6]
    [1, 2, 3, 4, 5] [1, 2, 3, 4, 5] [1, 1, 1, 1, 1] (by decide) (by decide)
    (by decide) (by decide) rfl rfl rfl
  exact ⟨(h.1 (by decide)).1, (h.1 (by decide)).2.1 0 (by decide),
    (h.1 (by decide)).2.2, h.2.1 (by decide),
    h.2.2.1 (by decide) (by decide) (by decide),
    h.2.2.2.1 (by decide) (by decide), h.2.2.2.2.1 (by decide),
    h.2.2.2.2.2.1 (by decide), h.2.2.2.2.2.2.1 (by decide),
    h.2.2.2.2.2.2.2.1 (by decide) 0 (by decide),
    h.2.2.2.2.2.2.2.1 (by decide) 1 (by decide),
    h.2.2.2.2.2.2.2.2.1 (by decide) 0 (by decide),
    h.2.2.2.2.2.2.2.2.1 (by decide) 1 (by decide),
    h.2.2.2.2.2.2.2.2.1 (by decide) 2 (by decide),
    h.2.2.2.2.2.2.2.2.2.1 (by decide), h.2.2.2.2.2.2.2.2.2.2.1,
    h.2.2.2.2.2.2.2.2.2.2.2.1, h.2.2.2.2.2.2.2.2.2.2.2.2 0 (by decide)⟩

end Indicators

namespace Pipeline

theorem zipWith_take_right_of_le {α β γ : Type} (f : α → β → γ)
    (a : List α) (b : List β) (k : ℕ) (h : a.length ≤ k) :
    List.zipWith f a (b.take k) = List.zipWith f a b := by
  apply List.ext_getElem?
  intro j
  rw [List.getElem?_zipWith, List.getElem?_zipWith, List.getElem?_take]
  by_cases hj : j < k
  · rw [if_pos hj]
  · rw [if_neg hj, List.getElem?_eq_none (by omega)]

end Pipeline

namespace Indicators

open Pipeline

theorem _ema_take (p k : ℕ) (C : List ℚ) (hp : 0 < p) (hpk : p ≤ k)
    (hk : k ≤ C.length) :
    _ema (C.take k) p = (_ema C p).take k := by
  unfold _ema
  rw [if_neg (by push_neg; rw [List.length_take]; constructor <;> omega),
    if_neg (by push_neg; constructor <;> omega)]
  dsimp only
  have hA : (List.map (fun i => cumMeanAt C i)
      (List.range (p - 1))).length = p - 1 := by
    simp
  conv_rhs => rw [List.take_append_eq_append_take,
    List.take_of_length_le (by simp; omega), hA,
    show k - (p - 1) = (k - p) + 1 from by omega, List.take_succ_cons]
  congr 1
  · apply List.map_congr_left
    intro a ha
    rw [List.mem_range] at ha
    unfold cumMeanAt
    rw [List.take_take, show min (a + 1) k = a + 1 by omega]
  · rw [List.take_take, show min p k = p by omega, List.drop_take,
      stateScan_take]

theorem ema_incremental (p i : ℕ) (C : List ℚ) (hp : 0 < p)
    (hpi : p ≤ i + 1) (hi : i < C.length) :
    (EMAIndicator.calculate p (C.take (i + 1))).ema =
      (EMAIndicator.calculate p C).ema_series[i]? := by
  unfold EMAIndicator.calculate
  rw [if_neg (by simp; omega), if_neg (by omega)]
  dsimp only
  rw [_ema_take p (i + 1) C hp hpi (by omega), getLast?_take_succ]
  rw [_ema_length p C hp (by omega)]
  exact hi

end Indicators

namespace Indicators

open Pipeline

theorem priceDiffs_take (C : List ℚ) (i : ℕ) :
    priceDiffs (C.take (i + 1)) = (priceDiffs C).take i := by
  unfold priceDiffs
  rw [List.drop_take, show i + 1 - 1 = i from rfl,
    zipWith_take_right_of_le _ _ _ (i + 1)
      (le_trans (by rw [List.length_take]; omega) (Nat.le_succ i)),
    List.take_zipWith,
    zipWith_take_right_of_le _ _ _ i (by rw [List.length_take]; omega)]

theorem gainsOf_take (C : List ℚ) (i : ℕ) :
    gainsOf (C.take (i + 1)) = (gainsOf C).take i := by
  unfold gainsOf
  rw [priceDiffs_take, List.map_take]

theorem lossesOf_take (C : List ℚ) (i : ℕ) :
    lossesOf (C.take (i + 1)) = (lossesOf C).take i := by
  unfold lossesOf
  rw [priceDiffs_take, List.map_take]

theorem rsiAvgSeq_take (p k : ℕ) (xs : List ℚ) (hpk : p ≤ k) :
    rsiAvgSeq p (xs.take k) = (rsiAvgSeq p xs).take (k - p + 1) := by
  unfold rsiAvgSeq
  dsimp only
  rw [List.take_succ_cons, List.take_take, show min p k = p by omega,
    List.drop_take, stateScan_take]

theorem rsi_incremental (p i : ℕ) (C : List ℚ) (hp : 0 < p)
    (hpi : p ≤ i) (hi : i < C.length) :
    ((RSIIndicator.calculate p (C.take (i + 1))).map fun r =>
      r.rsi.getLast?) =
      (RSIIndicator.calculate p C).map fun r => r.rsi[i - p]? := by
  unfold RSIIndicator.calculate
  rw [if_neg (by rw [List.length_take]; omega),
    if_neg (by rw [gainsOf_take, List.length_take, gainsOf_length]; omega),
    if_neg (by omega), if_neg (by rw [gainsOf_length]; omega)]
  dsimp only [Except.map]
  congr 1
  rw [gainsOf_take, lossesOf_take, rsiAvgSeq_take p i _ hpi,
    rsiAvgSeq_take p i _ hpi, ← List.take_zipWith]
  rw [show i - p + 1 = (i - p) + 1 from rfl, getLast?_take_succ]
  rw [List.length_zipWith, rsiAvgSeq_length, rsiAvgSeq_length,
    gainsOf_length, lossesOf_length]
  simp
  omega

end Indicators

namespace Indicators

open Pipeline

theorem bollWindow_stable (p : ℕ) (m : ℚ) (sq : ℚ → ℚ) (C : List ℚ)
    (k j : ℕ) (hp : 0 < p) (hjk : j + p ≤ k) :
    bollWindow p m sq (C.take k) j = bollWindow p m sq C j := by
  unfold bollWindow
  rw [List.drop_take, List.take_take, show min p (k - j) = p by omega,
    List.getD_eq_getElem?_getD, List.getElem?_take, if_pos (by omega),
    ← List.getD_eq_getElem?_getD]

theorem boll_incremental (p i : ℕ) (m : ℚ) (sq : ℚ → ℚ) (C : List ℚ)
    (hp : 0 < p) (hpi : p ≤ i + 1) (hi : i < C.length)
    (hnn : ∀ x ∈ C, 0 ≤ x) :
    ((BollingerBandsIndicator.calculate p m sq (C.take (i + 1))).map
      fun r => r.percent_b.getLast?) =
      (BollingerBandsIndicator.calculate p m sq C).map fun r =>
        r.percent_b[i - (p - 1)]? := by
  unfold BollingerBandsIndicator.calculate
  rw [if_neg (by rw [List.length_take]; omega),
    if_neg (by rw [List.length_take]; omega),
    if_neg (by
      simp only [List.any_eq_true, decide_eq_true_eq]
      push_neg
      intro x hx
      exact hnn x (List.take_subset _ _ hx)),
    if_neg (by omega), if_neg (by omega),
    if_neg (by
      simp only [List.any_eq_true, decide_eq_true_eq]
      push_neg
      exact hnn)]
  dsimp only [Except.map]
  congr 1
  rw [List.map_map, List.map_map, List.length_take,
    show min (i + 1) C.length = i + 1 by omega,
    getLast?_map_range _ _ (by omega),
    map_range_getElem? _ _ _ (by omega)]
  simp only [Function.comp_apply]
  rw [show i + 1 - (p - 1) - 1 = i - (p - 1) by omega,
    bollWindow_stable p m sq C (i + 1) (i - (p - 1)) hp (by omega)]

end Indicators

namespace Indicators

open Pipeline

theorem rsvAt_stable (p k j : ℕ) (H L C : List ℚ) (hp : 0 < p)
    (hjk : j + p ≤ k) :
    rsvAt p (H.take k) (L.take k) (C.take k) j = rsvAt p H L C j := by
  have hgd : (C.take k).getD (j + p - 1) 0 = C.getD (j + p - 1) 0 := by
    rw [List.getD_eq_getElem?_getD, List.getD_eq_getElem?_getD,
      List.getElem?_take, if_pos (by omega)]
  unfold rsvAt
  rw [List.drop_take, List.take_take, show min p (k - j) = p by omega,
    List.drop_take, List.take_take, show min p (k - j) = p by omega, hgd]

theorem kdj_incremental (p sg i : ℕ) (H L C : List ℚ) (hp : 0 < p)
    (hpi : p ≤ i + 1) (hi : i < C.length) (hHL : H.length = L.length)
    (hHC : H.length = C.length) :
    ((KDJIndicator.calculate p sg (H.take (i + 1)) (L.take (i + 1))
      (C.take (i + 1))).map fun r => (r.k, r.d, r.j)) =
      (KDJIndicator.calculate p sg H L C).map fun r =>
        (r.k_series[i - (p - 1)]?, r.d_series[i - (p - 1)]?,
          r.j_series[i - (p - 1)]?) := by
  unfold KDJIndicator.calculate
  rw [if_neg (by push_neg; rw [List.length_take, List.length_take,
      List.length_take]; omega),
    if_neg (by rw [List.length_take]; omega),
    if_neg (by push_neg; exact ⟨hHL, hHC⟩), if_neg (by omega)]
  dsimp only [Except.map]
  congr 1
  have hrsv : (List.range ((C.take (i + 1)).length - (p - 1))).map
      (rsvAt p (H.take (i + 1)) (L.take (i + 1)) (C.take (i + 1))) =
      ((List.range (C.length - (p - 1))).map (rsvAt p H L C)).take
        (i + 1 - (p - 1)) := by
    rw [← List.map_take, List.take_range,
      show min (i + 1 - (p - 1)) (C.length - (p - 1)) = i + 1 - (p - 1)
        by omega, List.length_take,
      show min (i + 1) C.length = i + 1 by omega]
    exact List.map_congr_left fun a ha => by
      rw [List.mem_range] at ha
      exact rsvAt_stable p (i + 1) a H L C hp (by omega)
  rw [hrsv]
  unfold _bcwsma
  rw [stateScan_take, stateScan_take, ← List.take_zipWith,
    show i + 1 - (p - 1) = (i - (p - 1)) + 1 by omega,
    getLast?_take_succ, getLast?_take_succ, getLast?_take_succ]
  all_goals
    simp only [List.length_zipWith, stateScan_length, List.length_map,
      List.length_range]
    omega

end Indicators

namespace Indicators

open Pipeline

theorem trSeq_take (H L C : List ℚ) (k : ℕ) (hk : k ≤ C.length) :
    trSeq (H.take k) (L.take k) (C.take k) = (trSeq H L C).take k := by
  unfold trSeq
  rw [← List.map_take, List.take_range, show min k C.length = k by omega,
    List.length_take, show min k C.length = k by omega]
  apply List.map_congr_left
  intro a ha
  rw [List.mem_range] at ha
  have h1 : ∀ (X : List ℚ) (j : ℕ), j < k →
      (X.take k).getD j 0 = X.getD j 0 := by
    intro X j hj
    rw [List.getD_eq_getElem?_getD, List.getD_eq_getElem?_getD,
      List.getElem?_take, if_pos hj]
  by_cases ha0 : a = 0
  · subst ha0
    rw [if_pos rfl, if_pos rfl, h1 H 0 (by omega), h1 L 0 (by omega)]
  · rw [if_neg ha0, if_neg ha0, h1 H a ha, h1 L a ha,
      h1 C (a - 1) (by omega)]

theorem atr_incremental (p i : ℕ) (H L C : List ℚ) (hp : 0 < p)
    (hpi : p + 1 ≤ i + 1) (hi : i < C.length) (hHL : H.length = L.length)
    (hHC : H.length = C.length) :
    ((ATRIndicator.calculate p (H.take (i + 1)) (L.take (i + 1))
      (C.take (i + 1))).map fun r => r.atr) =
      (ATRIndicator.calculate p H L C).map fun r =>
        r.atr_series[i - p]? := by
  unfold ATRIndicator.calculate
  rw [if_neg (by push_neg; rw [List.length_take, List.length_take,
      List.length_take]; omega),
    if_neg (by rw [List.length_take]; omega),
    if_neg (by push_neg; exact ⟨hHL, hHC⟩), if_neg (by omega)]
  dsimp only [Except.map]
  congr 1
  rw [trSeq_take H L C (i + 1) (by omega),
    List.drop_take, show i + 1 - 1 = i from rfl, List.take_take,
    show min p i = p by omega,
    List.drop_take, stateScan_take,
    show i + 1 - (p + 1) = i - p from by omega,
    ← List.take_succ_cons, getLast?_take_succ]
  simp only [List.length_cons, stateScan_length, List.length_drop,
    List.length_map, List.length_range]
  unfold trSeq
  simp only [List.length_map, List.length_range]
  omega

end Indicators

namespace Indicators

open Pipeline

theorem typicalPrices_take (H L C : List ℚ) (k : ℕ) :
    typicalPrices (H.take k) (L.take k) (C.take k) =
      (typicalPrices H L C).take k := by
  unfold typicalPrices
  rw [List.zip_eq_zipWith, List.zip_eq_zipWith, List.zip_eq_zipWith,
    List.zip_eq_zipWith, ← List.take_zipWith, ← List.take_zipWith,
    List.map_take]

theorem vwap_incremental (i : ℕ) (H L C V : List ℚ)
    (hi : i < C.length) (hHL : H.length = L.length)
    (hHC : H.length = C.length) (hHV : H.length = V.length) :
    ((VWAPIndicator.calculate (H.take (i + 1)) (L.take (i + 1))
      (C.take (i + 1)) (V.take (i + 1))).map fun r => r.vwap) =
      (VWAPIndicator.calculate H L C V).map fun r =>
        r.vwap_series[i]? := by
  unfold VWAPIndicator.calculate
  rw [if_neg (by push_neg; rw [List.length_take, List.length_take,
      List.length_take, List.length_take]; omega),
    if_neg (by rw [List.length_take]; omega),
    if_neg (by push_neg; exact ⟨hHL, hHC, hHV⟩),
    if_neg (by omega)]
  dsimp only [Except.map]
  congr 1
  rw [typicalPrices_take, List.zip_eq_zipWith, List.zip_eq_zipWith,
    ← List.take_zipWith, stateScan_take, getLast?_take_succ]
  simp only [stateScan_length, List.length_zipWith]
  unfold typicalPrices
  simp only [List.length_map, List.length_zip]
  omega

theorem volume_calc_ma (p : ℕ) (V : List ℚ) (h0 : ¬V.length = 0) :
    (VolumeIndicator.calculate p V).volume_ma =
      ((VolumeIndicator._calculate_sma V p).getLast?).join := by
  unfold VolumeIndicator.calculate
  rw [if_neg h0]

theorem volume_calc_ma_series (p : ℕ) (V : List ℚ) (h0 : ¬V.length = 0) :
    (VolumeIndicator.calculate p V).volume_ma_series =
      VolumeIndicator._calculate_sma V p := by
  unfold VolumeIndicator.calculate
  rw [if_neg h0]

theorem _calculate_sma_last (p i : ℕ) (V : List ℚ) (hp : 0 < p)
    (hpi : p ≤ i + 1) (hi : i < V.length) :
    (VolumeIndicator._calculate_sma (V.take (i + 1)) p).getLast? =
      some (some (meanOver ((V.drop (i + 1 - p)).take p) p)) := by
  unfold VolumeIndicator._calculate_sma
  rw [if_neg (by rw [List.length_take]; omega), List.length_take,
    show min (i + 1) V.length = i + 1 by omega,
    getLast?_map_range _ _ (by omega),
    show i + 1 - 1 = i from rfl,
    if_neg (show ¬i < p - 1 by omega),
    List.drop_take, show i + 1 - (i + 1 - p) = p by omega,
    List.take_take, show min p p = p from by simp]

theorem _calculate_sma_getElem (p i : ℕ) (V : List ℚ) (hp : 0 < p)
    (hpi : p ≤ i + 1) (hi : i < V.length) :
    (VolumeIndicator._calculate_sma V p)[i]? =
      some (some (meanOver ((V.drop (i + 1 - p)).take p) p)) := by
  unfold VolumeIndicator._calculate_sma
  rw [if_neg (by omega), map_range_getElem? _ _ _ hi,
    if_neg (show ¬i < p - 1 by omega)]

theorem volume_incremental (p i : ℕ) (V : List ℚ) (hp : 0 < p)
    (hpi : p ≤ i + 1) (hi : i < V.length) :
    (VolumeIndicator.calculate p (V.take (i + 1))).volume_ma =
      (VolumeIndicator.calculate p V).volume_ma_series.getD i none := by
  rw [volume_calc_ma p _ (by rw [List.length_take]; omega),
    volume_calc_ma_series p V (by omega),
    _calculate_sma_last p i V hp hpi hi, List.getD_eq_getElem?_getD,
    _calculate_sma_getElem p i V hp hpi hi]
  rfl

end Indicators

namespace Indicators

open Pipeline

theorem calcEma_take (p k : ℕ) (a : ℚ) (C : List ℚ) (hp : 0 < p)
    (hpk : p ≤ k) (hk : k ≤ C.length) :
    MACDIndicator.calcEma (C.take k) p a =
      (MACDIndicator.calcEma C p a).take (k - p + 1) := by
  unfold MACDIndicator.calcEma
  rw [if_neg (by push_neg; rw [List.length_take]; constructor <;> omega),
    if_neg (by push_neg; constructor <;> omega)]
  dsimp only
  rw [List.take_succ_cons, List.take_take, show min p k = p by omega,
    List.drop_take, stateScan_take]

theorem macd_incremental (f s g i : ℕ) (C : List ℚ) (hf : 0 < f)
    (hfs : f ≤ s) (hg : 0 < g) (hsi : s ≤ i + 1)
    (hgi : g ≤ i + 2 - s) (hi : i < C.length)
    (hpos : ∀ x ∈ C, 0 < x) :
    ((MACDIndicator.calculate f s g (C.take (i + 1))).map fun r =>
      r.macd_line.getLast?) =
      (MACDIndicator.calculate f s g C).map fun r =>
        r.macd_line[i + 2 - s - g]? := by
  unfold MACDIndicator.calculate
  rw [if_neg (by
      simp only [List.any_eq_true, decide_eq_true_eq]
      push_neg
      intro x hx
      exact hpos x (List.take_subset _ _ hx)),
    if_neg (by rw [List.length_take]; omega),
    if_neg (by
      simp only [List.any_eq_true, decide_eq_true_eq]
      push_neg
      exact hpos),
    if_neg (by omega)]
  dsimp only [Except.map]
  congr 1
  have hF : (MACDIndicator.calcEma C f (2 / ((f : ℚ) + 1))).length =
      C.length - f + 1 := calcEma_length C f _ hf (by omega)
  have hS : (MACDIndicator.calcEma C s (2 / ((s : ℚ) + 1))).length =
      C.length - s + 1 := calcEma_length C s _ (by omega) (by omega)
  rw [calcEma_take f (i + 1) _ C hf (by omega) (by omega),
    calcEma_take s (i + 1) _ C (by omega) (by omega) (by omega)]
  have e1 : ((MACDIndicator.calcEma C f (2 / ((f : ℚ) + 1))).take
        (i + 1 - f + 1)).length -
      ((MACDIndicator.calcEma C s (2 / ((s : ℚ) + 1))).take
        (i + 1 - s + 1)).length = s - f := by
    rw [List.length_take, List.length_take, hF, hS]
    omega
  rw [e1]
  have e0 : (MACDIndicator.calcEma C f (2 / ((f : ℚ) + 1))).length -
      (MACDIndicator.calcEma C s (2 / ((s : ℚ) + 1))).length = s - f := by
    rw [hF, hS]
    omega
  rw [e0]
  have e2 : ((MACDIndicator.calcEma C f (2 / ((f : ℚ) + 1))).take
        (i + 1 - f + 1)).drop (s - f) =
      ((MACDIndicator.calcEma C f (2 / ((f : ℚ) + 1))).drop (s - f)).take
        (i + 1 - s + 1) := by
    rw [List.drop_take]
    congr 1
    omega
  rw [e2, ← List.take_zipWith]
  have hm0 : (List.zipWith (fun a b => a - b)
      ((MACDIndicator.calcEma C f (2 / ((f : ℚ) + 1))).drop (s - f))
      (MACDIndicator.calcEma C s (2 / ((s : ℚ) + 1)))).length =
      C.length - s + 1 := by
    rw [List.length_zipWith, List.length_drop, hF, hS]
    omega
  rw [calcEma_take g (i + 1 - s + 1) _ _ hg (by omega)
    (by rw [hm0]; omega)]
  have hSig : (MACDIndicator.calcEma (List.zipWith (fun a b => a - b)
      ((MACDIndicator.calcEma C f (2 / ((f : ℚ) + 1))).drop (s - f))
      (MACDIndicator.calcEma C s (2 / ((s : ℚ) + 1)))) g
      (2 / ((g : ℚ) + 1))).length = C.length - s + 1 - g + 1 := by
    rw [calcEma_length _ _ _ hg (by rw [hm0]; omega), hm0]
  have e3 : ((List.zipWith (fun a b => a - b)
        ((MACDIndicator.calcEma C f (2 / ((f : ℚ) + 1))).drop (s - f))
        (MACDIndicator.calcEma C s (2 / ((s : ℚ) + 1)))).take
        (i + 1 - s + 1)).length -
      ((MACDIndicator.calcEma (List.zipWith (fun a b => a - b)
        ((MACDIndicator.calcEma C f (2 / ((f : ℚ) + 1))).drop (s - f))
        (MACDIndicator.calcEma C s (2 / ((s : ℚ) + 1)))) g
        (2 / ((g : ℚ) + 1))).take (i + 1 - s + 1 - g + 1)).length =
      g - 1 := by
    rw [List.length_take, List.length_take, hm0, hSig]
    omega
  rw [e3]
  have e4 : ((List.zipWith (fun a b => a - b)
        ((MACDIndicator.calcEma C f (2 / ((f : ℚ) + 1))).drop (s - f))
        (MACDIndicator.calcEma C s (2 / ((s : ℚ) + 1)))).take
        (i + 1 - s + 1)).drop (g - 1) =
      ((List.zipWith (fun a b => a - b)
        ((MACDIndicator.calcEma C f (2 / ((f : ℚ) + 1))).drop (s - f))
        (MACDIndicator.calcEma C s (2 / ((s : ℚ) + 1)))).drop
        (g - 1)).take (i + 2 - s - g + 1) := by
    rw [List.drop_take]
    congr 1
    omega
  have e5 : (List.zipWith (fun a b => a - b)
      ((MACDIndicator.calcEma C f (2 / ((f : ℚ) + 1))).drop (s - f))
      (MACDIndicator.calcEma C s (2 / ((s : ℚ) + 1)))).length -
      (MACDIndicator.calcEma (List.zipWith (fun a b => a - b)
        ((MACDIndicator.calcEma C f (2 / ((f : ℚ) + 1))).drop (s - f))
        (MACDIndicator.calcEma C s (2 / ((s : ℚ) + 1)))) g
        (2 / ((g : ℚ) + 1))).length = g - 1 := by
    rw [hm0, hSig]
    omega
  rw [e4, e5, getLast?_take_succ]
  rw [List.length_drop, hm0]
  omega

end Indicators

namespace Indicators

open Pipeline

theorem cciAt_stable (p k j : ℕ) (tp : List ℚ) (hp : 0 < p)
    (hjk : j + p ≤ k) : cciAt p (tp.take k) j = cciAt p tp j := by
  have hgd : (tp.take k).getD (j + p - 1) 0 = tp.getD (j + p - 1) 0 := by
    rw [List.getD_eq_getElem?_getD, List.getD_eq_getElem?_getD,
      List.getElem?_take, if_pos (by omega)]
  unfold cciAt
  rw [List.drop_take, List.take_take, show min p (k - j) = p by omega, hgd]

theorem cci_incremental (p i : ℕ) (H L C : List ℚ) (hp : 0 < p)
    (hpi : p ≤ i + 1) (hi : i < C.length) (hHL : H.length = L.length)
    (hHC : H.length = C.length) :
    ((CCIIndicator.calculate p (H.take (i + 1)) (L.take (i + 1))
      (C.take (i + 1))).map fun r => r.cci.getLast?) =
      (CCIIndicator.calculate p H L C).map fun r =>
        r.cci[i - (p - 1)]? := by
  unfold CCIIndicator.calculate
  rw [if_neg (by push_neg; rw [List.length_take, List.length_take,
      List.length_take]; omega),
    if_neg (by rw [List.length_take]; omega),
    if_neg (by push_neg; exact ⟨hHL, hHC⟩), if_neg (by omega)]
  dsimp only [Except.map]
  congr 1
  rw [typicalPrices_take, List.map_map, List.map_map, List.length_take,
    show min (i + 1) C.length = i + 1 by omega,
    getLast?_map_range _ _ (by omega),
    map_range_getElem? _ _ _ (by omega)]
  simp only [Function.comp_apply]
  rw [show i + 1 - (p - 1) - 1 = i - (p - 1) by omega,
    cciAt_stable p (i + 1) (i - (p - 1)) _ hp (by omega)]

end Indicators

namespace Indicators

open Pipeline

theorem stateScan_wilder_pos (p : ℕ) (hp : 0 < p) (xs : List ℚ) :
    ∀ (s : ℚ), 0 < s → (∀ x ∈ xs, 0 < x) →
      ∀ y ∈ stateScan (wilderStep p) s xs, 0 < y := by
  induction xs with
  | nil =>
    intro s hs hxs y hy
    simp [stateScan] at hy
  | cons x t ih =>
    intro s hs hxs y hy
    rw [stateScan] at hy
    have hstep : 0 < (s * ((p : ℚ) - 1) + x) / (p : ℚ) := by
      apply div_pos
      · have hx : 0 < x := hxs x (by simp)
        have hp1 : (0 : ℚ) ≤ (p : ℚ) - 1 := by
          have : (1 : ℚ) ≤ (p : ℚ) := by exact_mod_cast hp
          linarith
        nlinarith
      · exact_mod_cast hp
    rcases List.mem_cons.mp hy with h | h
    · rw [h]
      exact hstep
    · exact ih _ hstep (fun z hz => hxs z (by simp [hz])) y h

theorem meanOver_pos (l : List ℚ) (p : ℕ) (hp : 0 < p)
    (hl : ∀ x ∈ l, 0 < x) (hne : l ≠ []) : 0 < meanOver l p := by
  unfold meanOver
  apply div_pos (List.sum_pos l hl hne)
  exact_mod_cast hp

theorem findIdx?_isSome_eq (l : List (Option ℚ)) (m : ℕ)
    (hm : m < l.length) (v : ℚ) (hv : l[m]? = some (some v))
    (hpre : ∀ j, j < m → l[j]? = some none) :
    l.findIdx? (fun o => o.isSome) = some m := by
  rw [List.findIdx?_eq_some_iff_findIdx_eq]
  refine ⟨hm, (List.findIdx_eq hm).mpr ⟨?_, ?_⟩⟩
  · rw [List.getElem?_eq_getElem hm] at hv
    rw [Option.some_inj.mp hv]
    rfl
  · intro j hj
    have h := hpre j hj
    rw [List.getElem?_eq_getElem (by omega)] at h
    rw [Option.some_inj.mp h]
    rfl

theorem filterMap_id_of_all_isSome (l : List (Option ℚ))
    (h : ∀ x ∈ l, x.isSome) :
    l.filterMap id = l.map fun o => o.getD 0 := by
  induction l with
  | nil => rfl
  | cons o t ih =>
    cases o with
    | none =>
      have := h none (by simp)
      simp at this
    | some v =>
      rw [List.filterMap_cons]
      dsimp only [id]
      rw [ih fun x hx => h x (by simp [hx])]
      rfl

theorem cons_take_get? {α : Type} (a : α) (l : List α) (m k : ℕ)
    (hk : k ≤ m) : (a :: l.take m).get? k = (a :: l).get? k := by
  cases k with
  | zero => rfl
  | succ k' =>
    rw [List.get?_eq_getElem?, List.get?_eq_getElem?]
    simp only [List.getElem?_cons_succ]
    rw [List.getElem?_take, if_pos (by omega)]

end Indicators

namespace Indicators

open Pipeline

theorem adxOfDx_take_last (p i : ℕ) (dx : List (Option ℚ)) (hp : 0 < p)
    (h2p : 2 * p - 1 ≤ i) (hi : i ≤ dx.length)
    (h1 : ∀ j, j < p - 1 → j < dx.length → dx[j]? = some none)
    (h2 : ∀ j, p - 1 ≤ j → j < dx.length → ∃ v, dx[j]? = some (some v)) :
    (adxOfDx p (dx.take i)).getLast? =
      some ((adxOfDx p dx).getD (i - 1) none) := by
  obtain ⟨v0, hv0⟩ := h2 (p - 1) le_rfl (by omega)
  have hfindB : dx.findIdx? (fun o => o.isSome) = some (p - 1) :=
    findIdx?_isSome_eq dx (p - 1) (by omega) v0 hv0 fun j hj =>
      h1 j hj (by omega)
  have htake_elem : ∀ j, j < i → (dx.take i)[j]? = dx[j]? := by
    intro j hj
    rw [List.getElem?_take, if_pos hj]
  have hfindP : (dx.take i).findIdx? (fun o => o.isSome) = some (p - 1) := by
    apply findIdx?_isSome_eq (dx.take i) (p - 1)
      (by rw [List.length_take]; omega) v0
    · rw [htake_elem (p - 1) (by omega)]
      exact hv0
    · intro j hj
      rw [htake_elem j (by omega)]
      exact h1 j hj (by omega)
  have hallsome : ∀ x ∈ dx.drop (p - 1), x.isSome := by
    intro x hx
    rw [List.mem_iff_getElem] at hx
    obtain ⟨k, hk, hxk⟩ := hx
    rw [List.getElem_drop] at hxk
    obtain ⟨v, hv⟩ := h2 (p - 1 + k) (by omega)
      (by rw [List.length_drop] at hk; omega)
    rw [List.getElem?_eq_getElem (by rw [List.length_drop] at hk; omega)]
      at hv
    rw [← hxk, Option.some_inj.mp hv]
    rfl
  have hvalidB : (dx.drop (p - 1)).filterMap id =
      (dx.drop (p - 1)).map fun o => o.getD 0 :=
    filterMap_id_of_all_isSome _ hallsome
  have hvalidP : ((dx.take i).drop (p - 1)).filterMap id =
      ((dx.drop (p - 1)).map fun o => o.getD 0).take (i - (p - 1)) := by
    rw [List.drop_take, filterMap_id_of_all_isSome _
      (fun x hx => hallsome x (List.take_subset _ _ hx)), List.map_take]
  unfold adxOfDx
  rw [hfindB, hfindP]
  dsimp only
  rw [hvalidB, hvalidP]
  rw [if_neg (by
      rw [List.length_take, List.length_map, List.length_drop]
      push_neg
      omega),
    if_neg (by
      rw [List.length_map, List.length_drop]
      push_neg
      omega)]
  rw [List.take_take, show min p (i - (p - 1)) = p by omega,
    List.drop_take, stateScan_take,
    List.length_take, show min i dx.length = i by omega,
    getLast?_map_range _ _ (by omega),
    List.getD_eq_getElem?_getD,
    map_range_getElem? _ _ _ (by omega)]
  dsimp only [Option.getD]
  congr 1
  rw [if_neg (by omega), if_neg (by omega),
    ← List.take_succ_cons, List.get?_eq_getElem?, List.get?_eq_getElem?]
  rw [List.getElem?_take, if_pos (by omega)]

end Indicators

namespace Indicators

open Pipeline

theorem getD_take_of_lt (X : List ℚ) (k m : ℕ) (hm : m < k) :
    (X.take k).getD m 0 = X.getD m 0 := by
  rw [List.getD_eq_getElem?_getD, List.getD_eq_getElem?_getD,
    List.getElem?_take, if_pos hm]

theorem adxTrAt_stable (H L C : List ℚ) (k j : ℕ) (hj : j < k) :
    adxTrAt (H.take k) (L.take k) (C.take k) j = adxTrAt H L C j := by
  unfold adxTrAt
  rw [getD_take_of_lt H k j hj, getD_take_of_lt L k j hj,
    getD_take_of_lt C k (j - 1) (by omega)]

theorem _wilder_smooth_take (v : List ℚ) (p k : ℕ) (hp : 0 < p)
    (hpk : p ≤ k) (hk : k ≤ v.length) :
    _wilder_smooth (v.take k) p = (_wilder_smooth v p).take k := by
  unfold _wilder_smooth
  rw [if_neg (by rw [List.length_take]; omega), if_neg (by omega)]
  dsimp only
  conv_rhs => rw [List.take_append_eq_append_take,
    List.take_of_length_le (by rw [List.length_replicate]; omega),
    List.length_replicate, ← List.map_take,
    show k - (p - 1) = (k - p) + 1 from by omega, List.take_succ_cons]
  rw [List.take_take, show min p k = p by omega, List.drop_take,
    stateScan_take]

theorem adxOfDx_length (p : ℕ) (dx : List (Option ℚ)) :
    (adxOfDx p dx).length = dx.length := by
  unfold adxOfDx
  cases dx.findIdx? fun o => o.isSome with
  | none => simp
  | some start =>
    dsimp only
    split
    · simp
    · simp

theorem dxEntry_some_some (a b : ℚ) :
    ∃ v, dxEntry (some a) (some b) = some v := by
  unfold dxEntry
  dsimp only
  split
  · exact ⟨_, rfl⟩
  · exact ⟨_, rfl⟩

theorem _wilder_smooth_some (v : List ℚ) (p j : ℕ) (hp : 0 < p)
    (hpl : p ≤ v.length) (hj1 : p - 1 ≤ j) (hj2 : j < v.length) :
    ∃ y, (_wilder_smooth v p)[j]? = some (some y) ∧
      y ∈ (meanOver (v.take p) p :: stateScan (wilderStep p)
        (meanOver (v.take p) p) (v.drop p)) := by
  unfold _wilder_smooth
  rw [if_neg (by omega)]
  dsimp only
  rw [List.getElem?_append,
    if_neg (by rw [List.length_replicate]; omega),
    List.length_replicate, List.getElem?_map]
  have hlt : j - (p - 1) < (meanOver (v.take p) p ::
      stateScan (wilderStep p) (meanOver (v.take p) p)
        (v.drop p)).length := by
    rw [List.length_cons, stateScan_length, List.length_drop]
    omega
  rw [List.getElem?_eq_getElem hlt]
  exact ⟨_, rfl, List.getElem_mem hlt⟩

end Indicators

namespace Indicators

open Pipeline

theorem _wilder_smooth_some_pos (v : List ℚ) (p j : ℕ) (hp : 0 < p)
    (hv : ∀ x ∈ v, 0 < x) (hpl : p ≤ v.length) (hj1 : p - 1 ≤ j)
    (hj2 : j < v.length) :
    ∃ t, (_wilder_smooth v p)[j]? = some (some t) ∧ 0 < t := by
  obtain ⟨y, hy, hmem⟩ := _wilder_smooth_some v p j hp hpl hj1 hj2
  refine ⟨y, hy, ?_⟩
  have hfirst : 0 < meanOver (v.take p) p := by
    apply meanOver_pos _ _ hp (fun x hx => hv x (List.take_subset _ _ hx))
    apply List.length_pos.mp
    rw [List.length_take]
    omega
  rcases List.mem_cons.mp hmem with h | h
  · rw [h]
    exact hfirst
  · exact stateScan_wilder_pos p hp (v.drop p) _ hfirst
      (fun x hx => hv x (List.drop_subset _ _ hx)) y h

theorem dx_zip_some (p j : ℕ) (tr pdm mdm : List ℚ) (hp : 0 < p)
    (htrpos : ∀ x ∈ tr, 0 < x) (hptr : p ≤ tr.length)
    (hppdm : p ≤ pdm.length) (hpmdm : p ≤ mdm.length) (hj1 : p - 1 ≤ j)
    (hjlen : j < (List.zipWith dxEntry
      (List.zipWith diEntry (_wilder_smooth tr p) (_wilder_smooth pdm p))
      (List.zipWith diEntry (_wilder_smooth tr p)
        (_wilder_smooth mdm p))).length) :
    ∃ v, (List.zipWith dxEntry
      (List.zipWith diEntry (_wilder_smooth tr p) (_wilder_smooth pdm p))
      (List.zipWith diEntry (_wilder_smooth tr p)
        (_wilder_smooth mdm p)))[j]? = some (some v) := by
  rw [List.length_zipWith, List.length_zipWith, List.length_zipWith,
    _wilder_smooth_length tr p hp, _wilder_smooth_length pdm p hp,
    _wilder_smooth_length mdm p hp] at hjlen
  have hjt : j < tr.length := by omega
  have hjp : j < pdm.length := by omega
  have hjm : j < mdm.length := by omega
  obtain ⟨t, hst, htpos⟩ :=
    _wilder_smooth_some_pos tr p j hp htrpos hptr hj1 hjt
  obtain ⟨yp, hyp, _⟩ := _wilder_smooth_some pdm p j hp hppdm hj1 hjp
  obtain ⟨ym, hym, _⟩ := _wilder_smooth_some mdm p j hp hpmdm hj1 hjm
  rw [List.getElem?_zipWith, List.getElem?_zipWith, List.getElem?_zipWith,
    hst, hyp, hym]
  dsimp only
  rw [show diEntry (some t) (some yp) =
      some (100 * (some yp).getD 0 / t) from by
    unfold diEntry
    dsimp only
    rw [if_pos htpos]]
  rw [show diEntry (some t) (some ym) =
      some (100 * (some ym).getD 0 / t) from by
    unfold diEntry
    dsimp only
    rw [if_pos htpos]]
  obtain ⟨v, hv⟩ := dxEntry_some_some (100 * (some yp).getD 0 / t)
    (100 * (some ym).getD 0 / t)
  exact ⟨v, by rw [hv]⟩

end Indicators

namespace Indicators

open Pipeline

theorem getLast?_cons_of_length_pos {α : Type} (a : α) (l : List α)
    (h : 0 < l.length) : (a :: l).getLast? = l.getLast? := by
  cases l with
  | nil => simp at h
  | cons b t => rw [List.getLast?_cons_cons]

theorem adx_incremental (p i : ℕ) (H L C : List ℚ) (hp : 0 < p)
    (h2p : 2 * p - 1 ≤ i) (hi : i < C.length)
    (hHL : H.length = L.length) (hHC : H.length = C.length)
    (hposHL : ∀ j, j < C.length → L.getD j 0 < H.getD j 0) :
    ((ADXIndicator.calculate p (H.take (i + 1)) (L.take (i + 1))
      (C.take (i + 1))).map fun r => r.adx) =
      (ADXIndicator.calculate p H L C).map fun r =>
        r.adx_series.getD i none := by
  unfold ADXIndicator.calculate
  rw [if_neg (by push_neg; rw [List.length_take, List.length_take,
      List.length_take]; omega),
    if_neg (by rw [List.length_take]; omega),
    if_neg (by push_neg; exact ⟨hHL, hHC⟩), if_neg (by omega)]
  dsimp only [Except.map]
  congr 1
  rw [List.length_take, show min (i + 1) C.length = i + 1 by omega,
    show i + 1 - 1 = i from rfl]
  have htr : ((List.range i).map fun k => k + 1).map
      (adxTrAt (H.take (i + 1)) (L.take (i + 1)) (C.take (i + 1))) =
      (((List.range (C.length - 1)).map fun k => k + 1).map
        (adxTrAt H L C)).take i := by
    rw [← List.map_take, ← List.map_take, List.take_range,
      show min i (C.length - 1) = i by omega]
    apply List.map_congr_left
    intro a ha
    rw [List.mem_map] at ha
    obtain ⟨k, hk, rfl⟩ := ha
    rw [List.mem_range] at hk
    exact adxTrAt_stable H L C (i + 1) (k + 1) (by omega)
  have hpdm : ((List.range i).map fun k => k + 1).map
      (fun a => (dmPair ((H.take (i + 1)).getD a 0)
        ((L.take (i + 1)).getD a 0) ((H.take (i + 1)).getD (a - 1) 0)
        ((L.take (i + 1)).getD (a - 1) 0)).1) =
      (((List.range (C.length - 1)).map fun k => k + 1).map
        (fun a => (dmPair (H.getD a 0) (L.getD a 0) (H.getD (a - 1) 0)
          (L.getD (a - 1) 0)).1)).take i := by
    rw [← List.map_take, ← List.map_take, List.take_range,
      show min i (C.length - 1) = i by omega]
    apply List.map_congr_left
    intro a ha
    rw [List.mem_map] at ha
    obtain ⟨k, hk, rfl⟩ := ha
    rw [List.mem_range] at hk
    rw [getD_take_of_lt H (i + 1) (k + 1) (by omega),
      getD_take_of_lt L (i + 1) (k + 1) (by omega),
      getD_take_of_lt H (i + 1) (k + 1 - 1) (by omega),
      getD_take_of_lt L (i + 1) (k + 1 - 1) (by omega)]
  have hmdm : ((List.range i).map fun k => k + 1).map
      (fun a => (dmPair ((H.take (i + 1)).getD a 0)
        ((L.take (i + 1)).getD a 0) ((H.take (i + 1)).getD (a - 1) 0)
        ((L.take (i + 1)).getD (a - 1) 0)).2) =
      (((List.range (C.length - 1)).map fun k => k + 1).map
        (fun a => (dmPair (H.getD a 0) (L.getD a 0) (H.getD (a - 1) 0)
          (L.getD (a - 1) 0)).2)).take i := by
    rw [← List.map_take, ← List.map_take, List.take_range,
      show min i (C.length - 1) = i by omega]
    apply List.map_congr_left
    intro a ha
    rw [List.mem_map] at ha
    obtain ⟨k, hk, rfl⟩ := ha
    rw [List.mem_range] at hk
    rw [getD_take_of_lt H (i + 1) (k + 1) (by omega),
      getD_take_of_lt L (i + 1) (k + 1) (by omega),
      getD_take_of_lt H (i + 1) (k + 1 - 1) (by omega),
      getD_take_of_lt L (i + 1) (k + 1 - 1) (by omega)]
  rw [htr, hpdm, hmdm]
  set R := (List.range (C.length - 1)).map (fun k => k + 1) with hR
  set TRv := R.map (adxTrAt H L C) with hTR
  set PDMv := R.map (fun a => (dmPair (H.getD a 0) (L.getD a 0)
    (H.getD (a - 1) 0) (L.getD (a - 1) 0)).1) with hPDM
  set MDMv := R.map (fun a => (dmPair (H.getD a 0) (L.getD a 0)
    (H.getD (a - 1) 0) (L.getD (a - 1) 0)).2) with hMDM
  have hRlen : R.length = C.length - 1 := by
    rw [hR]
    simp
  have hTRlen : TRv.length = C.length - 1 := by
    rw [hTR, List.length_map, hRlen]
  have hPDMlen : PDMv.length = C.length - 1 := by
    rw [hPDM, List.length_map, hRlen]
  have hMDMlen : MDMv.length = C.length - 1 := by
    rw [hMDM, List.length_map, hRlen]
  rw [_wilder_smooth_take TRv p i hp (by omega) (by omega),
    _wilder_smooth_take PDMv p i hp (by omega) (by omega),
    _wilder_smooth_take MDMv p i hp (by omega) (by omega),
    ← List.take_zipWith, ← List.take_zipWith, ← List.take_zipWith]
  set DXv := List.zipWith dxEntry
    (List.zipWith diEntry (_wilder_smooth TRv p) (_wilder_smooth PDMv p))
    (List.zipWith diEntry (_wilder_smooth TRv p) (_wilder_smooth MDMv p))
    with hDX
  have hDXlen : DXv.length = C.length - 1 := by
    rw [hDX, List.length_zipWith, List.length_zipWith, List.length_zipWith,
      _wilder_smooth_length _ p hp, _wilder_smooth_length _ p hp,
      _wilder_smooth_length _ p hp, hTRlen, hPDMlen, hMDMlen]
    omega
  have htrpos : ∀ x ∈ TRv, 0 < x := by
    rw [hTR, hR]
    intro x hx
    rw [List.mem_map] at hx
    obtain ⟨a, ha, rfl⟩ := hx
    rw [List.mem_map] at ha
    obtain ⟨k, hk, rfl⟩ := ha
    rw [List.mem_range] at hk
    unfold adxTrAt
    have hlt := hposHL (k + 1) (by omega)
    exact lt_of_lt_of_le (by linarith) (le_max_left _ _)
  have h1 : ∀ j, j < p - 1 → j < DXv.length → DXv[j]? = some none := by
    intro j hj hjl
    rw [hDX] at hjl ⊢
    exact dx_zip_prefix p j _ _ _ hj hp hjl
  have h2 : ∀ j, p - 1 ≤ j → j < DXv.length →
      ∃ v, DXv[j]? = some (some v) := by
    intro j hj hjl
    rw [hDX] at hjl ⊢
    exact dx_zip_some p j _ _ _ hp htrpos (by omega) (by omega) (by omega)
      hj hjl
  have hkey := adxOfDx_take_last p i DXv hp h2p (by omega) h1 h2
  have hXlen : (adxOfDx p (DXv.take i)).length = i := by
    rw [adxOfDx_length, List.length_take]
    omega
  have hlhs : fitLen (i + 1) (none :: adxOfDx p (DXv.take i)) =
      none :: adxOfDx p (DXv.take i) := by
    unfold fitLen
    rw [if_neg (by rw [List.length_cons, hXlen]; omega),
      show i + 1 - (none :: adxOfDx p (DXv.take i)).length = 0 from by
        rw [List.length_cons, hXlen]; omega]
    simp
  have hrhs : fitLen C.length (none :: adxOfDx p DXv) =
      none :: adxOfDx p DXv := by
    unfold fitLen
    rw [if_neg (by rw [List.length_cons, adxOfDx_length, hDXlen]; omega),
      show C.length - (none :: adxOfDx p DXv).length = 0 from by
        rw [List.length_cons, adxOfDx_length, hDXlen]; omega]
    simp
  rw [hlhs, hrhs]
  conv_rhs => rw [show i = i - 1 + 1 from by omega, List.getD_cons_succ]
  rw [getLast?_cons_of_length_pos _ _ (by rw [hXlen]; omega), hkey]
  rfl

end Indicators

namespace Indicators

open Pipeline

/-- C2: counterexample. At `i = 0` with `period = 2` on `P = [1, 3]`
(length `2 = warm-up + 1`, `0 ≤ i < 2`), the EMA of the one-bar prefix is
`None` (the kernel returns no value below the period), while element 0 of
the batch series is the cumulative mean `1` — so
`calculate(P[..=0]).latest ≠ calculate(P).series[0]`. -/
theorem C2_incremental_batch_counterexample :
    (EMAIndicator.calculate 2 (([1, 3] : List ℚ).take (0 + 1))).ema =
      none ∧
      (EMAIndicator.calculate 2 [1, 3]).ema_series[0]? = some 1 ∧
      2 ≤ ([1, 3] : List ℚ).length := by
  refine ⟨rfl, ?_, by decide⟩
  show (_ema [1, 3] 2)[0]? = some 1
  unfold _ema
  rw [if_neg (by simp)]
  rw [show List.range (2 - 1) = [0] from rfl]
  simp [cumMeanAt, meanOver]

/-- C2: amended. Incremental equals batch holds per kernel once the
prefix passes the kernel's own warm-up, with the batch index aligned to
the kernel's actual series shape: full-length series (EMA, ADX, VWAP,
volume MA) are read at index `i`, compacted series at `i` minus the
series offset (RSI and ATR at `i - p`, Bollinger, KDJ and CCI at
`i - (p-1)`, MACD at `i + 2 - s - g`); the "latest" is the kernel's own
latest field where it has one and the series' last element otherwise;
MACD additionally needs positive prices and ADX bars with
`low < high` (its DX stream then has no gaps) and `i ≥ 2p - 1`. -/
theorem C2_incremental_equals_batch (p f s g i : ℕ) (m : ℚ)
    (sq : ℚ → ℚ) (H L C V : List ℚ) (hp : 0 < p) (hf : 0 < f)
    (hfs : f ≤ s) (hg : 0 < g) (hi : i < C.length)
    (hHL : H.length = L.length) (hHC : H.length = C.length)
    (hHV : H.length = V.length) :
    (p ≤ i + 1 → (EMAIndicator.calculate p (C.take (i + 1))).ema =
      (EMAIndicator.calculate p C).ema_series[i]?) ∧
      (p ≤ i → ((RSIIndicator.calculate p (C.take (i + 1))).map fun r =>
        r.rsi.getLast?) =
        (RSIIndicator.calculate p C).map fun r => r.rsi[i - p]?) ∧
      (s ≤ i + 1 → g ≤ i + 2 - s → (∀ x ∈ C, 0 < x) →
        ((MACDIndicator.calculate f s g (C.take (i + 1))).map fun r =>
          r.macd_line.getLast?) =
          (MACDIndicator.calculate f s g C).map fun r =>
            r.macd_line[i + 2 - s - g]?) ∧
      (p ≤ i + 1 → (∀ x ∈ C, 0 ≤ x) →
        ((BollingerBandsIndicator.calculate p m sq (C.take (i + 1))).map
          fun r => r.percent_b.getLast?) =
          (BollingerBandsIndicator.calculate p m sq C).map fun r =>
            r.percent_b[i - (p - 1)]?) ∧
      (p ≤ i + 1 →
        ((KDJIndicator.calculate p g (H.take (i + 1)) (L.take (i + 1))
          (C.take (i + 1))).map fun r => (r.k, r.d, r.j)) =
          (KDJIndicator.calculate p g H L C).map fun r =>
            (r.k_series[i - (p - 1)]?, r.d_series[i - (p - 1)]?,
              r.j_series[i - (p - 1)]?)) ∧
      (p + 1 ≤ i + 1 →
        ((ATRIndicator.calculate p (H.take (i + 1)) (L.take (i + 1))
          (C.take (i + 1))).map fun r => r.atr) =
          (ATRIndicator.calculate p H L C).map fun r =>
            r.atr_series[i - p]?) ∧
      (2 * p - 1 ≤ i → (∀ j, j < C.length → L.getD j 0 < H.getD j 0) →
        ((ADXIndicator.calculate p (H.take (i + 1)) (L.take (i + 1))
          (C.take (i + 1))).map fun r => r.adx) =
          (ADXIndicator.calculate p H L C).map fun r =>
            r.adx_series.getD i none) ∧
      (p ≤ i + 1 →
        ((CCIIndicator.calculate p (H.take (i + 1)) (L.take (i + 1))
          (C.take (i + 1))).map fun r => r.cci.getLast?) =
          (CCIIndicator.calculate p H L C).map fun r =>
            r.cci[i - (p - 1)]?) ∧
      (((VWAPIndicator.calculate (H.take (i + 1)) (L.take (i + 1))
        (C.take (i + 1)) (V.take (i + 1))).map fun r => r.vwap) =
        (VWAPIndicator.calculate H L C V).map fun r =>
          r.vwap_series[i]?) ∧
      (p ≤ i + 1 →
        (VolumeIndicator.calculate p (V.take (i + 1))).volume_ma =
          (VolumeIndicator.calculate p V).volume_ma_series.getD i none) :=
  ⟨fun h => ema_incremental p i C hp h hi,
   fun h => rsi_incremental p i C hp h hi,
   fun hs hgi hpos => macd_incremental f s g i C hf hfs hg hs hgi hi hpos,
   fun h hnn => boll_incremental p i m sq C hp h hi hnn,
   fun h => kdj_incremental p g i H L C hp h hi hHL hHC,
   fun h => atr_incremental p i H L C hp h hi hHL hHC,
   fun h2p hpos => adx_incremental p i H L C hp h2p hi hHL hHC hpos,
   fun h => cci_incremental p i H L C hp h hi hHL hHC,
   vwap_incremental i H L C V hi hHL hHC hHV,
   fun h => volume_incremental p i V hp h (by omega)⟩

end Indicators

namespace Indicators

open Pipeline

/-- Witness for C2 at bar `i = 3`, `period 2`, MACD `(2,3,2)`, on the
5-bar input `H = [2..6]`, `L = C = [1..5]`, `V = [1,1,1,1,1]`. -/
theorem C2_incremental_equals_batch_witness :
    (EMAIndicator.calculate 2 (([1, 2, 3, 4, 5] : List ℚ).take (3 + 1))).ema
        = (EMAIndicator.calculate 2 [1, 2, 3, 4, 5]).ema_series[3]? ∧
      ((RSIIndicator.calculate 2
        (([1, 2, 3, 4, 5] : List ℚ).take (3 + 1))).map fun r =>
          r.rsi.getLast?) =
        ((RSIIndicator.calculate 2 [1, 2, 3, 4, 5]).map fun r =>
          r.rsi[1]?) ∧
      ((MACDIndicator.calculate 2 3 2
        (([1, 2, 3, 4, 5] : List ℚ).take (3 + 1))).map fun r =>
          r.macd_line.getLast?) =
        ((MACDIndicator.calculate 2 3 2 [1, 2, 3, 4, 5]).map fun r =>
          r.macd_line[0]?) ∧
      ((BollingerBandsIndicator.calculate 2 2 id
        (([1, 2, 3, 4, 5] : List ℚ).take (3 + 1))).map fun r =>
          r.percent_b.getLast?) =
        ((BollingerBandsIndicator.calculate 2 2 id [1, 2, 3, 4, 5]).map
          fun r => r.percent_b[2]?) ∧
      ((KDJIndicator.calculate 2 2 (([2, 3, 4, 5, 6] : List ℚ).take (3 + 1))
        (([1, 2, 3, 4, 5] : List ℚ).take (3 + 1))
        (([1, 2, 3, 4, 5] : List ℚ).take (3 + 1))).map fun r =>
          (r.k, r.d, r.j)) =
        ((KDJIndicator.calculate 2 2 [2, 3, 4, 5, 6] [1, 2, 3, 4, 5]
          [1, 2, 3, 4, 5]).map fun r =>
          (r.k_series[2]?, r.d_series[2]?, r.j_series[2]?)) ∧
      ((ATRIndicator.calculate 2 (([2, 3, 4, 5, 6] : List ℚ).take (3 + 1))
        (([1, 2, 3, 4, 5] : List ℚ).take (3 + 1))
        (([1, 2, 3, 4, 5] : List ℚ).take (3 + 1))).map fun r => r.atr) =
        ((ATRIndicator.calculate 2 [2, 3, 4, 5, 6] [1, 2, 3, 4, 5]
          [1, 2, 3, 4, 5]).map fun r => r.atr_series[1]?) ∧
      ((ADXIndicator.calculate 2 (([2, 3, 4, 5, 6] : List ℚ).take (3 + 1))
        (([1, 2, 3, 4, 5] : List ℚ).take (3 + 1))
        (([1, 2, 3, 4, 5] : List ℚ).take (3 + 1))).map fun r => r.adx) =
        ((ADXIndicator.calculate 2 [2, 3, 4, 5, 6] [1, 2, 3, 4, 5]
          [1, 2, 3, 4, 5]).map fun r => r.adx_series.getD 3 none) ∧
      ((CCIIndicator.calculate 2 (([2, 3, 4, 5, 6] : List ℚ).take (3 + 1))
        (([1, 2, 3, 4, 5] : List ℚ).take (3 + 1))
        (([1, 2, 3, 4, 5] : List ℚ).take (3 + 1))).map fun r =>
          r.cci.getLast?) =
        ((CCIIndicator.calculate 2 [2, 3, 4, 5, 6] [1, 2, 3, 4, 5]
          [1, 2, 3, 4, 5]).map fun r => r.cci[2]?) ∧
      ((VWAPIndicator.calculate (([2, 3, 4, 5, 6] : List ℚ).take (3 + 1))
        (([1, 2, 3, 4, 5] : List ℚ).take (3 + 1))
        (([1, 2, 3, 4, 5] : List ℚ).take (3 + 1))
        (([1, 1, 1, 1, 1] : List ℚ).take (3 + 1))).map fun r => r.vwap) =
        ((VWAPIndicator.calculate [2, 3, 4, 5, 6] [1, 2, 3, 4, 5]
          [1, 2, 3, 4, 5] [1, 1, 1, 1, 1]).map fun r =>
          r.vwap_series[3]?) ∧
      (VolumeIndicator.calculate 2
        (([1, 1, 1, 1, 1] : List ℚ).take (3 + 1))).volume_ma =
        (VolumeIndicator.calculate 2
          [1, 1, 1, 1, 1]).volume_ma_series.getD 3 none := by
  have h := C2_incremental_equals_batch 2 2 3 2 3 2 id [2, 3, 4, 5, 6]
    [1, 2, 3, 4, 5] [1, 2, 3, 4, 5] [1, 1, 1, 1, 1] (by decide) (by decide)
    (by decide) (by decide) (by decide) rfl rfl rfl
  exact ⟨h.1 (by decide), h.2.1 (by decide),
    h.2.2.1 (by decide) (by decide) (by decide),
    h.2.2.2.1 (by decide) (by decide), h.2.2.2.2.1 (by decide),
    h.2.2.2.2.2.1 (by decide), h.2.2.2.2.2.2.1 (by decide) (by decide),
    h.2.2.2.2.2.2.2.1 (by decide), h.2.2.2.2.2.2.2.2.1,
    h.2.2.2.2.2.2.2.2.2 (by decide)⟩

end Indicators
